import Mathlib

/-! Kokua viewer: the inventory bridge layer.

A shallow embedding of `indra/newview/llinventorybridge.cpp`.  The bridge
functions are translated statement by statement into state-passing functions
on a `World`.  Calls into collaborators that are outside the excerpt (the
inventory model, the gesture manager, the message system, the clipboard) are
either recorded in an effect log (`World.log`, oldest first) or, where their
answer feeds back into bridge code, given a small executable model whose doc
comment says so.
-/

namespace Kokua

/-- Identifier of an inventory object (`LLUUID`); `0` stands for `LLUUID::null`. -/
abbrev LLUUID := Nat

namespace LLAssetType

/-- Asset types named by the bridge code (`LLAssetType::EType`). -/
inductive EType
  | AT_TEXTURE | AT_SOUND | AT_CALLINGCARD | AT_LANDMARK | AT_SCRIPT
  | AT_CLOTHING | AT_OBJECT | AT_NOTECARD | AT_CATEGORY | AT_ROOT_CATEGORY
  | AT_LSL_TEXT | AT_BODYPART | AT_ANIMATION | AT_GESTURE
  | AT_LINK | AT_LINK_FOLDER | AT_NONE
  deriving DecidableEq, Repr

/-- Modelled from the spec: `LLAssetType::lookupIsLinkType` (the asset type
dictionary is outside the excerpt); the link types are the item link and the
folder link. -/
def lookupIsLinkType : EType → Bool
  | .AT_LINK => true
  | .AT_LINK_FOLDER => true
  | _ => false

/-- Modelled from the spec: `LLAssetType::lookupCanLink` (the asset type
dictionary is outside the excerpt); the linkable types are the wearable,
attachable and gesture types. -/
def lookupCanLink : EType → Bool
  | .AT_CLOTHING => true
  | .AT_OBJECT => true
  | .AT_BODYPART => true
  | .AT_GESTURE => true
  | _ => false

end LLAssetType

namespace LLFolderType

/-- Preferred folder types (`LLFolderType::EType`). -/
inductive EType
  | FT_TEXTURE | FT_SOUND | FT_CALLINGCARD | FT_LANDMARK | FT_CLOTHING
  | FT_OBJECT | FT_NOTECARD | FT_CATEGORY | FT_ROOT_CATEGORY | FT_LSL_TEXT
  | FT_BODYPART | FT_TRASH | FT_SNAPSHOT_CATEGORY | FT_LOST_AND_FOUND
  | FT_ANIMATION | FT_GESTURE | FT_FAVORITE | FT_CURRENT_OUTFIT | FT_OUTFIT
  | FT_MY_OUTFITS | FT_NONE
  deriving DecidableEq, Repr

/-- Modelled from the spec: `LLFolderType::lookupIsProtectedType` (the folder
type dictionary is outside the excerpt); the protected types are the default
folders (trash, current outfit, the per-asset-type roots, ...), while plain
folders (`FT_NONE`) and outfit folders are not protected. -/
def lookupIsProtectedType : EType → Bool
  | .FT_NONE => false
  | .FT_OUTFIT => false
  | _ => true

end LLFolderType

namespace LLInventoryType

/-- Inventory types (`LLInventoryType::EType`). -/
inductive EType
  | IT_TEXTURE | IT_SOUND | IT_CALLINGCARD | IT_LANDMARK | IT_OBJECT
  | IT_NOTECARD | IT_CATEGORY | IT_ROOT_CATEGORY | IT_LSL | IT_SNAPSHOT
  | IT_ATTACHMENT | IT_WEARABLE | IT_ANIMATION | IT_GESTURE | IT_NONE
  deriving DecidableEq, Repr

end LLInventoryType

/-- Permission bit `PERM_MODIFY` (bit 14 of a permission mask). -/
def PERM_MODIFY : Nat := 0x4000

/-- Permission bit `PERM_COPY` (bit 15 of a permission mask). -/
def PERM_COPY : Nat := 0x8000

/-- The permission set of an item (`LLPermissions`). -/
structure LLPermissions where
  mOwner : LLUUID := 0
  mGroup : LLUUID := 0
  mIsGroupOwned : Bool := false
  mMaskBase : Nat := 0
  mMaskOwner : Nat := 0
  mMaskGroup : Nat := 0
  mMaskEveryone : Nat := 0
  deriving DecidableEq, Repr

/-- Modelled from the spec: `LLPermissions::allowOperationBy` (outside the
excerpt), the per-agent evaluation of a permission bit: the owner is judged by
the owner mask, anybody else by the everyone mask, a null requester never
qualifies. -/
def LLPermissions.allowOperationBy (p : LLPermissions) (op : Nat) (requester : LLUUID) : Bool :=
  if requester == 0 then false
  else if p.mIsGroupOwned && p.mGroup == requester then p.mMaskOwner &&& op != 0
  else if !p.mIsGroupOwned && p.mOwner == requester then p.mMaskOwner &&& op != 0
  else p.mMaskEveryone &&& op != 0

/-- Permission bit `PERM_TRANSFER` (bit 13 of a permission mask). -/
def PERM_TRANSFER : Nat := 0x2000

/-- Modelled from the spec: `LLPermissions::allowTransferTo` (outside the
excerpt): the owner may always hand the item to themselves, anybody else needs
the transfer bit of the owner mask. -/
def LLPermissions.allowTransferTo (p : LLPermissions) (agent : LLUUID) : Bool :=
  if p.mOwner == agent then true else p.mMaskOwner &&& PERM_TRANSFER != 0

/-- The mask `PERM_ITEM_UNRESTRICTED`: modify, copy and transfer together. -/
def PERM_ITEM_UNRESTRICTED : Nat := PERM_MODIFY ||| PERM_COPY ||| PERM_TRANSFER

/-- Modify permission for an agent (`LLPermissions::allowModifyBy`). -/
def LLPermissions.allowModifyBy (p : LLPermissions) (agent : LLUUID) : Bool :=
  p.allowOperationBy PERM_MODIFY agent

/-- Copy permission for an agent (`LLPermissions::allowCopyBy`). -/
def LLPermissions.allowCopyBy (p : LLPermissions) (agent : LLUUID) : Bool :=
  p.allowOperationBy PERM_COPY agent

/-- An inventory item as the model stores it (`LLViewerInventoryItem`).
`mType` is the actual asset type; for a link, `mLinkedType` is the asset type
of the object the link resolves to, when it resolves. -/
structure LLViewerInventoryItem where
  mUUID : LLUUID
  mParentUUID : LLUUID
  mType : LLAssetType.EType := .AT_OBJECT
  mName : String := ""
  mPermissions : LLPermissions := {}
  mLinkedType : Option LLAssetType.EType := none
  mCreatorID : LLUUID := 0
  mSortField : Int := 0
  mInventoryType : LLInventoryType.EType := .IT_NONE
  mIsComplete : Bool := true
  /-- The asset id; for a link, the id of the object it links to
  (`getLinkedUUID`). -/
  mAssetUUID : LLUUID := 0
  deriving DecidableEq, Repr

/-- Actual asset type (`getActualType`). -/
def LLViewerInventoryItem.getActualType (i : LLViewerInventoryItem) : LLAssetType.EType :=
  i.mType

/-- Link test (`getIsLinkType`). -/
def LLViewerInventoryItem.getIsLinkType (i : LLViewerInventoryItem) : Bool :=
  LLAssetType.lookupIsLinkType i.mType

/-- Modelled from the spec: `LLViewerInventoryItem::getType` (outside the
excerpt): a link that resolves reports the type of its target, every other
item its own type. -/
def LLViewerInventoryItem.getType (i : LLViewerInventoryItem) : LLAssetType.EType :=
  if i.getIsLinkType then i.mLinkedType.getD i.mType else i.mType

/-- An inventory folder as the model stores it (`LLViewerInventoryCategory`). -/
structure LLViewerInventoryCategory where
  mUUID : LLUUID
  mParentUUID : LLUUID
  mPreferredType : LLFolderType.EType := .FT_NONE
  mName : String := ""
  mOwnerID : LLUUID := 0
  mType : LLAssetType.EType := .AT_CATEGORY
  deriving DecidableEq, Repr

/-- The inventory model (`LLInventoryModel`): the category map, the item map,
the agent's root folder, and the default folder of each folder type. -/
structure LLInventoryModel where
  mCategoryMap : List LLViewerInventoryCategory := []
  mItemMap : List LLViewerInventoryItem := []
  mRootFolderID : LLUUID := 0
  mDefaultFolders : List (LLFolderType.EType × LLUUID) := []
  deriving DecidableEq, Repr

namespace LLInventoryModel

/-- Category lookup by id (`getCategory`); `none` is the NULL pointer. -/
def getCategory (m : LLInventoryModel) (id : LLUUID) : Option LLViewerInventoryCategory :=
  m.mCategoryMap.find? (fun c => c.mUUID == id)

/-- Item lookup by id (`getItem`); `none` is the NULL pointer. -/
def getItem (m : LLInventoryModel) (id : LLUUID) : Option LLViewerInventoryItem :=
  m.mItemMap.find? (fun i => i.mUUID == id)

/-- Parent of the object `getObject` finds for an id: the category map is
consulted first, then the item map. -/
def getObjectParent (m : LLInventoryModel) (id : LLUUID) : Option LLUUID :=
  match m.getCategory id with
  | some c => some c.mParentUUID
  | none =>
    match m.getItem id with
    | some i => some i.mParentUUID
    | none => none

/-- Root folder of the agent's inventory (`getRootFolderID`). -/
def getRootFolderID (m : LLInventoryModel) : LLUUID := m.mRootFolderID

/-- Modelled from the spec: `findCategoryUUIDForType` (the model is outside
the excerpt), the default folder of a folder type; the model carries the
answer as a table, and a type without an entry gives the null id. -/
def findCategoryUUIDForType (m : LLInventoryModel) (t : LLFolderType.EType) : LLUUID :=
  match m.mDefaultFolders.find? (fun e => e.1 == t) with
  | some e => e.2
  | none => 0

/-- Walk up the parent chain from `parent_id` looking for `cat_id`: a null
parent ends the walk with FALSE, only categories are followed. -/
def ancestorWalk (m : LLInventoryModel) (cat_id : LLUUID) : Nat → LLUUID → Bool
  | 0, _ => false
  | fuel + 1, parent_id =>
    if parent_id == 0 then false
    else if parent_id == cat_id then true
    else
      match m.getCategory parent_id with
      | none => false
      | some c => ancestorWalk m cat_id fuel c.mParentUUID

/-- Modelled from the spec: `isObjectDescendentOf` (the model is outside the
excerpt), the descendant-of test: the object must exist and `cat_id` must be
reached by following parents.  The walk is bounded by the number of
categories, which suffices on every acyclic tree. -/
def isObjectDescendentOf (m : LLInventoryModel) (obj_id cat_id : LLUUID) : Bool :=
  match m.getObjectParent obj_id with
  | none => false
  | some p => m.ancestorWalk cat_id (m.mCategoryMap.length + 1) p

/-- Modelled from the spec: `updateItem` (the model is outside the excerpt)
"updates the local model object": the stored item with the same id is
replaced, an unknown item is added. -/
def updateItem (m : LLInventoryModel) (item : LLViewerInventoryItem) : LLInventoryModel :=
  if m.mItemMap.any (fun i => i.mUUID == item.mUUID) then
    { m with mItemMap := m.mItemMap.map (fun i => if i.mUUID == item.mUUID then item else i) }
  else
    { m with mItemMap := m.mItemMap ++ [item] }

/-- Modelled from the spec: `updateCategory` (the model is outside the
excerpt), the folder counterpart of `updateItem`. -/
def updateCategory (m : LLInventoryModel) (cat : LLViewerInventoryCategory) : LLInventoryModel :=
  if m.mCategoryMap.any (fun c => c.mUUID == cat.mUUID) then
    { m with mCategoryMap := m.mCategoryMap.map (fun c => if c.mUUID == cat.mUUID then cat else c) }
  else
    { m with mCategoryMap := m.mCategoryMap ++ [cat] }

end LLInventoryModel

/-- Modelled from the spec: the wearable types (`EWearableType`, declared
outside the excerpt): the four body parts shape, skin, hair and eyes, and the
clothing types. -/
inductive EWearableType
  | WT_SHAPE | WT_SKIN | WT_HAIR | WT_EYES
  | WT_SHIRT | WT_PANTS | WT_SHOES | WT_SOCKS | WT_JACKET | WT_GLOVES
  | WT_UNDERSHIRT | WT_UNDERPANTS | WT_SKIRT | WT_ALPHA | WT_TATTOO
  | WT_INVALID
  deriving DecidableEq, Repr

/-- Calls into collaborators, in the order the bridge code makes them. -/
inductive Event
  /-- `gInventory.accountForUpdate(update)` with its (category, delta) list. -/
  | accountForUpdate (update : List (LLUUID × Int))
  /-- `updateParentOnServer(restamp)` on the copy of an object, with its new parent. -/
  | updateParentOnServer (id : LLUUID) (parent : LLUUID) (restamp : Bool)
  /-- `updateServer(FALSE)` on the copy of an object. -/
  | updateServer (id : LLUUID)
  /-- `model->updateItem(item)`. -/
  | updateItem (id : LLUUID)
  /-- `model->updateCategory(cat)`. -/
  | updateCategory (id : LLUUID)
  /-- `model->notifyObservers()`. -/
  | notifyObservers
  /-- `LLGestureManager::deactivateGesture(id)`. -/
  | deactivateGesture (id : LLUUID)
  /-- `LLPreview::hide(id)`. -/
  | previewHide (id : LLUUID)
  /-- `LLPreview::dirty(id)`. -/
  | previewDirty (id : LLUUID)
  /-- `copy_inventory_item(agent, owner, item, parent, ...)`. -/
  | copyInventoryItem (item : LLUUID) (parent : LLUUID)
  /-- `link_inventory_item(agent, object, parent, ...)`. -/
  | linkInventoryItem (object : LLUUID) (parent : LLUUID)
  /-- `LLAppearanceManager::wearEnsemble(cat)`. -/
  | wearEnsemble (cat : LLUUID)
  /-- `gAgent.sendReliableMessage()` of the message built so far: its name and
  the (object, destination) pair of each `InventoryData` block. -/
  | sendReliableMessage (name : String) (blocks : List (LLUUID × LLUUID))
  /-- `gInventory.moveObject(id, cat)`. -/
  | moveObject (id : LLUUID) (cat : LLUUID)
  /-- `warn_move_inventory(object, move_inv)` for a move list into `category`. -/
  | warnMoveInventory (object : LLUUID) (category : LLUUID)
  /-- The forced response to the `MoveInventoryFromObject` notification. -/
  | forceMoveInventoryFromObject (object : LLUUID) (category : LLUUID)
  /-- `LLAvatarActions::removeFriendDialog(creator)`. -/
  | removeFriendDialog (creator : LLUUID)
  /-- `item->setSortField(n)` on an item of the model. -/
  | setSortField (id : LLUUID) (n : Int)
  /-- `active_panel->unSelectAll()`. -/
  | unSelectAll
  /-- `LLAppearanceManager::wearItem(item)`. -/
  | wearItem (id : LLUUID)
  /-- `copy_inventory_from_notecard(object, notecard, item)`. -/
  | copyInventoryFromNotecard (item : LLUUID)
  /-- The `RezRestoreToWorld` message with the packed item, sent reliably to the
  host of the agent's region. -/
  | rezRestoreToWorld (item : LLUUID)
  /-- `gInventory.deleteObject(id)`. -/
  | deleteObject (id : LLUUID)
  /-- `gInventory.purgeObject(id)`. -/
  | purgeObject (id : LLUUID)
  /-- `gAgentWearables.removeWearable(type, do_remove_all, index)`. -/
  | removeWearable (type : EWearableType) (do_remove_all : Bool) (index : Nat)
  deriving DecidableEq, Repr

/-- An in-world object as the drag code sees it (`LLViewerObject`): its id, its
inventory contents and whether the agent owns it (`permYouOwner`). -/
structure LLViewerObject where
  mID : LLUUID
  mInventory : List LLViewerInventoryItem := []
  mPermYouOwner : Bool := false
  deriving DecidableEq, Repr

/-- Where a drag started (`LLToolDragAndDrop::ESource`). -/
inductive ESource
  | SOURCE_AGENT | SOURCE_WORLD | SOURCE_NOTECARD | SOURCE_LIBRARY
  deriving DecidableEq, Repr

/-- Everything the bridge code reads or writes: the global inventory model,
the clipboard, the agent and its avatar, the gesture manager, the drag tool,
and the log of calls made so far. -/
structure World where
  gInventory : LLInventoryModel := {}
  /-- Ids held by `LLInventoryClipboard`, in order. -/
  mClipboard : List LLUUID := []
  /-- Cut-mode flag of the clipboard (`isCutMode`). -/
  mCutMode : Bool := false
  /-- Agent id (`gAgent.getID()`). -/
  agentID : LLUUID := 1
  /-- Whether `gAgent.getAvatarObject()` is non-NULL. -/
  hasAvatar : Bool := true
  /-- Items the avatar wears as attachments (`isWearingAttachment`). -/
  mAttachments : List LLUUID := []
  /-- Wearables the agent wears (`gAgentWearables.isWearingItem`). -/
  mWornItems : List LLUUID := []
  /-- Gestures the gesture manager holds active (`isGestureActive`). -/
  mActiveGestures : List LLUUID := []
  /-- Folders inside the Calling Card/Friends folder (`isCategoryInFriendFolder`). -/
  mFriendFolders : List LLUUID := []
  /-- Source of the drag in progress (`LLToolDragAndDrop::getSource`). -/
  mSource : ESource := .SOURCE_AGENT
  /-- In-world objects known to the viewer (`gObjectList`). -/
  mObjectList : List LLViewerObject := []
  /-- The item of the folder view the drag is over (`getDraggingOverItem`),
  by the id of its listener. -/
  mDraggingOverItem : Option LLUUID := none
  /-- Whether an active inventory floater exists whose panel is not the panel
  of the bridge at work. -/
  mActivePanelIsOther : Bool := false
  /-- Whether the agent is godlike (`gAgent.isGodlike()`). -/
  mGodlike : Bool := false
  /-- Build flag `SUPPORT_ENSEMBLES`. -/
  supportEnsembles : Bool := false
  /-- Whether `gAgent.getRegion()` is non-NULL. -/
  hasRegion : Bool := true
  /-- Build flag `SHOW_ASSERT`: whether `llassert` checks its condition (it
  expands to nothing otherwise). -/
  showAssert : Bool := false
  /-- Number of `InventoryData` blocks at which `isSendFullFast` turns TRUE. -/
  mBlockLimit : Nat := 255
  /-- Calls made so far, oldest first. -/
  log : List Event := []
  deriving DecidableEq, Repr

namespace World

/-- Record a call. -/
def emit (w : World) (e : Event) : World :=
  { w with log := w.log ++ [e] }

/-- Whether the avatar wears the item as an attachment (`isWearingAttachment`). -/
def isWearingAttachment (w : World) (id : LLUUID) : Bool := w.mAttachments.contains id

/-- Whether the agent wears the wearable (`gAgentWearables.isWearingItem`). -/
def isWearingItem (w : World) (id : LLUUID) : Bool := w.mWornItems.contains id

/-- Whether the gesture is active (`LLGestureManager::isGestureActive`). -/
def isGestureActive (w : World) (id : LLUUID) : Bool := w.mActiveGestures.contains id

/-- Modelled from the spec: `LLGestureManager::deactivateGesture` (outside the
excerpt): the gesture is no longer active afterwards. -/
def deactivateGesture (w : World) (id : LLUUID) : World :=
  { w with mActiveGestures := w.mActiveGestures.filter (fun g => g != id),
           log := w.log ++ [Event.deactivateGesture id] }

end World

/-- The concrete bridge classes `createBridge` constructs. -/
inductive BridgeKind
  | texture | sound | landmark | callingCard | script | object | notecard
  | animation | gesture | lslText | wearable | folder | linkFolder | linkItem
  deriving DecidableEq, Repr

/-- A bridge (`LLInvFVBridge` and its subclasses): the id of the inventory
object it stands for, its concrete class, and whether its inventory panel
handle still resolves, so that `getInventoryModel()` is non-NULL.  A panel's
model is the global model `gInventory`. -/
structure LLInvFVBridge where
  mUUID : LLUUID
  kind : BridgeKind := .texture
  hasModel : Bool := true
  mInvType : LLInventoryType.EType := .IT_NONE
  deriving DecidableEq, Repr

namespace LLInventoryModel

/-- One level of `collectDescendentsIf` with the always-true functor: nothing
below the trash folder unless `include_trash`, then every child folder
followed by its own descendants, then the child items. -/
def collectDescendentsAux (m : LLInventoryModel) (include_trash : Bool) :
    Nat → LLUUID → List LLViewerInventoryCategory × List LLViewerInventoryItem
  | 0, _ => ([], [])
  | fuel + 1, id =>
    if !include_trash && (m.findCategoryUUIDForType .FT_TRASH != 0
        && m.findCategoryUUIDForType .FT_TRASH == id) then ([], [])
    else
      let sub := (m.mCategoryMap.filter (fun c => c.mParentUUID == id)).foldl
        (fun acc c =>
          let r := collectDescendentsAux m include_trash fuel c.mUUID
          (acc.1 ++ c :: r.1, acc.2 ++ r.2)) ([], [])
      (sub.1, sub.2 ++ m.mItemMap.filter (fun i => i.mParentUUID == id))

/-- Modelled from the spec: `collectDescendents` (the model is outside the
excerpt), the recursive collection of all folders and items below a folder;
the depth is bounded by the number of categories. -/
def collectDescendents (m : LLInventoryModel) (id : LLUUID) (include_trash : Bool) :
    List LLViewerInventoryCategory × List LLViewerInventoryItem :=
  m.collectDescendentsAux include_trash (m.mCategoryMap.length + 1) id

/-- Modelled from the spec: `moveObject` (the model is outside the excerpt),
the generic move: the folder with that id, or else the item with that id, gets
the new parent. -/
def moveObject (m : LLInventoryModel) (object_id cat_id : LLUUID) : LLInventoryModel :=
  match m.getCategory object_id with
  | some _ =>
    let cats := m.mCategoryMap.map
      (fun c => if c.mUUID == object_id then { c with mParentUUID := cat_id } else c)
    { m with mCategoryMap := cats }
  | none =>
    let items := m.mItemMap.map
      (fun i => if i.mUUID == object_id then { i with mParentUUID := cat_id } else i)
    { m with mItemMap := items }

end LLInventoryModel

namespace LLInvFVBridge

/-- `LLInvFVBridge::isItemRemovable`. -/
def isItemRemovable (b : LLInvFVBridge) (w : World) : Bool :=
  if !b.hasModel then false
  else if w.gInventory.isObjectDescendentOf b.mUUID w.gInventory.getRootFolderID then true
  else false

/-- `LLInvFVBridge::isInTrash`. -/
def isInTrash (b : LLInvFVBridge) (w : World) : Bool :=
  if !b.hasModel then false
  else
    let trash_id := w.gInventory.findCategoryUUIDForType .FT_TRASH
    w.gInventory.isObjectDescendentOf b.mUUID trash_id

/-- `LLInvFVBridge::isAgentInventory`. -/
def isAgentInventory (b : LLInvFVBridge) (w : World) : Bool :=
  if !b.hasModel then false
  else if w.gInventory.getRootFolderID == b.mUUID then true
  else w.gInventory.isObjectDescendentOf b.mUUID w.gInventory.getRootFolderID

end LLInvFVBridge

/-- The worn test `LLFolderBridge::isItemRemovable` and
`dragCategoryIntoFolder` apply to a descendant item: a clothing or body part
item the agent wears, or else an object item attached to the avatar. -/
def isWornOrAttached (w : World) (item : LLViewerInventoryItem) : Bool :=
  if item.getType == .AT_CLOTHING || item.getType == .AT_BODYPART then
    w.isWearingItem item.mUUID
  else if item.getType == .AT_OBJECT then
    w.isWearingAttachment item.mUUID
  else false

namespace LLFolderBridge

/-- `LLFolderBridge::getCategory`. -/
def getCategory (b : LLInvFVBridge) (w : World) : Option LLViewerInventoryCategory :=
  if b.hasModel then w.gInventory.getCategory b.mUUID else none

/-- `LLFolderBridge::isItemMovable`: the object the bridge stands for is read
as a category. -/
def isItemMovable (b : LLInvFVBridge) (w : World) : Bool :=
  match getCategory b w with
  | some cat => !LLFolderType.lookupIsProtectedType cat.mPreferredType
  | none => false

/-- `LLFolderBridge::isItemRemovable`. -/
def isItemRemovable (b : LLInvFVBridge) (w : World) : Bool :=
  if !b.hasModel then false
  else if !w.gInventory.isObjectDescendentOf b.mUUID w.gInventory.getRootFolderID then false
  else if !w.hasAvatar then false
  else
    match w.gInventory.getCategory b.mUUID with
    | none => false
    | some category =>
      if LLFolderType.lookupIsProtectedType category.mPreferredType then false
      else
        let d := w.gInventory.collectDescendents b.mUUID false
        if d.1.any (fun c => LLFolderType.lookupIsProtectedType c.mPreferredType) then false
        else if d.2.any (fun item => isWornOrAttached w item) then false
        else true

end LLFolderBridge

namespace LLObjectBridge

/-- `LLObjectBridge::isItemRemovable`. -/
def isItemRemovable (b : LLInvFVBridge) (w : World) : Bool :=
  if !w.hasAvatar then false
  else if w.isWearingAttachment b.mUUID then false
  else LLInvFVBridge.isItemRemovable b w

end LLObjectBridge

namespace LLWearableBridge

/-- `LLWearableBridge::isItemRemovable`. -/
def isItemRemovable (b : LLInvFVBridge) (w : World) : Bool :=
  if w.isWearingItem b.mUUID then false
  else LLInvFVBridge.isItemRemovable b w

end LLWearableBridge

namespace LLInvFVBridge

/-- The virtual call `bridge->isItemRemovable()`: folder, object and wearable
bridges override the base implementation. -/
def virtualIsItemRemovable (b : LLInvFVBridge) (w : World) : Bool :=
  match b.kind with
  | .folder => LLFolderBridge.isItemRemovable b w
  | .object => LLObjectBridge.isItemRemovable b w
  | .wearable => LLWearableBridge.isItemRemovable b w
  | _ => LLInvFVBridge.isItemRemovable b w

/-- `LLInvFVBridge::changeItemParent` (static). -/
def changeItemParent (w : World) (item : LLViewerInventoryItem) (new_parent : LLUUID)
    (restamp : Bool) : World :=
  if item.mParentUUID != new_parent then
    let update : List (LLUUID × Int) := [(item.mParentUUID, -1), (new_parent, 1)]
    let w := w.emit (.accountForUpdate update)
    let new_item := { item with mParentUUID := new_parent }
    let w := w.emit (.updateParentOnServer new_item.mUUID new_parent restamp)
    let w := { w with gInventory := w.gInventory.updateItem new_item }.emit (.updateItem new_item.mUUID)
    w.emit .notifyObservers
  else w

/-- `LLInvFVBridge::changeCategoryParent` (static). -/
def changeCategoryParent (w : World) (cat : LLViewerInventoryCategory) (new_parent : LLUUID)
    (restamp : Bool) : World :=
  if cat.mParentUUID != new_parent then
    let update : List (LLUUID × Int) := [(cat.mParentUUID, -1), (new_parent, 1)]
    let w := w.emit (.accountForUpdate update)
    let new_cat := { cat with mParentUUID := new_parent }
    let w := w.emit (.updateParentOnServer new_cat.mUUID new_parent restamp)
    let w := { w with gInventory := w.gInventory.updateCategory new_cat }.emit (.updateCategory new_cat.mUUID)
    w.emit .notifyObservers
  else w

/-- The loop of `LLInvFVBridge::isClipboardPasteable` over the clipboard: a
folder ends it with FALSE, and so does an item the agent may not copy. -/
def clipboardPasteableLoop (w : World) : List LLUUID → Bool
  | [] => true
  | item_id :: rest =>
    match w.gInventory.getCategory item_id with
    | some _ => false
    | none =>
      match w.gInventory.getItem item_id with
      | some item =>
        if !item.mPermissions.allowCopyBy w.agentID then false
        else clipboardPasteableLoop w rest
      | none => clipboardPasteableLoop w rest

/-- `LLInvFVBridge::isClipboardPasteable`. -/
def isClipboardPasteable (b : LLInvFVBridge) (w : World) : Bool :=
  if w.mClipboard.isEmpty || !isAgentInventory b w then false
  else if !b.hasModel then false
  else clipboardPasteableLoop w w.mClipboard

/-- The loop of `LLInvFVBridge::isClipboardPasteableAsLink` over the
clipboard: an item whose actual type cannot be linked ends it with FALSE, and
so does a folder whose preferred type is not protected. -/
def clipboardPasteableAsLinkLoop (w : World) : List LLUUID → Bool
  | [] => true
  | id :: rest =>
    let itemOk :=
      match w.gInventory.getItem id with
      | some item => LLAssetType.lookupCanLink item.getActualType
      | none => true
    if !itemOk then false
    else
      match w.gInventory.getCategory id with
      | some cat =>
        if !LLFolderType.lookupIsProtectedType cat.mPreferredType then false
        else clipboardPasteableAsLinkLoop w rest
      | none => clipboardPasteableAsLinkLoop w rest

/-- `LLInvFVBridge::isClipboardPasteableAsLink`. -/
def isClipboardPasteableAsLink (b : LLInvFVBridge) (w : World) : Bool :=
  if w.mClipboard.isEmpty || !isAgentInventory b w then false
  else if !b.hasModel then false
  else clipboardPasteableAsLinkLoop w w.mClipboard

end LLInvFVBridge

namespace LLFriendCardsManager

/-- Modelled from the spec: `isCategoryInFriendFolder` (the friend card
manager is outside the excerpt): whether the folder is one of the Calling
Card/Friends subfolders; a NULL folder is not. -/
def isCategoryInFriendFolder (w : World) (cat : Option LLViewerInventoryCategory) : Bool :=
  match cat with
  | some c => w.mFriendFolders.contains c.mUUID
  | none => false

/-- Modelled from the spec: `isObjDirectDescendentOfCategory` (the friend card
manager is outside the excerpt): whether the object is already a direct child
of the Friends subfolder; FALSE when either pointer is NULL or the folder is
not in the Friends folder.  The object is given by its parent, as `getObject`
finds it. -/
def isObjDirectDescendentOfCategory (w : World) (objParent : Option LLUUID)
    (cat : Option LLViewerInventoryCategory) : Bool :=
  match objParent, cat with
  | some p, some c => isCategoryInFriendFolder w (some c) && p == c.mUUID
  | _, _ => false

end LLFriendCardsManager

namespace LLItemBridge

/-- `LLItemBridge::getItem`. -/
def getItem (b : LLInvFVBridge) (w : World) : Option LLViewerInventoryItem :=
  if b.hasModel then w.gInventory.getItem b.mUUID else none

/-- `LLItemBridge::removeItem`: the result and the world afterwards. -/
def removeItem (b : LLInvFVBridge) (w : World) : Bool × World :=
  if !b.virtualIsItemRemovable w then (false, w)
  else
    let w := w.emit (.previewHide b.mUUID)
    if !b.hasModel then (false, w)
    else
      let trash_id := w.gInventory.findCategoryUUIDForType .FT_TRASH
      match getItem b w with
      | some item =>
        if !w.gInventory.isObjectDescendentOf b.mUUID trash_id then
          (true, LLInvFVBridge.changeItemParent w item trash_id true)
        else (false, w)
      | none => (false, w)

/-- `LLItemBridge::isItemCopyable`. -/
def isItemCopyable (b : LLInvFVBridge) (w : World) : Bool :=
  match getItem b w with
  | some item =>
    if !w.hasAvatar then false
    else if w.isWearingAttachment b.mUUID then false
    else if item.getIsLinkType then false
    else true
  | none => false

end LLItemBridge

namespace LLGestureBridge

/-- `LLGestureBridge::removeItem`. -/
def removeItem (b : LLInvFVBridge) (w : World) : Bool × World :=
  LLItemBridge.removeItem b (w.deactivateGesture b.mUUID)

end LLGestureBridge

/-- The loop both `LLFolderBridge::removeItem` and `dragCategoryIntoFolder` run
over the collected descendant items: every gesture that is active is
deactivated. -/
def deactivateActiveGestures (w : World) (items : List LLViewerInventoryItem) : World :=
  items.foldl (fun w item =>
    if item.getType == .AT_GESTURE && w.isGestureActive item.mUUID then
      w.deactivateGesture item.mUUID
    else w) w

/-- The acceptance loop of `move_inv_category_world_to_agent` over the
contents of the object: `(accept, is_move)`, starting from `(TRUE, FALSE)`; an
item the agent may neither copy and transfer nor move ends it with
`accept = FALSE`. -/
def worldContentsAccept (w : World) (object : LLViewerObject) (is_move : Bool) :
    List LLViewerInventoryItem → Bool × Bool
  | [] => (true, is_move)
  | item :: rest =>
    if item.mPermissions.allowCopyBy w.agentID && item.mPermissions.allowTransferTo w.agentID then
      worldContentsAccept w object is_move rest
    else if object.mPermYouOwner then
      worldContentsAccept w object true rest
    else (false, is_move)

/-- `move_inv_category_world_to_agent`. -/
def move_inv_category_world_to_agent (w : World) (object_id category_id : LLUUID)
    (drop : Bool) : Bool × World :=
  match w.mObjectList.find? (fun o => o.mID == object_id) with
  | none => (false, w)
  | some object =>
    if object.mInventory.isEmpty then (false, w)
    else
      let r := worldContentsAccept w object false object.mInventory
      if drop && r.1 then
        if r.2 then (r.1, w.emit (.warnMoveInventory object_id category_id))
        else (r.1, w.emit (.forceMoveInventoryFromObject object_id category_id))
      else (r.1, w)

namespace LLFolderBridge

/-- `LLFolderBridge::isItemRenameable`. -/
def isItemRenameable (b : LLInvFVBridge) (w : World) : Bool :=
  match getCategory b w with
  | some cat =>
    if !LLFolderType.lookupIsProtectedType cat.mPreferredType && cat.mOwnerID == w.agentID then true
    else false
  | none => false

/-- `LLFolderBridge::removeItem`: the result and the world afterwards. -/
def removeItem (b : LLInvFVBridge) (w : World) : Bool × World :=
  if !isItemRemovable b w then (false, w)
  else
    let w := w.emit (.previewHide b.mUUID)
    if !b.hasModel then (false, w)
    else
      let trash_id := w.gInventory.findCategoryUUIDForType .FT_TRASH
      let d := w.gInventory.collectDescendents b.mUUID false
      let w := deactivateActiveGestures w d.2
      match getCategory b w with
      | some cat => (true, LLInvFVBridge.changeCategoryParent w cat trash_id true)
      | none => (true, w)

/-- The backwards loop of `LLFolderBridge::isClipboardPasteable` over the
clipboard: TRUE when some entry is already a direct child of the Friends
subfolder. -/
def clipboardHasFriendDuplicate (w : World) (current_cat : Option LLViewerInventoryCategory)
    (objects : List LLUUID) : Bool :=
  objects.reverse.any (fun obj_id =>
    LLFriendCardsManager.isObjDirectDescendentOfCategory w
      (w.gInventory.getObjectParent obj_id) current_cat)

/-- `LLFolderBridge::isClipboardPasteable`. -/
def isClipboardPasteable (b : LLInvFVBridge) (w : World) : Bool :=
  if !LLInvFVBridge.isClipboardPasteable b w then false
  else if LLFriendCardsManager.isCategoryInFriendFolder w (getCategory b w) then
    if !b.hasModel then false
    else if clipboardHasFriendDuplicate w (getCategory b w) w.mClipboard then false
    else true
  else true

/-- The loop of `LLFolderBridge::isClipboardPasteableAsLink` over the
clipboard: a folder that is the destination or an ancestor of it ends it with
FALSE (no recursive pasting), and so does a duplicate in a Friends subfolder. -/
def pasteAsLinkLoop (w : World) (current_cat : LLViewerInventoryCategory)
    (is_in_friend_folder : Bool) : List LLUUID → Bool
  | [] => true
  | obj_id :: rest =>
    let recursive :=
      match w.gInventory.getCategory obj_id with
      | some cat =>
        cat.mUUID == current_cat.mUUID
          || w.gInventory.isObjectDescendentOf current_cat.mUUID cat.mUUID
      | none => false
    if recursive then false
    else if is_in_friend_folder
        && LLFriendCardsManager.isObjDirectDescendentOfCategory w
            (w.gInventory.getObjectParent obj_id) (some current_cat) then false
    else pasteAsLinkLoop w current_cat is_in_friend_folder rest

/-- `LLFolderBridge::isClipboardPasteableAsLink`. -/
def isClipboardPasteableAsLink (b : LLInvFVBridge) (w : World) : Bool :=
  if !LLInvFVBridge.isClipboardPasteableAsLink b w then false
  else if !b.hasModel then false
  else
    match getCategory b w with
    | some current_cat =>
      let is_in_friend_folder :=
        LLFriendCardsManager.isCategoryInFriendFolder w (some current_cat)
      pasteAsLinkLoop w current_cat is_in_friend_folder w.mClipboard
    | none => true

/-- One round of the loop of `LLFolderBridge::pasteFromClipboard`: a clipboard
entry that is an item is reparented in cut mode and copied otherwise. -/
def pasteStep (parent_id : LLUUID) (w : World) (obj_id : LLUUID) : World :=
  match w.gInventory.getItem obj_id with
  | some item =>
    if w.mCutMode then LLInvFVBridge.changeItemParent w item parent_id false
    else w.emit (.copyInventoryItem item.mUUID parent_id)
  | none => w

/-- `LLFolderBridge::pasteFromClipboard`. -/
def pasteFromClipboard (b : LLInvFVBridge) (w : World) : World :=
  if b.hasModel && isClipboardPasteable b w then
    w.mClipboard.foldl (pasteStep b.mUUID) w
  else w

/-- `move_is_into_trash` of the two drag functions: the destination is the
trash or lies in it. -/
def moveIsIntoTrash (b : LLInvFVBridge) (w : World) : Bool :=
  let trash_id := w.gInventory.findCategoryUUIDForType .FT_TRASH
  b.mUUID == trash_id || w.gInventory.isObjectDescendentOf b.mUUID trash_id

/-- `move_is_into_current_outfit` of the two drag functions. -/
def moveIsIntoCurrentOutfit (b : LLInvFVBridge) (w : World) : Bool :=
  let current_outfit_id := w.gInventory.findCategoryUUIDForType .FT_CURRENT_OUTFIT
  b.mUUID == current_outfit_id

/-- `move_is_into_outfit` of the two drag functions. -/
def moveIsIntoOutfit (b : LLInvFVBridge) (w : World) : Bool :=
  match getCategory b w with
  | some c => c.mPreferredType == .FT_OUTFIT
  | none => false

/-- The movability computation of `dragCategoryIntoFolder` for a folder of the
agent's inventory: the final `is_movable` and the descendants collected on the
way (none when the folder was found unmovable before they were collected). -/
def dragCategoryMovable (b : LLInvFVBridge) (w : World) (inv_cat : LLViewerInventoryCategory) :
    Bool × (List LLViewerInventoryCategory × List LLViewerInventoryItem) :=
  let is_movable := !LLFolderType.lookupIsProtectedType inv_cat.mPreferredType
  let is_movable :=
    if moveIsIntoCurrentOutfit b w || moveIsIntoOutfit b w then true else is_movable
  let is_movable :=
    if b.mUUID == w.gInventory.findCategoryUUIDForType .FT_FAVORITE then false
    else is_movable
  let d := if is_movable then w.gInventory.collectDescendents inv_cat.mUUID false else ([], [])
  let is_movable :=
    if is_movable then
      !d.1.any (fun c => LLFolderType.lookupIsProtectedType c.mPreferredType)
    else is_movable
  let is_movable :=
    if is_movable && moveIsIntoTrash b w then !d.2.any (fun item => isWornOrAttached w item)
    else is_movable
  (is_movable, d)

/-- The final `accept` of `dragCategoryIntoFolder` for a folder of the agent's
inventory: movable, not dropped on itself, not on its current parent, and not
into one of its own descendants. -/
def dragCategoryAccept (b : LLInvFVBridge) (w : World) (inv_cat : LLViewerInventoryCategory) :
    Bool :=
  (dragCategoryMovable b w inv_cat).1 && b.mUUID != inv_cat.mUUID
    && b.mUUID != inv_cat.mParentUUID
    && !w.gInventory.isObjectDescendentOf b.mUUID inv_cat.mUUID

/-- `LLFolderBridge::dragCategoryIntoFolder`: the result and the world
afterwards; `inv_cat = none` is the NULL pointer. -/
def dragCategoryIntoFolder (b : LLInvFVBridge) (w : World)
    (inv_cat : Option LLViewerInventoryCategory) (drop : Bool) : Bool × World :=
  match inv_cat with
  | none => (false, w)
  | some inv_cat =>
    if !b.hasModel then (false, w)
    else if !w.hasAvatar then (false, w)
    else if !LLInvFVBridge.isAgentInventory b w then (false, w)
    else
      let source := w.mSource
      let is_agent_inventory :=
        (w.gInventory.getCategory inv_cat.mUUID).isSome && source == .SOURCE_AGENT
      if is_agent_inventory then
        let descendent_items := (dragCategoryMovable b w inv_cat).2.2
        let accept := dragCategoryAccept b w inv_cat
        if accept && drop then
          let w1 := if moveIsIntoTrash b w then deactivateActiveGestures w descendent_items else w
          if moveIsIntoCurrentOutfit b w || moveIsIntoOutfit b w then
            if w.supportEnsembles then
              if moveIsIntoCurrentOutfit b w then (accept, w1.emit (.wearEnsemble inv_cat.mUUID))
              else (accept, w1.emit (.linkInventoryItem inv_cat.mUUID b.mUUID))
            else (accept, w1)
          else
            (accept, LLInvFVBridge.changeCategoryParent w1 inv_cat b.mUUID (moveIsIntoTrash b w))
        else (accept, w)
      else if source == .SOURCE_WORLD then
        move_inv_category_world_to_agent w inv_cat.mUUID b.mUUID drop
      else (false, w)

end LLFolderBridge

/-- The accounting map built by `removeBatchNoCheck` (`update_map_t`, a
`std::map` from folder id to count delta): `update[k] += d`, a missing key
starting from zero, keys kept in increasing order. -/
def updateMapAdd : List (LLUUID × Int) → LLUUID → Int → List (LLUUID × Int)
  | [], k, d => [(k, d)]
  | (k0, v) :: rest, k, d =>
    if k == k0 then (k0, v + d) :: rest
    else if k < k0 then (k, d) :: (k0, v) :: rest
    else (k0, v) :: updateMapAdd rest k d

/-- The locals of `removeBatchNoCheck` while it runs: the world, the ids to
move, the accounting map, the `start_new_message` flag and the
`InventoryData` blocks of the message under construction. -/
structure MoveBatch where
  w : World
  move_ids : List LLUUID := []
  update : List (LLUUID × Int) := []
  start_new_message : Bool := true
  blocks : List (LLUUID × LLUUID) := []
  deriving DecidableEq, Repr

namespace MoveBatch

/-- The flush sequence of `removeBatchNoCheck`: `start_new_message = true`,
`sendReliableMessage()`, `accountForUpdate(update)`, `update.clear()`. -/
def flush (st : MoveBatch) (name : String) : MoveBatch :=
  let w := st.w.emit (.sendReliableMessage name st.blocks)
  let w := w.emit (.accountForUpdate st.update)
  { st with start_new_message := true, w := w, update := [] }

/-- What both loops of `removeBatchNoCheck` do for an entry that is moved:
remember the id, account for it, start a message if none is open, add the
block, and flush when `isSendFullFast` says the message is full. -/
def addMove (st : MoveBatch) (name : String) (id parent trash_id : LLUUID) : MoveBatch :=
  let st := { st with move_ids := st.move_ids ++ [id] }
  let st := { st with update := updateMapAdd (updateMapAdd st.update parent (-1)) trash_id 1 }
  let st := if st.start_new_message then { st with start_new_message := false, blocks := [] } else st
  let st := { st with blocks := st.blocks ++ [(id, trash_id)] }
  if st.w.mBlockLimit ≤ st.blocks.length then st.flush name else st

end MoveBatch

namespace LLInvFVBridge

/-- One round of the first loop of `removeBatchNoCheck` (items). -/
def removeBatchItemStep (trash_id : LLUUID) (st : MoveBatch)
    (bridge : Option LLInvFVBridge) : MoveBatch :=
  match bridge with
  | none => st
  | some bridge =>
    if !bridge.virtualIsItemRemovable st.w then st
    else
      match st.w.gInventory.getItem bridge.mUUID with
      | some item =>
        if item.mParentUUID == trash_id then st
        else
          let st := { st with w := st.w.emit (.previewHide item.mUUID) }
          st.addMove "MoveInventoryItem" item.mUUID item.mParentUUID trash_id
      | none => st

/-- One round of the second loop of `removeBatchNoCheck` (folders). -/
def removeBatchCategoryStep (trash_id : LLUUID) (st : MoveBatch)
    (bridge : Option LLInvFVBridge) : MoveBatch :=
  match bridge with
  | none => st
  | some bridge =>
    if !bridge.virtualIsItemRemovable st.w then st
    else
      match st.w.gInventory.getCategory bridge.mUUID with
      | some cat =>
        if cat.mParentUUID == trash_id then st
        else st.addMove "MoveInventoryFolder" cat.mUUID cat.mParentUUID trash_id
      | none => st

/-- The "move everything" loop of `removeBatchNoCheck`. -/
def moveObjects (trash_id : LLUUID) (w : World) (move_ids : List LLUUID) : World :=
  move_ids.foldl (fun w id =>
    { w with gInventory := w.gInventory.moveObject id trash_id }.emit (.moveObject id trash_id)) w

/-- `LLInvFVBridge::removeBatchNoCheck`. -/
def removeBatchNoCheck (b : LLInvFVBridge) (w : World)
    (batch : List (Option LLInvFVBridge)) : World :=
  if !b.hasModel then w
  else
    let trash_id := w.gInventory.findCategoryUUIDForType .FT_TRASH
    let st : MoveBatch := { w := w }
    let st := batch.foldl (removeBatchItemStep trash_id) st
    let st := if !st.start_new_message then st.flush "MoveInventoryItem" else st
    let st := batch.foldl (removeBatchCategoryStep trash_id) st
    let st := if !st.start_new_message then st.flush "MoveInventoryFolder" else st
    let w := moveObjects trash_id st.w st.move_ids
    w.emit .notifyObservers

end LLInvFVBridge

/-! ## Sample worlds

A small inventory used to evaluate the code on concrete inputs: the root
folder `1` holds the trash `2`, a plain folder `3` and a second plain folder
`5`; folder `3` holds a "Textures" system folder `4`, a gesture `10` and an
object `11`; folder `4` holds a plain folder `6`; a "Landmarks" system folder
`7` lies in the trash. -/

/-- The sample inventory. -/
def sampleModel : LLInventoryModel :=
  { mCategoryMap :=
      [ { mUUID := 1, mParentUUID := 0, mPreferredType := .FT_ROOT_CATEGORY, mOwnerID := 100 },
        { mUUID := 2, mParentUUID := 1, mPreferredType := .FT_TRASH, mOwnerID := 100 },
        { mUUID := 3, mParentUUID := 1, mPreferredType := .FT_NONE, mOwnerID := 100 },
        { mUUID := 4, mParentUUID := 3, mPreferredType := .FT_TEXTURE, mOwnerID := 100 },
        { mUUID := 5, mParentUUID := 1, mPreferredType := .FT_NONE, mOwnerID := 100 },
        { mUUID := 6, mParentUUID := 4, mPreferredType := .FT_NONE, mOwnerID := 100 },
        { mUUID := 7, mParentUUID := 2, mPreferredType := .FT_LANDMARK, mOwnerID := 100 } ],
    mItemMap :=
      [ { mUUID := 10, mParentUUID := 3, mType := .AT_GESTURE,
          mPermissions := { mOwner := 100, mMaskOwner := 0x8000 } },
        { mUUID := 11, mParentUUID := 3, mType := .AT_OBJECT,
          mPermissions := { mOwner := 100, mMaskOwner := 0x8000 } } ],
    mRootFolderID := 1,
    mDefaultFolders := [(.FT_TRASH, 2), (.FT_CATEGORY, 1)] }

/-- The sample world: agent `100` with an avatar, nothing worn, gesture `10`
active, an empty clipboard. -/
def sampleWorld : World :=
  { gInventory := sampleModel, agentID := 100, mActiveGestures := [10] }

/-- The gesture `10` of the sample inventory. -/
def sampleGesture : LLViewerInventoryItem :=
  { mUUID := 10, mParentUUID := 3, mType := .AT_GESTURE,
    mPermissions := { mOwner := 100, mMaskOwner := 0x8000 } }

/-- The plain folder `3` of the sample inventory. -/
def sampleFolder : LLViewerInventoryCategory :=
  { mUUID := 3, mParentUUID := 1, mPreferredType := .FT_NONE, mOwnerID := 100 }

/-- The "Textures" system folder `4` of the sample inventory. -/
def sampleTextures : LLViewerInventoryCategory :=
  { mUUID := 4, mParentUUID := 3, mPreferredType := .FT_TEXTURE, mOwnerID := 100 }

/-- The bridge of the "Landmarks" system folder `7`. -/
def sampleLandmarksBridge : LLInvFVBridge := { mUUID := 7, kind := .folder }

/-- The bridge of the trash folder `2`. -/
def sampleTrashBridge : LLInvFVBridge := { mUUID := 2, kind := .folder }

/-- The bridge of the plain folder `3`. -/
def sampleFolderBridge : LLInvFVBridge := { mUUID := 3, kind := .folder }

/-- The bridge of the empty plain folder `5`. -/
def sampleEmptyFolderBridge : LLInvFVBridge := { mUUID := 5, kind := .folder }

/-- The bridge of the plain folder `6` inside the "Textures" folder. -/
def sampleInnerFolderBridge : LLInvFVBridge := { mUUID := 6, kind := .folder }

/-- The bridge of the gesture `10`. -/
def sampleGestureBridge : LLInvFVBridge := { mUUID := 10, kind := .gesture }

/-- The sample world with the "Textures" folder `4` on the clipboard. -/
def texturesCopiedWorld : World :=
  { sampleWorld with mClipboard := [4] }

/-- The sample world after the active gesture `10` was cut to the clipboard. -/
def cutGestureWorld : World :=
  { sampleWorld with mClipboard := [10], mCutMode := true }

/-! ## The bridge and action factories -/

/-- What `createBridge` writes to the log. -/
inductive CreateLog
  /-- The `llwarns` line "asset has inventory type ... on uuid ...". -/
  | llwarns (asset_type : LLAssetType.EType) (inv_type : LLInventoryType.EType) (uuid : LLUUID)
  /-- The `llinfos` line "Unhandled asset type". -/
  | llinfos (asset_type : LLAssetType.EType)
  deriving DecidableEq, Repr

namespace LLInvFVBridge

/-- `LLInvFVBridge::createBridge`: the new listener (`none` is NULL) and the
lines logged.  `inventoryHasModel` says whether the panel passed in has a
model. -/
def createBridge (asset_type actual_asset_type : LLAssetType.EType)
    (inv_type : LLInventoryType.EType) (inventoryHasModel : Bool) (uuid : LLUUID)
    (_flags : Nat) : Option LLInvFVBridge × List CreateLog :=
  let listener := fun (k : BridgeKind) =>
    ({ mUUID := uuid, kind := k, hasModel := inventoryHasModel } : LLInvFVBridge)
  let warn := fun (ok : Bool) =>
    if !ok then [CreateLog.llwarns asset_type inv_type uuid] else []
  let r : Option LLInvFVBridge × List CreateLog :=
    match asset_type with
    | .AT_TEXTURE =>
      (some (listener .texture), warn (inv_type == .IT_TEXTURE || inv_type == .IT_SNAPSHOT))
    | .AT_SOUND => (some (listener .sound), warn (inv_type == .IT_SOUND))
    | .AT_LANDMARK => (some (listener .landmark), warn (inv_type == .IT_LANDMARK))
    | .AT_CALLINGCARD => (some (listener .callingCard), warn (inv_type == .IT_CALLINGCARD))
    | .AT_SCRIPT => (some (listener .script), warn (inv_type == .IT_LSL))
    | .AT_OBJECT =>
      (some (listener .object), warn (inv_type == .IT_OBJECT || inv_type == .IT_ATTACHMENT))
    | .AT_NOTECARD => (some (listener .notecard), warn (inv_type == .IT_NOTECARD))
    | .AT_ANIMATION => (some (listener .animation), warn (inv_type == .IT_ANIMATION))
    | .AT_GESTURE => (some (listener .gesture), warn (inv_type == .IT_GESTURE))
    | .AT_LSL_TEXT => (some (listener .lslText), warn (inv_type == .IT_LSL))
    | .AT_CLOTHING => (some (listener .wearable), warn (inv_type == .IT_WEARABLE))
    | .AT_BODYPART => (some (listener .wearable), warn (inv_type == .IT_WEARABLE))
    | .AT_CATEGORY =>
      if actual_asset_type == .AT_LINK_FOLDER then (some (listener .linkFolder), [])
      else (some (listener .folder), [])
    | .AT_ROOT_CATEGORY =>
      if actual_asset_type == .AT_LINK_FOLDER then (some (listener .linkFolder), [])
      else (some (listener .folder), [])
    | .AT_LINK => (some (listener .linkItem), [])
    | .AT_LINK_FOLDER => (some (listener .linkItem), [])
    | _ => (none, [CreateLog.llinfos asset_type])
  match r.1 with
  | some new_listener => (some { new_listener with mInvType := inv_type }, r.2)
  | none => (none, r.2)

end LLInvFVBridge

/-- The concrete action classes `createAction` constructs. -/
inductive ActionKind
  | texture | sound | landmark | callingCard | object | notecard
  | animation | gesture | lslText | wearable
  deriving DecidableEq, Repr

/-- A bridge action (`LLInvFVBridgeAction` and its subclasses): the id of the
item, the concrete class, and whether the model pointer is non-NULL. -/
structure LLInvFVBridgeAction where
  mUUID : LLUUID
  kind : ActionKind
  hasModel : Bool := true
  deriving DecidableEq, Repr

namespace LLInvFVBridgeAction

/-- `LLInvFVBridgeAction::createAction`; `none` is NULL. -/
def createAction (asset_type : LLAssetType.EType) (uuid : LLUUID) (modelPresent : Bool) :
    Option LLInvFVBridgeAction :=
  let action := fun (k : ActionKind) =>
    some ({ mUUID := uuid, kind := k, hasModel := modelPresent } : LLInvFVBridgeAction)
  match asset_type with
  | .AT_TEXTURE => action .texture
  | .AT_SOUND => action .sound
  | .AT_LANDMARK => action .landmark
  | .AT_CALLINGCARD => action .callingCard
  | .AT_OBJECT => action .object
  | .AT_NOTECARD => action .notecard
  | .AT_ANIMATION => action .animation
  | .AT_GESTURE => action .gesture
  | .AT_LSL_TEXT => action .lslText
  | .AT_CLOTHING => action .wearable
  | .AT_BODYPART => action .wearable
  | _ => none

end LLInvFVBridgeAction

/-- The action class that corresponds to a bridge class: each per-asset-type
item bridge has the action of its asset type, except the deprecated script
bridge, for which no action class exists; folder and link bridges have none. -/
def actionOfBridge : BridgeKind → Option ActionKind
  | .texture => some .texture
  | .sound => some .sound
  | .landmark => some .landmark
  | .callingCard => some .callingCard
  | .script => none
  | .lslText => some .lslText
  | .object => some .object
  | .notecard => some .notecard
  | .animation => some .animation
  | .gesture => some .gesture
  | .wearable => some .wearable
  | .folder => none
  | .linkFolder => none
  | .linkItem => none

/-! ## Context menu entries -/

/-- Modelled from the spec: the selection flag `FIRST_SELECTED_ITEM` (declared
outside the excerpt), one bit of the `flags` word. -/
def FIRST_SELECTED_ITEM : Nat := 0x2

namespace LLItemBridge

/-- `LLItemBridge::isItemRenameable`. -/
def isItemRenameable (b : LLInvFVBridge) (w : World) : Bool :=
  match getItem b w with
  | some item =>
    if item.mInventoryType == .IT_CALLINGCARD then false
    else item.mPermissions.allowModifyBy w.agentID
  | none => false

/-- `LLItemBridge::isItemPermissive`. -/
def isItemPermissive (b : LLInvFVBridge) (w : World) : Bool :=
  match getItem b w with
  | some item =>
    let mask := item.mPermissions.mMaskBase
    if mask &&& PERM_ITEM_UNRESTRICTED == PERM_ITEM_UNRESTRICTED then true else false
  | none => false

end LLItemBridge

namespace LLInvFVBridge

/-- The virtual call `isItemRenameable()`: the folder bridge and the item
bridges each have their own. -/
def virtualIsItemRenameable (b : LLInvFVBridge) (w : World) : Bool :=
  match b.kind with
  | .folder => LLFolderBridge.isItemRenameable b w
  | _ => LLItemBridge.isItemRenameable b w

/-- The virtual call `isItemPermissive()`: `LLInvFVBridge::isItemPermissive`
is FALSE, the item bridges override it. -/
def virtualIsItemPermissive (b : LLInvFVBridge) (w : World) : Bool :=
  match b.kind with
  | .folder => false
  | _ => LLItemBridge.isItemPermissive b w

/-- The virtual call `isItemCopyable()`: `LLFolderBridge::isItemCopyable` is
TRUE, the item bridges use `LLItemBridge::isItemCopyable`. -/
def virtualIsItemCopyable (b : LLInvFVBridge) (w : World) : Bool :=
  match b.kind with
  | .folder => true
  | _ => LLItemBridge.isItemCopyable b w

/-- The virtual call `isClipboardPasteable()`. -/
def virtualIsClipboardPasteable (b : LLInvFVBridge) (w : World) : Bool :=
  match b.kind with
  | .folder => LLFolderBridge.isClipboardPasteable b w
  | _ => LLInvFVBridge.isClipboardPasteable b w

/-- The virtual call `isClipboardPasteableAsLink()`. -/
def virtualIsClipboardPasteableAsLink (b : LLInvFVBridge) (w : World) : Bool :=
  match b.kind with
  | .folder => LLFolderBridge.isClipboardPasteableAsLink b w
  | _ => LLInvFVBridge.isClipboardPasteableAsLink b w

/-- `LLInvFVBridge::getClipboardEntries`: the lists `items` and
`disabled_items` after the standard entries were pushed onto them. -/
def getClipboardEntries (b : LLInvFVBridge) (w : World) (show_asset_id : Bool)
    (items disabled_items : List String) (flags : Nat) : List String × List String :=
  let notFirst : Bool := flags &&& FIRST_SELECTED_ITEM == 0
  let items := items ++ ["Rename"]
  let disabled_items :=
    if !b.virtualIsItemRenameable w || notFirst then disabled_items ++ ["Rename"]
    else disabled_items
  let r : List String × List String :=
    if show_asset_id then
      (items ++ ["Copy Asset UUID"],
        if !(b.virtualIsItemPermissive w || w.mGodlike) || notFirst then
          disabled_items ++ ["Copy Asset UUID"]
        else disabled_items)
    else (items, disabled_items)
  let items := r.1 ++ ["Copy Separator"]
  let items := items ++ ["Copy"]
  let disabled_items :=
    if !b.virtualIsItemCopyable w then r.2 ++ ["Copy"] else r.2
  let items := items ++ ["Paste"]
  let disabled_items :=
    if !b.virtualIsClipboardPasteable w || notFirst then disabled_items ++ ["Paste"]
    else disabled_items
  let items := items ++ ["Paste As Link"]
  let disabled_items :=
    if !b.virtualIsClipboardPasteableAsLink w || notFirst then disabled_items ++ ["Paste As Link"]
    else disabled_items
  let items := items ++ ["Paste Separator"]
  let items := items ++ ["Delete"]
  let disabled_items :=
    if !b.virtualIsItemRemovable w then disabled_items ++ ["Delete"] else disabled_items
  let disabled_items :=
    if notFirst then disabled_items ++ ["Properties"] else disabled_items
  (items, disabled_items)

/-- The two lists `LLInvFVBridge::buildContextMenu` builds and hands to
`hide_context_entries`: the entries to show and the entries to disable. -/
def buildContextMenuEntries (b : LLInvFVBridge) (w : World) (flags : Nat) :
    List String × List String :=
  if isInTrash b w then
    let items := ["PurgeItem"]
    let disabled_items := if !b.virtualIsItemRemovable w then ["PurgeItem"] else []
    (items ++ ["RestoreItem"], disabled_items)
  else
    getClipboardEntries b w true ["Open", "Properties"] [] flags

end LLInvFVBridge

namespace LLTextureBridge

/-- The two lists `LLTextureBridge::buildContextMenu` builds and hands to
`hide_context_entries`. -/
def buildContextMenuEntries (b : LLInvFVBridge) (w : World) (flags : Nat) :
    List String × List String :=
  if LLInvFVBridge.isInTrash b w then
    let items := ["Purge Item"]
    let disabled_items := if !b.virtualIsItemRemovable w then ["Purge Item"] else []
    (items ++ ["Restore Item"], disabled_items)
  else
    let r := LLInvFVBridge.getClipboardEntries b w true ["Open", "Properties"] [] flags
    (r.1 ++ ["Texture Separator"] ++ ["Save As"], r.2)

end LLTextureBridge

/-- The empty plain folder `5` of the sample inventory. -/
def sampleEmptyFolder : LLViewerInventoryCategory :=
  { mUUID := 5, mParentUUID := 1, mPreferredType := .FT_NONE, mOwnerID := 100 }

/-- The sample world with a notecard `12` lying in the trash `2`. -/
def trashedNotecardWorld : World :=
  { sampleWorld with
    gInventory := sampleModel.updateItem
      { mUUID := 12, mParentUUID := 2, mType := .AT_NOTECARD, mInventoryType := .IT_NOTECARD,
        mPermissions := { mOwner := 100, mMaskOwner := 0x8000 } } }

/-- The bridge `createBridge` builds for the notecard `12`. -/
def trashedNotecardBridge : LLInvFVBridge :=
  { mUUID := 12, kind := .notecard, mInvType := .IT_NOTECARD }

/-! ## Reordering the Favorites folder -/

namespace LLInventoryModel

/-- Modelled from the spec: `collectDescendentsIf` with the functor
`LLIsType(type)` (the model is outside the excerpt): the collected items are
those of `collectDescendents` whose type is `type`. -/
def collectDescendentsIfIsType (m : LLInventoryModel) (id : LLUUID) (include_trash : Bool)
    (type : LLAssetType.EType) : List LLViewerInventoryItem :=
  (m.collectDescendents id include_trash).2.filter (fun item => item.getType == type)

end LLInventoryModel

/-- One round of the loop of `saveItemsOrder`: the item the pointer refers to
(the model's current copy when the model holds it) gets the next sort field
and is marked complete, the server and the model are updated. -/
def saveItemsOrderStep (st : Int × World) (item : LLViewerInventoryItem) : Int × World :=
  let sortField := st.1 + 1
  let pointee := (st.2.gInventory.getItem item.mUUID).getD item
  let w := st.2.emit (.setSortField pointee.mUUID sortField)
  let pointee := { pointee with mSortField := sortField, mIsComplete := true }
  let w := w.emit (.updateServer pointee.mUUID)
  let w := { w with gInventory := w.gInventory.updateItem pointee }.emit (.updateItem pointee.mUUID)
  (sortField, w)

/-- `saveItemsOrder`. -/
def saveItemsOrder (w : World) (items : List LLViewerInventoryItem) : World :=
  ((items.foldl saveItemsOrderStep (0, w)).2).emit .notifyObservers

/-- `findItemByUUID`: the position of the first item with that id, `none` for
`items.end()`. -/
def findItemByUUID (items : List LLViewerInventoryItem) (id : LLUUID) : Option Nat :=
  items.findIdx? (fun i => i.mUUID == id)

/-- `updateItemsOrder`: the list after the source item was spliced in before
the destination item.  `none` stands for the dereference of a NULL item or the
erase of `items.end()`. -/
def updateItemsOrder (w : World) (items : List LLViewerInventoryItem)
    (srcItemId destItemId : LLUUID) : Option (List LLViewerInventoryItem) :=
  match w.gInventory.getItem srcItemId, w.gInventory.getItem destItemId with
  | some srcItem, some destItem =>
    match findItemByUUID items srcItem.mUUID with
    | none => none
    | some i =>
      let items := items.eraseIdx i
      match findItemByUUID items destItem.mUUID with
      | some j => some (items.insertIdx j srcItem)
      | none => some (items ++ [srcItem])
  | _, _ => none

/-- The sort field an event writes, if it is a `setSortField` call. -/
def Event.sortFieldWritten : Event → Option (LLUUID × Int)
  | .setSortField id n => some (id, n)
  | _ => none

namespace LLFolderBridge

/-- Modelled from the spec: what `dragItemIntoFolder` reads when it casts an
item whose actual type is AT_CATEGORY to a folder and asks for its preferred
type; an item carries none, the model reads FT_NONE. -/
def castPreferredType (_item : LLViewerInventoryItem) : LLFolderType.EType := .FT_NONE

/-- `is_movable` of `dragItemIntoFolder` for an agent-inventory source, after
the actual-type switch, the worn check for a move into the trash and the
Friends duplicate check. -/
def dragItemMovable (b : LLInvFVBridge) (w : World) (inv_item : LLViewerInventoryItem) : Bool :=
  let is_movable :=
    match inv_item.getActualType with
    | .AT_ROOT_CATEGORY => false
    | .AT_CATEGORY => !LLFolderType.lookupIsProtectedType (castPreferredType inv_item)
    | _ => true
  let is_movable :=
    if is_movable && moveIsIntoTrash b w then
      match inv_item.getType with
      | .AT_CLOTHING => !w.isWearingItem inv_item.mUUID
      | .AT_BODYPART => !w.isWearingItem inv_item.mUUID
      | .AT_OBJECT => !w.isWearingAttachment inv_item.mUUID
      | _ => is_movable
    else is_movable
  if is_movable then
    !LLFriendCardsManager.isObjDirectDescendentOfCategory w (some inv_item.mParentUUID)
      (getCategory b w)
  else is_movable

/-- The branch of `dragItemIntoFolder` for a drag that started in the agent's
inventory: the result and the world afterwards; `none` stands for a crash
inside `updateItemsOrder`. -/
def dragItemFromAgent (b : LLInvFVBridge) (w : World) (inv_item : LLViewerInventoryItem)
    (drop : Bool) : Option (Bool × World) :=
  let is_movable := dragItemMovable b w inv_item
  let favorites_id := w.gInventory.findCategoryUUIDForType .FT_FAVORITE
  let accept := is_movable && (b.mUUID != inv_item.mParentUUID || b.mUUID == favorites_id)
  if accept && drop then
    let w :=
      if inv_item.getType == .AT_GESTURE && w.isGestureActive inv_item.mUUID
          && moveIsIntoTrash b w then
        w.deactivateGesture inv_item.mUUID
      else w
    let w := if w.mActivePanelIsOther then w.emit .unSelectAll else w
    if b.mUUID == inv_item.mParentUUID && favorites_id == b.mUUID then
      let items := w.gInventory.collectDescendentsIfIsType favorites_id false .AT_LANDMARK
      match w.mDraggingOverItem with
      | some destItemId =>
        match updateItemsOrder w items inv_item.mUUID destItemId with
        | some items => some (accept, saveItemsOrder w items)
        | none => none
      | none => some (accept, w)
    else if favorites_id == b.mUUID then
      some (accept, w.emit (.copyInventoryItem inv_item.mUUID b.mUUID))
    else if moveIsIntoCurrentOutfit b w || moveIsIntoOutfit b w then
      if moveIsIntoCurrentOutfit b w then some (accept, w.emit (.wearItem inv_item.mUUID))
      else some (accept, w.emit (.linkInventoryItem inv_item.mUUID b.mUUID))
    else
      some (accept, LLInvFVBridge.changeItemParent w inv_item b.mUUID (moveIsIntoTrash b w))
  else some (accept, w)

/-- `LLFolderBridge::dragItemIntoFolder`: the result and the world afterwards;
`none` stands for a crash inside `updateItemsOrder`. -/
def dragItemIntoFolder (b : LLInvFVBridge) (w : World) (inv_item : LLViewerInventoryItem)
    (drop : Bool) : Option (Bool × World) :=
  if !b.hasModel then some (false, w)
  else if !LLInvFVBridge.isAgentInventory b w then some (false, w)
  else if !w.hasAvatar then some (false, w)
  else
    let source := w.mSource
    if source == .SOURCE_AGENT then dragItemFromAgent b w inv_item drop
    else if source == .SOURCE_WORLD then
      match w.mObjectList.find? (fun o => o.mID == inv_item.mParentUUID) with
      | none => some (false, w)
      | some object =>
        let r : Bool × Bool :=
          if inv_item.mPermissions.allowCopyBy w.agentID
              && inv_item.mPermissions.allowTransferTo w.agentID then (true, false)
          else if object.mPermYouOwner then (true, true)
          else (false, false)
        if drop && r.1 then
          if r.2 then some (r.1, w.emit (.warnMoveInventory inv_item.mParentUUID b.mUUID))
          else some (r.1, w.emit (.forceMoveInventoryFromObject inv_item.mParentUUID b.mUUID))
        else some (r.1, w)
    else if source == .SOURCE_NOTECARD then
      if drop then some (true, w.emit (.copyInventoryFromNotecard inv_item.mUUID))
      else some (true, w)
    else if source == .SOURCE_LIBRARY then
      if inv_item.mIsComplete then
        if drop then some (true, w.emit (.copyInventoryItem inv_item.mUUID b.mUUID))
        else some (true, w)
      else some (false, w)
    else some (false, w)

end LLFolderBridge

/-- The sample inventory with a Favorites folder `8` holding the landmarks
`20`, `21` and `22`. -/
def favoritesModel : LLInventoryModel :=
  { sampleModel with
    mCategoryMap := sampleModel.mCategoryMap ++
      [ { mUUID := 8, mParentUUID := 1, mPreferredType := .FT_FAVORITE, mOwnerID := 100 } ],
    mItemMap := sampleModel.mItemMap ++
      [ { mUUID := 20, mParentUUID := 8, mType := .AT_LANDMARK },
        { mUUID := 21, mParentUUID := 8, mType := .AT_LANDMARK },
        { mUUID := 22, mParentUUID := 8, mType := .AT_LANDMARK } ],
    mDefaultFolders := [(.FT_TRASH, 2), (.FT_CATEGORY, 1), (.FT_FAVORITE, 8)] }

/-- The sample world with the Favorites folder, while landmark `22` is dragged
over landmark `20`. -/
def favoritesWorld : World :=
  { sampleWorld with gInventory := favoritesModel, mDraggingOverItem := some 20 }

/-- The bridge of the Favorites folder `8`. -/
def favoritesBridge : LLInvFVBridge := { mUUID := 8, kind := .folder }

/-- The landmark `22` of the Favorites folder. -/
def favoriteLandmark : LLViewerInventoryItem :=
  { mUUID := 22, mParentUUID := 8, mType := .AT_LANDMARK }

/-! ## The slider

`F32` values are taken as exact rationals: the rounding of single-precision
arithmetic is left out of the model, and so are NaN and the infinities.  `S32`
values are integers; the widths of a control are far from the ends of the
32-bit range, so no wrap-around is written into the arithmetic. -/

/-- An `F32` value, taken as an exact rational. -/
abbrev F32 := ℚ

/-- The cast `S32(x)` of an `F32`: the fractional part is discarded, so the
value is rounded toward zero. -/
def S32_of_F32 (x : F32) : Int :=
  if 0 ≤ x then ⌊x⌋ else ⌈x⌉

/-- Modelled from the spec: an `LLRect` with its four edges. -/
structure LLRect where
  mLeft : Int := 0
  mTop : Int := 0
  mRight : Int := 0
  mBottom : Int := 0
  deriving DecidableEq, Repr

/-- Modelled from the spec: `LLRect::getWidth`. -/
def LLRect.getWidth (r : LLRect) : Int := r.mRight - r.mLeft

/-- Modelled from the spec: `LLRect::getHeight`. -/
def LLRect.getHeight (r : LLRect) : Int := r.mTop - r.mBottom

/-- Modelled from the spec: `LLRect::getCenterY`, with `S32` division. -/
def LLRect.getCenterY (r : LLRect) : Int := Int.tdiv (r.mTop + r.mBottom) 2

/-- Modelled from the spec: a UI image, of which the slider reads the size. -/
structure LLUIImage where
  mWidth : Int
  mHeight : Int
  deriving DecidableEq, Repr

/-- The slider control.  `mValue` is the value held by the view model
(`getValueF32`), `mControlValues` the values handed to `setControlValue`,
oldest first, and `mCommits` the number of `onCommit` calls. -/
structure LLSlider where
  mMinValue : F32
  mMaxValue : F32
  mIncrement : F32
  mValue : F32
  mThumbImage : Option LLUIImage := none
  mRect : LLRect
  mThumbRect : LLRect := {}
  mControlValues : List F32 := []
  mCommits : Nat := 0
  deriving DecidableEq, Repr

/-- Modelled from the spec: `LLView::getLocalRect`, the rectangle of the
control with its origin moved to (0, 0). -/
def LLSlider.getLocalRect (s : LLSlider) : LLRect :=
  { mLeft := 0, mTop := s.mRect.getHeight, mRight := s.mRect.getWidth, mBottom := 0 }

/-- The constant `DEFAULT_THUMB_SIZE` of `LLSlider::updateThumbRect`. -/
def DEFAULT_THUMB_SIZE : Int := 16

/-- The local `thumb_width` of `LLSlider::updateThumbRect`. -/
def LLSlider.thumb_width (s : LLSlider) : Int :=
  match s.mThumbImage with
  | some image => image.mWidth
  | none => DEFAULT_THUMB_SIZE

/-- The local `thumb_height` of `LLSlider::updateThumbRect`. -/
def LLSlider.thumb_height (s : LLSlider) : Int :=
  match s.mThumbImage with
  | some image => image.mHeight
  | none => DEFAULT_THUMB_SIZE

/-- `LLSlider::updateThumbRect`. -/
def LLSlider.updateThumbRect (s : LLSlider) : LLSlider :=
  let t : F32 := (s.mValue - s.mMinValue) / (s.mMaxValue - s.mMinValue)
  let left_edge : Int := Int.tdiv s.thumb_width 2
  let right_edge : Int := s.mRect.getWidth - Int.tdiv s.thumb_width 2
  let x : Int := left_edge + S32_of_F32 (t * ((right_edge - left_edge : Int) : F32))
  let mLeft : Int := x - Int.tdiv s.thumb_width 2
  let mRight : Int := mLeft + s.thumb_width
  let mBottom : Int := s.getLocalRect.getCenterY - Int.tdiv s.thumb_height 2
  let mTop : Int := mBottom + s.thumb_height
  { s with mThumbRect := { mLeft := mLeft, mTop := mTop, mRight := mRight, mBottom := mBottom } }

/-- A slider from 0 to 10 in steps of 1, 116 wide and 16 high, with no thumb
image. -/
def sampleSlider : LLSlider :=
  { mMinValue := 0, mMaxValue := 10, mIncrement := 1, mValue := 0,
    mRect := { mLeft := 0, mTop := 16, mRight := 116, mBottom := 0 } }

/-- A slider 10 wide with a thumb image 3 wide, its value at the maximum. -/
def oddThumbSlider : LLSlider :=
  { mMinValue := 0, mMaxValue := 1, mIncrement := 1, mValue := 1,
    mThumbImage := some { mWidth := 3, mHeight := 3 },
    mRect := { mLeft := 0, mTop := 16, mRight := 10, mBottom := 0 } }

/-- The local `left_edge` of `LLSlider::updateThumbRect`. -/
def LLSlider.left_edge (s : LLSlider) : Int := Int.tdiv s.thumb_width 2

/-- The local `right_edge` of `LLSlider::updateThumbRect`. -/
def LLSlider.right_edge (s : LLSlider) : Int := s.mRect.getWidth - Int.tdiv s.thumb_width 2

/-- The local `t` of `LLSlider::updateThumbRect`: the value as a fraction of
the range. -/
def LLSlider.thumb_t (s : LLSlider) : F32 :=
  (s.mValue - s.mMinValue) / (s.mMaxValue - s.mMinValue)

/-- The slider from 0 to 10 with its value at the midpoint 5. -/
def midSlider : LLSlider := { sampleSlider with mValue := 5 }

/-! ## The About floater -/

/-- Modelled from the spec: the `LLSD` values `getInfo` stores (undefined,
integer, real, string, and arrays of integers or reals). -/
inductive LLSD
  | undefined
  | integer (n : Int)
  | real (x : F32)
  | string (s : String)
  | integerArray (xs : List Int)
  | realArray (xs : List F32)
  deriving DecidableEq, Repr

/-- Modelled from the spec: `LLSD::asReal`, the value as a real number, zero
for what is not a number. -/
def LLSD.asReal : LLSD → F32
  | .real x => x
  | .integer n => (n : F32)
  | _ => 0

/-- Modelled from the spec: an `LLSD` map, the record `getInfo` builds, as the
list of its keys with their values. -/
structure LLSDMap where
  entries : List (String × LLSD) := []
  deriving DecidableEq, Repr

namespace LLSDMap

/-- The assignment `map[key] = value` on a list of entries. -/
def setEntry : List (String × LLSD) → String → LLSD → List (String × LLSD)
  | [], key, value => [(key, value)]
  | (k, v) :: rest, key, value =>
    if k == key then (k, value) :: rest else (k, v) :: setEntry rest key value

/-- Modelled from the spec: `map[key] = value`, which replaces the value of a
key the map holds and adds the key otherwise. -/
def set (m : LLSDMap) (key : String) (value : LLSD) : LLSDMap :=
  { entries := setEntry m.entries key value }

/-- Modelled from the spec: `LLSD::has(key)`. -/
def has (m : LLSDMap) (key : String) : Bool :=
  m.entries.any (fun e => e.1 == key)

/-- Modelled from the spec: the read `map[key]`, undefined for a key the map
does not hold. -/
def get (m : LLSDMap) (key : String) : LLSD :=
  match m.entries.find? (fun e => e.1 == key) with
  | some e => e.2
  | none => .undefined

end LLSDMap

/-- The compiler the viewer was built with, as the conditional compilation in
`getInfo` sees it (`LL_MSVC`, `LL_GNUC`, or neither). -/
inductive Compiler
  | MSVC (version : Int)
  | GNUC (version : Int)
  | other
  deriving DecidableEq, Repr

/-- What `getInfo` reads of the agent's region, when the agent has one. -/
structure LLViewerRegion where
  mPositionGlobal : List F32 := [0, 0, 0]
  mName : String := ""
  mHostName : String := ""
  mHostString : String := ""
  mServerReleaseNotes : String := ""
  deriving DecidableEq, Repr

/-- Everything `LLFloaterAbout::getInfo` reads. -/
structure AboutEnv where
  versionMajor : Int := 0
  versionMinor : Int := 0
  versionPatch : Int := 0
  prettyVersion : String := ""
  buildDate : String := ""
  buildTime : String := ""
  viewerVariant : String := ""
  /-- The localized string `RELEASE_NOTES_BASE_URL`. -/
  releaseNotesBaseURL : String := ""
  compiler : Compiler := .other
  region : Option LLViewerRegion := none
  gLastVersionChannel : String := ""
  cpuString : String := ""
  physicalMemoryKB : Nat := 0
  osString : String := ""
  glVendor : String := ""
  glRenderer : String := ""
  /-- Build flag `LL_WINDOWS`. -/
  windows : Bool := false
  /-- The `DriverVersion` entry of `gDXHardware.getDisplayInfo()`, if it has one. -/
  driverVersion : Option LLSD := none
  glVersion : String := ""
  curlVersion : String := ""
  j2cEngineInfo : String := ""
  /-- The driver name of `gAudiop`, `none` for a NULL `gAudiop`. -/
  audioDriverName : Option String := none
  /-- The version of `gAudioStream`, `none` for a NULL `gAudioStream`. -/
  streamingVersion : Option String := none
  voiceEnabled : Bool := false
  voiceServerType : String := ""
  voiceServerVersion : String := ""
  /-- The localized string `NotConnected`. -/
  notConnected : String := ""
  /-- The global `U32 gPacketsIn`. -/
  gPacketsIn : Nat := 0
  /-- The value of `mPacketsLostStat.getCurrent()`. -/
  mPacketsLost : F32 := 0
  deriving DecidableEq, Repr

/-- Modelled from the spec: `LLWeb::escapeURL`, percent-escaping; only the
blank is escaped here. -/
def escapeURL (url : String) : String :=
  url.replace " " "%20"

/-- The function `get_viewer_release_notes_url`. -/
def get_viewer_release_notes_url (env : AboutEnv) : String :=
  let url := env.releaseNotesBaseURL
  let url := if !url.endsWith "/" then url ++ "/" else url
  let url := url ++ env.prettyVersion
  escapeURL url

/-- The first block of `getInfo`: version, build and channel. -/
def getInfoVersion (env : AboutEnv) (info : LLSDMap) : LLSDMap :=
  let version : List Int := [env.versionMajor, env.versionMinor, env.versionPatch]
  let info := info.set "VIEWER_VERSION" (LLSD.integerArray version)
  let info := info.set "VIEWER_VERSION_STR" (LLSD.string env.prettyVersion)
  let info := info.set "BUILD_DATE" (LLSD.string env.buildDate)
  let info := info.set "BUILD_TIME" (LLSD.string env.buildTime)
  let info := info.set "CHANNEL" (LLSD.string env.viewerVariant)
  info.set "VIEWER_RELEASE_NOTES_URL" (LLSD.string (get_viewer_release_notes_url env))

/-- The conditionally compiled compiler block of `getInfo`. -/
def getInfoCompiler (env : AboutEnv) (info : LLSDMap) : LLSDMap :=
  match env.compiler with
  | .MSVC v => (info.set "COMPILER" (LLSD.string "MSVC")).set "COMPILER_VERSION" (LLSD.integer v)
  | .GNUC v => (info.set "COMPILER" (LLSD.string "GCC")).set "COMPILER_VERSION" (LLSD.integer v)
  | .other => info

/-- The position block of `getInfo`, entered when the agent has a region. -/
def getInfoPosition (env : AboutEnv) (info : LLSDMap) : LLSDMap :=
  match env.region with
  | some region =>
    let info := info.set "POSITION" (LLSD.realArray region.mPositionGlobal)
    let info := info.set "REGION" (LLSD.string region.mName)
    let info := info.set "HOSTNAME" (LLSD.string region.mHostName)
    let info := info.set "HOSTIP" (LLSD.string region.mHostString)
    let info := info.set "SERVER_VERSION" (LLSD.string env.gLastVersionChannel)
    info.set "SERVER_RELEASE_NOTES_URL" (LLSD.string (escapeURL region.mServerReleaseNotes))
  | none => info

/-- The CPU, memory, system and graphics block of `getInfo`, with the driver
version that only a Windows build adds. -/
def getInfoSystem (env : AboutEnv) (info : LLSDMap) : LLSDMap :=
  let info := info.set "CPU" (LLSD.string env.cpuString)
  let info := info.set "MEMORY_MB" (LLSD.integer (Int.ofNat (env.physicalMemoryKB / 1024)))
  let info := info.set "OS_VERSION" (LLSD.string env.osString)
  let info := info.set "GRAPHICS_CARD_VENDOR" (LLSD.string env.glVendor)
  let info := info.set "GRAPHICS_CARD" (LLSD.string env.glRenderer)
  if env.windows then
    match env.driverVersion with
    | some v => info.set "GRAPHICS_DRIVER_VERSION" v
    | none => info
  else info

/-- The library, audio and voice block of `getInfo`. -/
def getInfoLibraries (env : AboutEnv) (info : LLSDMap) : LLSDMap :=
  let info := info.set "OPENGL_VERSION" (LLSD.string env.glVersion)
  let info := info.set "LIBCURL_VERSION" (LLSD.string env.curlVersion)
  let info := info.set "J2C_VERSION" (LLSD.string env.j2cEngineInfo)
  let audio : LLSD :=
    match env.audioDriverName with
    | some name => LLSD.string name
    | none => LLSD.undefined
  let info := info.set "AUDIO_DRIVER_VERSION" audio
  let streaming : LLSD :=
    match env.streamingVersion with
    | some v => LLSD.string v
    | none => LLSD.undefined
  let info := info.set "STREAMING_AUDIO_DRIVER_VERSION" streaming
  let info :=
    if env.voiceEnabled then
      info.set "VOICE_VERSION"
        (LLSD.string (env.voiceServerType ++ " " ++ env.voiceServerVersion ++ "\n"))
    else info.set "VOICE_VERSION" (LLSD.string env.notConnected)
  info.set "QT_WEBKIT_VERSION" (LLSD.string "4.6 (version number hard-coded)")

/-- The last block of `getInfo`, entered when `gPacketsIn > 0`. -/
def getInfoPackets (env : AboutEnv) (info : LLSDMap) : LLSDMap :=
  if env.gPacketsIn > 0 then
    let info := info.set "PACKETS_LOST" (LLSD.real env.mPacketsLost)
    let info := info.set "PACKETS_IN" (LLSD.real (Nat.cast env.gPacketsIn))
    let pct : F32 := 100 * (info.get "PACKETS_LOST").asReal / (info.get "PACKETS_IN").asReal
    info.set "PACKETS_PCT" (LLSD.real pct)
  else info

/-- `LLFloaterAbout::getInfo`. -/
def getInfo (env : AboutEnv) : LLSDMap :=
  let info : LLSDMap := {}
  let info := getInfoVersion env info
  let info := getInfoCompiler env info
  let info := getInfoPosition env info
  let info := getInfoSystem env info
  let info := getInfoLibraries env info
  getInfoPackets env info

/-- A viewer that received 200 packets and lost 3. -/
def sampleAboutEnv : AboutEnv :=
  { prettyVersion := "2.1.0", gPacketsIn := 200, mPacketsLost := 3 }

/-! ## The external editor launcher

Only the declaration of the class is part of the excerpt; the bodies of its
methods are modelled from the specification. -/

/-- What `LLExternalEditor::setCommand` reads besides its arguments: the value
of the predefined setting `sSetting` (empty when it is not set) and the
environment variables. -/
structure EditorEnv where
  mSetting : String := ""
  mEnvironment : List (String × String) := []
  deriving DecidableEq, Repr

/-- The value of an environment variable, `none` when it is not set. -/
def EditorEnv.getenv (env : EditorEnv) (name : String) : Option String :=
  (env.mEnvironment.find? (fun e => e.1 == name)).map (fun e => e.2)

/-- An `LLExternalEditor`: the stored command, as the program path handed to
the process launcher and the argument template `mArgs`. -/
structure LLExternalEditor where
  mExecutable : String := ""
  mArgs : List String := []
  deriving DecidableEq, Repr

namespace LLExternalEditor

/-- Modelled from the spec: `LLExternalEditor::findCommand`, whose body is
outside the excerpt: the explicit override string, then the predefined
setting, then the named environment variable; the empty string when none of
them gives a command. -/
def findCommand (env : EditorEnv) (env_var override : String) : String :=
  if override ≠ "" then override
  else if env.mSetting ≠ "" then env.mSetting
  else
    match env.getenv env_var with
    | some value => value
    | none => ""

/-- Modelled from the spec: `LLExternalEditor::tokenize`, whose body is outside
the excerpt: the command string split into its space-separated tokens. -/
def tokenize (str : String) : List String :=
  (str.splitOn " ").filter (fun t => t ≠ "")

/-- Modelled from the spec: `LLExternalEditor::setCommand`, whose body is
outside the excerpt: the command is resolved by `findCommand`; when none is
found the call reports failure and stores nothing, otherwise the command is
split into the program path and the argument list, which are stored, and the
call reports success. -/
def setCommand (ed : LLExternalEditor) (env : EditorEnv) (env_var override : String) :
    Bool × LLExternalEditor :=
  let cmd := findCommand env env_var override
  if cmd = "" then (false, ed)
  else
    let tokens := tokenize cmd
    (true, { mExecutable := tokens.headD "", mArgs := tokens.tail })

end LLExternalEditor

/-- An environment with the setting and the variable `EDITOR` both present. -/
def sampleEditorEnv : EditorEnv :=
  { mSetting := "gedit %s", mEnvironment := [("EDITOR", "vi %s")] }

/-! ## Hiding context menu entries -/

mutual
/-- A child view of a menu, as `hide_context_entries` sees it: its name,
whether it is visible and enabled, and, for a branch item
(`LLMenuItemBranchGL`), the menu it opens. -/
inductive LLMenuItemGL
  | item (mName : String) (mVisible mEnabled : Bool)
  | branch (mName : String) (mVisible mEnabled : Bool) (mBranch : LLMenuGL)
/-- A menu (`LLMenuGL`): the list of its children. -/
inductive LLMenuGL
  | nil
  | cons (child : LLMenuItemGL) (rest : LLMenuGL)
end

namespace LLMenuItemGL

/-- The name of a child (`getName`). -/
def getName : LLMenuItemGL → String
  | item n _ _ => n
  | branch n _ _ _ => n

/-- Whether a child is visible (`getVisible`). -/
def getVisible : LLMenuItemGL → Bool
  | item _ v _ => v
  | branch _ v _ _ => v

/-- Whether a child is enabled (`getEnabled`). -/
def getEnabled : LLMenuItemGL → Bool
  | item _ _ e => e
  | branch _ _ e _ => e

/-- The call `setVisible(visible)` on a child. -/
def setVisible : LLMenuItemGL → Bool → LLMenuItemGL
  | item n _ e, visible => item n visible e
  | branch n _ e m, visible => branch n visible e m

/-- The call `setEnabled(enabled)` on a child. -/
def setEnabled : LLMenuItemGL → Bool → LLMenuItemGL
  | item n v _, enabled => item n v enabled
  | branch n v _ m, enabled => branch n v enabled m

end LLMenuItemGL

/-- The children of a menu as a list (`getChildList`). -/
def LLMenuGL.getChildList : LLMenuGL → List LLMenuItemGL
  | .nil => []
  | .cons child rest => child :: rest.getChildList

/-- The inner loops of `hide_context_entries` for one child: the child is made
invisible when its name is not among `entries_to_show`, and disabled when it
is and also stands among `disabled_entries`. -/
def hide_context_entry (child : LLMenuItemGL) (entries_to_show disabled_entries : List String) :
    LLMenuItemGL :=
  let name := child.getName
  let found := entries_to_show.foldl (fun found entry => if entry == name then true else found)
    false
  if !found then child.setVisible false
  else
    disabled_entries.foldl (fun c entry => if entry == name then c.setEnabled false else c) child

mutual
/-- The body of the loop of `hide_context_entries` for one child: the descent
into the submenu of a branch named "More", then the inner loops. -/
def hide_context_entries_child (child : LLMenuItemGL)
    (entries_to_show disabled_entries : List String) : LLMenuItemGL :=
  match child with
  | .item n v e => hide_context_entry (.item n v e) entries_to_show disabled_entries
  | .branch n v e m =>
    if n == "More" then
      hide_context_entry
        (.branch n v e (hide_context_entries m entries_to_show disabled_entries))
        entries_to_show disabled_entries
    else hide_context_entry (.branch n v e m) entries_to_show disabled_entries
/-- The function `hide_context_entries`. -/
def hide_context_entries (menu : LLMenuGL) (entries_to_show disabled_entries : List String) :
    LLMenuGL :=
  match menu with
  | .nil => .nil
  | .cons child rest =>
    .cons (hide_context_entries_child child entries_to_show disabled_entries)
      (hide_context_entries rest entries_to_show disabled_entries)
end

/-- A menu with the entries "Open", "Delete" and "Properties" and a "More"
branch that holds "Copy" and "Paste". -/
def sampleMenu : LLMenuGL :=
  .cons (.item "Open" true true)
    (.cons (.item "Delete" true true)
      (.cons (.item "Properties" false false)
        (.cons (.branch "More" true true
            (.cons (.item "Copy" true true) (.cons (.item "Paste" true true) .nil)))
          .nil)))

/-- The menu a branch item opens (`getBranch`), `none` for a plain item. -/
def LLMenuItemGL.getBranch : LLMenuItemGL → Option LLMenuGL
  | .item _ _ _ => none
  | .branch _ _ _ m => some m

/-- The landmarks of the Favorites folder, in the order of their positions. -/
def favoriteLandmarks : List LLViewerInventoryItem :=
  [ { mUUID := 20, mParentUUID := 8, mType := .AT_LANDMARK },
    { mUUID := 21, mParentUUID := 8, mType := .AT_LANDMARK },
    { mUUID := 22, mParentUUID := 8, mType := .AT_LANDMARK } ]

/-! ## Restoring to the world and taking off a wearable -/

namespace LLInventoryModel

/-- Modelled from the spec: `deleteObject` (the model is outside the excerpt):
the object with that id is no longer in the model afterwards. -/
def deleteObject (m : LLInventoryModel) (id : LLUUID) : LLInventoryModel :=
  { m with mCategoryMap := m.mCategoryMap.filter (fun c => c.mUUID != id),
           mItemMap := m.mItemMap.filter (fun i => i.mUUID != id) }

end LLInventoryModel

namespace World

/-- Modelled from the spec: `gInventory.purgeObject(id)` (the model is outside
the excerpt): the object is permanently deleted from the model. -/
def purgeObject (w : World) (id : LLUUID) : World :=
  { w with gInventory := w.gInventory.deleteObject id }.emit (.purgeObject id)

end World

/-- `LLItemBridge::restoreToWorld`.  `none` stands for the dereference of a NULL
pointer: of `gAgent.getRegion()` while the message is sent, or of `itemp` after
the block that the test of `itemp` guards. -/
def LLItemBridge.restoreToWorld (b : LLInvFVBridge) (w : World) : Option World :=
  let itemp := LLItemBridge.getItem b w
  let sent : Option World :=
    match itemp with
    | some item => if w.hasRegion then some (w.emit (.rezRestoreToWorld item.mUUID)) else none
    | none => some w
  match sent with
  | none => none
  | some w =>
    match itemp with
    | none => none
    | some item =>
      let remove_from_inventory := false
      let remove_from_inventory :=
        if !item.mPermissions.allowCopyBy w.agentID then true else remove_from_inventory
      let trash_id := w.gInventory.findCategoryUUIDForType .FT_TRASH
      let remove_from_inventory :=
        if w.gInventory.isObjectDescendentOf item.mUUID trash_id then true
        else remove_from_inventory
      if remove_from_inventory then
        let w := { w with gInventory := w.gInventory.deleteObject item.mUUID }.emit
          (.deleteObject item.mUUID)
        some (w.emit .notifyObservers)
      else some w

/-- A bridge for the id `99`, which the model does not hold. -/
def missingItemBridge : LLInvFVBridge := { mUUID := 99, kind := .object }

namespace LLInvFVBridge

/-- The item for which the first loop of `removeBatchNoCheck` adds a move, if
the batch entry gets one: the entry is a bridge, removable, stands for an item
of the model, and the parent of that item is not the trash folder. -/
def removeBatchItemMoved (w : World) (trash_id : LLUUID) (bridge : Option LLInvFVBridge) :
    Option LLViewerInventoryItem :=
  match bridge with
  | none => none
  | some bridge =>
    if bridge.virtualIsItemRemovable w then
      match w.gInventory.getItem bridge.mUUID with
      | some item => if item.mParentUUID == trash_id then none else some item
      | none => none
    else none

/-- The folder for which the second loop of `removeBatchNoCheck` adds a move,
if the batch entry gets one. -/
def removeBatchCategoryMoved (w : World) (trash_id : LLUUID) (bridge : Option LLInvFVBridge) :
    Option LLViewerInventoryCategory :=
  match bridge with
  | none => none
  | some bridge =>
    if bridge.virtualIsItemRemovable w then
      match w.gInventory.getCategory bridge.mUUID with
      | some cat => if cat.mParentUUID == trash_id then none else some cat
      | none => none
    else none

/-- The ids `removeBatchNoCheck` moves for a batch, in the order of
`move_ids`: the items of the first loop, then the folders of the second. -/
def removeBatchMovedIds (w : World) (trash_id : LLUUID) (batch : List (Option LLInvFVBridge)) :
    List LLUUID :=
  (batch.filterMap (removeBatchItemMoved w trash_id)).map (fun item => item.mUUID)
    ++ (batch.filterMap (removeBatchCategoryMoved w trash_id)).map (fun cat => cat.mUUID)

/-- What the first loop of `removeBatchNoCheck` does for an item it moves. -/
def removeBatchAddItem (trash_id : LLUUID) (st : MoveBatch) (item : LLViewerInventoryItem) :
    MoveBatch :=
  MoveBatch.addMove { st with w := st.w.emit (.previewHide item.mUUID) } "MoveInventoryItem"
    item.mUUID item.mParentUUID trash_id

/-- What the second loop of `removeBatchNoCheck` does for a folder it moves. -/
def removeBatchAddCategory (trash_id : LLUUID) (st : MoveBatch)
    (cat : LLViewerInventoryCategory) : MoveBatch :=
  st.addMove "MoveInventoryFolder" cat.mUUID cat.mParentUUID trash_id

end LLInvFVBridge

/-- The `InventoryData` blocks of a call, when it is `sendReliableMessage`. -/
def Event.blocksSent : Event → List (LLUUID × LLUUID)
  | .sendReliableMessage _ blocks => blocks
  | _ => []

/-- The object and the folder of a call, when it is `moveObject`. -/
def Event.objectMoved : Event → Option (LLUUID × LLUUID)
  | .moveObject id cat => some (id, cat)
  | _ => none

/-- The parent in the model of the object a block of a move message names: of
the item for `MoveInventoryItem`, of the folder for `MoveInventoryFolder`. -/
def blockParent (m : LLInventoryModel) (name : String) (id : LLUUID) : LLUUID :=
  if name == "MoveInventoryItem" then ((m.getItem id).map (fun i => i.mParentUUID)).getD 0
  else ((m.getCategory id).map (fun c => c.mParentUUID)).getD 0

/-- The accounting map for the blocks of one move message: for each block the
parent of its object one down and the trash folder one up. -/
def accountFor (m : LLInventoryModel) (name : String) (trash_id : LLUUID)
    (blocks : List (LLUUID × LLUUID)) : List (LLUUID × Int) :=
  blocks.foldl
    (fun update block =>
      updateMapAdd (updateMapAdd update (blockParent m name block.1) (-1)) trash_id 1) []

/-- Whether a sequence of calls consists of `LLPreview::hide` calls and of
pairs of a `sendReliableMessage` call directly followed by the
`accountForUpdate` call with the accounting map for the blocks of that
message, and of nothing else. -/
def sendsThenAccounts (m : LLInventoryModel) (trash_id : LLUUID) : List Event → Bool
  | [] => true
  | .previewHide _ :: rest => sendsThenAccounts m trash_id rest
  | .sendReliableMessage name blocks :: .accountForUpdate update :: rest =>
    (update == accountFor m name trash_id blocks) && sendsThenAccounts m trash_id rest
  | _ => false

/-- The sample inventory with the notecard `13` in the folder `7`, which lies
in the trash. -/
def nestedTrashWorld : World :=
  { sampleWorld with
    gInventory := sampleModel.updateItem
      { mUUID := 13, mParentUUID := 7, mType := .AT_NOTECARD, mInventoryType := .IT_NOTECARD,
        mPermissions := { mOwner := 100, mMaskOwner := 0x8000 } } }

/-- The bridge of the notecard `13`. -/
def nestedTrashBridge : LLInvFVBridge :=
  { mUUID := 13, kind := .notecard, mInvType := .IT_NOTECARD }

/-- The state of the loops of `removeBatchNoCheck` agrees with the calls `L`
made since the start in the world `w0`: the world differs from `w0` by these
calls only, they are previews hidden and messages sent and accounted for, the
blocks sent and the blocks of the open message are those of the ids to move,
and the accounting map is that of the open message. -/
def MoveBatch.Inv (w0 : World) (trash_id : LLUUID) (name : String) (st : MoveBatch)
    (L : List Event) : Prop :=
  st.w = { w0 with log := w0.log ++ L }
  ∧ sendsThenAccounts w0.gInventory trash_id L = true
  ∧ L.flatMap Event.blocksSent ++ (if st.start_new_message then [] else st.blocks)
      = st.move_ids.map (fun id => (id, trash_id))
  ∧ st.update
      = (if st.start_new_message then [] else accountFor w0.gInventory name trash_id st.blocks)

/-! ## Lookup lemmas for the model -/

/-- Replacing the entries with the key of `x` by `x` makes the lookup of that
key find `x`, when the key was present. -/
theorem find?_replace_self {α : Type} (key : α → Nat) (x : α) (l : List α)
    (h : l.any (fun i => key i == key x) = true) :
    (l.map (fun i => if key i == key x then x else i)).find? (fun i => key i == key x)
      = some x := by
  induction l with
  | nil => simp at h
  | cons a t ih =>
    simp only [List.map_cons, List.find?_cons]
    by_cases ha : key a = key x
    · simp [ha]
    · have ht : t.any (fun i => key i == key x) = true := by
        simpa [List.any_cons, ha] using h
      have hb : (key a == key x) = false := by simpa using ha
      rw [hb]
      simp only [Bool.false_eq_true, if_false, hb]
      exact ih ht

/-- Replacing the entries with the key of `x` leaves the lookup of any other
key as it was. -/
theorem find?_replace_other {α : Type} (key : α → Nat) (x : α) (l : List α) (id : Nat)
    (h : id ≠ key x) :
    (l.map (fun i => if key i == key x then x else i)).find? (fun i => key i == id)
      = l.find? (fun i => key i == id) := by
  induction l with
  | nil => rfl
  | cons a t ih =>
    simp only [List.map_cons, List.find?_cons]
    by_cases ha : key a = key x
    · have hx : (key x == id) = false := by
        simpa using (fun e : key x = id => h e.symm)
      have ha2 : (key a == id) = false := by
        simpa using (fun e : key a = id => h (e.symm.trans ha))
      have hb : (key a == key x) = true := by simpa using ha
      simp only [hb, if_true, hx, ha2]
      exact ih
    · have hb : (key a == key x) = false := by simpa using ha
      simp only [hb, Bool.false_eq_true, if_false]
      rw [ih]

/-- Appending `x` to a list without its key makes the lookup of that key find `x`. -/
theorem find?_append_new {α : Type} (key : α → Nat) (x : α) (l : List α)
    (h : l.any (fun i => key i == key x) = false) :
    (l ++ [x]).find? (fun i => key i == key x) = some x := by
  induction l with
  | nil => simp [List.find?_cons]
  | cons a t ih =>
    have ha : ¬ key a = key x := by
      intro e
      simp [List.any_cons, e] at h
    have ht : t.any (fun i => key i == key x) = false := by
      simpa [List.any_cons, ha] using h
    have hb : (key a == key x) = false := by simpa using ha
    simp only [List.cons_append, List.find?_cons, hb]
    exact ih ht

/-- Appending `x` leaves the lookup of any key other than its own as it was. -/
theorem find?_append_other {α : Type} (key : α → Nat) (x : α) (l : List α) (id : Nat)
    (h : id ≠ key x) :
    (l ++ [x]).find? (fun i => key i == id) = l.find? (fun i => key i == id) := by
  have hx : (key x == id) = false := by
    simpa using (fun e : key x = id => h e.symm)
  induction l with
  | nil => simp only [List.nil_append, List.find?_cons, hx, List.find?_nil]
  | cons a t ih =>
    simp only [List.cons_append, List.find?_cons, ih]

namespace LLInventoryModel

/-- After `updateItem`, the model's copy of the item is the one passed in. -/
theorem getItem_updateItem_self (m : LLInventoryModel) (x : LLViewerInventoryItem) :
    (m.updateItem x).getItem x.mUUID = some x := by
  unfold updateItem getItem
  by_cases h : m.mItemMap.any (fun i => i.mUUID == x.mUUID) = true
  · rw [if_pos h]
    exact find?_replace_self (fun i => i.mUUID) x m.mItemMap h
  · rw [if_neg h]
    exact find?_append_new (fun i => i.mUUID) x m.mItemMap (by simpa using h)

/-- The lookup of every other item is untouched by `updateItem`. -/
theorem getItem_updateItem_other (m : LLInventoryModel) (x : LLViewerInventoryItem)
    (id : LLUUID) (h : id ≠ x.mUUID) :
    (m.updateItem x).getItem id = m.getItem id := by
  unfold updateItem getItem
  by_cases hx : m.mItemMap.any (fun i => i.mUUID == x.mUUID) = true
  · rw [if_pos hx]
    exact find?_replace_other (fun i => i.mUUID) x m.mItemMap id h
  · rw [if_neg hx]
    exact find?_append_other (fun i => i.mUUID) x m.mItemMap id h

/-- After `updateCategory`, the model's copy of the folder is the one passed in. -/
theorem getCategory_updateCategory_self (m : LLInventoryModel) (x : LLViewerInventoryCategory) :
    (m.updateCategory x).getCategory x.mUUID = some x := by
  unfold updateCategory getCategory
  by_cases h : m.mCategoryMap.any (fun i => i.mUUID == x.mUUID) = true
  · rw [if_pos h]
    exact find?_replace_self (fun i => i.mUUID) x m.mCategoryMap h
  · rw [if_neg h]
    exact find?_append_new (fun i => i.mUUID) x m.mCategoryMap (by simpa using h)

/-- The lookup of every other folder is untouched by `updateCategory`. -/
theorem getCategory_updateCategory_other (m : LLInventoryModel) (x : LLViewerInventoryCategory)
    (id : LLUUID) (h : id ≠ x.mUUID) :
    (m.updateCategory x).getCategory id = m.getCategory id := by
  unfold updateCategory getCategory
  by_cases hx : m.mCategoryMap.any (fun i => i.mUUID == x.mUUID) = true
  · rw [if_pos hx]
    exact find?_replace_other (fun i => i.mUUID) x m.mCategoryMap id h
  · rw [if_neg hx]
    exact find?_append_other (fun i => i.mUUID) x m.mCategoryMap id h

/-- A folder found under an id carries that id. -/
theorem getCategory_uuid (m : LLInventoryModel) (id : LLUUID) (c : LLViewerInventoryCategory)
    (h : m.getCategory id = some c) : c.mUUID = id := by
  unfold getCategory at h
  have := List.find?_some h
  simpa using this

/-- An item found under an id carries that id. -/
theorem getItem_uuid (m : LLInventoryModel) (id : LLUUID) (i : LLViewerInventoryItem)
    (h : m.getItem id = some i) : i.mUUID = id := by
  unfold getItem at h
  have := List.find?_some h
  simpa using this

end LLInventoryModel

/-! ## Frame lemmas: what each step leaves alone -/

namespace World

@[simp] theorem emit_gInventory (w : World) (e : Event) : (w.emit e).gInventory = w.gInventory := rfl

@[simp] theorem emit_log (w : World) (e : Event) : (w.emit e).log = w.log ++ [e] := rfl

@[simp] theorem deactivateGesture_gInventory (w : World) (id : LLUUID) :
    (w.deactivateGesture id).gInventory = w.gInventory := rfl

end World

/-- Deactivating the active gestures of a list of items does not touch the model. -/
theorem deactivateActiveGestures_gInventory (items : List LLViewerInventoryItem) (w : World) :
    (deactivateActiveGestures w items).gInventory = w.gInventory := by
  unfold deactivateActiveGestures
  induction items generalizing w with
  | nil => rfl
  | cons a t ih =>
    simp only [List.foldl_cons]
    rw [ih]
    split <;> simp

namespace LLInvFVBridge

/-- `changeItemParent` leaves the category map alone. -/
theorem changeItemParent_mCategoryMap (w : World) (item : LLViewerInventoryItem)
    (N : LLUUID) (restamp : Bool) :
    (changeItemParent w item N restamp).gInventory.mCategoryMap = w.gInventory.mCategoryMap := by
  unfold changeItemParent
  split
  · simp only [World.emit_gInventory, LLInventoryModel.updateItem]
    split <;> rfl
  · rfl

end LLInvFVBridge

namespace LLFolderBridge

end LLFolderBridge

namespace LLInventoryModel

end LLInventoryModel

namespace MoveBatch

@[simp] theorem flush_gInventory (st : MoveBatch) (name : String) :
    (st.flush name).w.gInventory = st.w.gInventory := rfl

@[simp] theorem flush_move_ids (st : MoveBatch) (name : String) :
    (st.flush name).move_ids = st.move_ids := rfl

theorem addMove_move_ids (st : MoveBatch) (name : String) (id p t : LLUUID) :
    (st.addMove name id p t).move_ids = st.move_ids ++ [id] := by
  unfold addMove
  simp only []
  split_ifs <;> rfl

end MoveBatch

namespace LLInvFVBridge

end LLInvFVBridge

namespace LLInvFVBridge

end LLInvFVBridge

namespace LLInvFVBridge

/-- The paste loop says TRUE exactly when no clipboard entry is a folder and
every entry that is an item may be copied by the agent. -/
theorem clipboardPasteableLoop_iff (w : World) (l : List LLUUID) :
    clipboardPasteableLoop w l = true ↔
      ∀ id ∈ l, w.gInventory.getCategory id = none
        ∧ ∀ item, w.gInventory.getItem id = some item →
            item.mPermissions.allowCopyBy w.agentID = true := by
  induction l with
  | nil => simp [clipboardPasteableLoop]
  | cons a t ih =>
    simp only [clipboardPasteableLoop, List.forall_mem_cons]
    cases hc : w.gInventory.getCategory a with
    | some c => simp
    | none =>
      cases hi : w.gInventory.getItem a with
      | none => simp [ih]
      | some item =>
        cases hp : item.mPermissions.allowCopyBy w.agentID <;> simp [hp, ih]

/-- With the new parent equal to the current one `changeItemParent` returns
the world as it was. -/
theorem changeItemParent_same (w : World) (item : LLViewerInventoryItem) (restamp : Bool) :
    changeItemParent w item item.mParentUUID restamp = w := by
  simp [changeItemParent]

end LLInvFVBridge

namespace LLFolderBridge

/-- The paste-as-link loop says FALSE as soon as a clipboard entry is a folder
that is the destination or an ancestor of it. -/
theorem pasteAsLinkLoop_recursive (w : World) (cur : LLViewerInventoryCategory) (f : Bool)
    (l : List LLUUID)
    (h : ∃ id ∈ l, ∃ c, w.gInventory.getCategory id = some c
      ∧ (c.mUUID = cur.mUUID ∨ w.gInventory.isObjectDescendentOf cur.mUUID c.mUUID = true)) :
    pasteAsLinkLoop w cur f l = false := by
  induction l with
  | nil =>
    obtain ⟨id, hid, _⟩ := h
    simp at hid
  | cons a t ih =>
    obtain ⟨id, hid, c, hc, hrec⟩ := h
    simp only [pasteAsLinkLoop]
    rcases List.mem_cons.mp hid with e | ht
    · subst e
      have hr : (c.mUUID == cur.mUUID
          || w.gInventory.isObjectDescendentOf cur.mUUID c.mUUID) = true := by
        rcases hrec with h1 | h1
        · simp [h1]
        · simp [h1]
      simp only [hc, hr, if_true]
    · split_ifs
      · rfl
      · rfl
      · exact ih ⟨id, ht, c, hc, hrec⟩

/-- A round of the paste loop in cut mode returns the world as it was when the
entry, if it is an item, already has the destination as parent. -/
theorem pasteStep_same_parent (F : LLUUID) (w : World) (id : LLUUID)
    (hcut : w.mCutMode = true)
    (h : ∀ item, w.gInventory.getItem id = some item → item.mParentUUID = F) :
    pasteStep F w id = w := by
  unfold pasteStep
  cases hi : w.gInventory.getItem id with
  | none => rfl
  | some item =>
    simp only [hcut, if_true]
    rw [← h item hi]
    exact LLInvFVBridge.changeItemParent_same w item false

/-- The whole paste loop in cut mode returns the world as it was when every
entry that is an item already has the destination as parent. -/
theorem pasteLoop_same_parent (F : LLUUID) (w : World) (l : List LLUUID)
    (hcut : w.mCutMode = true)
    (h : ∀ id ∈ l, ∀ item, w.gInventory.getItem id = some item → item.mParentUUID = F) :
    l.foldl (pasteStep F) w = w := by
  induction l with
  | nil => rfl
  | cons a t ih =>
    simp only [List.foldl_cons]
    rw [pasteStep_same_parent F w a hcut (h a (List.mem_cons_self _ _))]
    exact ih (fun id hid => h id (List.mem_cons_of_mem _ hid))

end LLFolderBridge

/-! ## The parent walk and cycles -/

namespace LLInventoryModel

/-- A walk that succeeds still succeeds with one more unit of fuel. -/
theorem ancestorWalk_succ (m : LLInventoryModel) (t : LLUUID) (f : Nat) (p : LLUUID)
    (h : m.ancestorWalk t f p = true) : m.ancestorWalk t (f + 1) p = true := by
  induction f generalizing p with
  | zero => simp [ancestorWalk] at h
  | succ n ih =>
    rw [ancestorWalk] at h
    rw [ancestorWalk]
    split_ifs at h ⊢ with h0 ht
    · rfl
    · cases hc : m.getCategory p with
      | none => simp [hc] at h
      | some c =>
        simp only [hc] at h ⊢
        exact ih _ h

/-- A walk that succeeds still succeeds with more fuel. -/
theorem ancestorWalk_mono (m : LLInventoryModel) (t : LLUUID) (f g : Nat) (p : LLUUID)
    (hfg : f ≤ g) (h : m.ancestorWalk t f p = true) : m.ancestorWalk t g p = true := by
  induction hfg with
  | refl => exact h
  | step _ ih => exact ancestorWalk_succ m t _ p ih

/-- Two models that agree on every folder but `C` walk towards `C` alike. -/
theorem ancestorWalk_target_agree (m m1 : LLInventoryModel) (C : LLUUID)
    (hag : ∀ id, id ≠ C → m1.getCategory id = m.getCategory id) (f : Nat) (p : LLUUID) :
    m1.ancestorWalk C f p = m.ancestorWalk C f p := by
  induction f generalizing p with
  | zero => rfl
  | succ n ih =>
    rw [ancestorWalk, ancestorWalk]
    split_ifs with h0 ht
    · rfl
    · rfl
    · have hne : p ≠ C := by simpa using ht
      rw [hag p hne]
      cases m.getCategory p with
      | none => rfl
      | some c => exact ih _

/-- A walk in a model where only folder `C` was given the new parent `D`
either is a walk of the old model, or reaches `C` in the old model and goes on
from `D`. -/
theorem ancestorWalk_split (m m1 : LLInventoryModel) (C D : LLUUID)
    (C1 : LLViewerInventoryCategory) (hC1 : m1.getCategory C = some C1)
    (hD : C1.mParentUUID = D)
    (hag : ∀ id, id ≠ C → m1.getCategory id = m.getCategory id)
    (t : LLUUID) (f : Nat) (p : LLUUID) (h : m1.ancestorWalk t f p = true) :
    m.ancestorWalk t f p = true
      ∨ ∃ f1 f2, f1 + f2 ≤ f ∧ m.ancestorWalk C f1 p = true
          ∧ m1.ancestorWalk t f2 D = true := by
  induction f generalizing p with
  | zero => simp [ancestorWalk] at h
  | succ n ih =>
    rw [ancestorWalk] at h
    split_ifs at h with h0 ht
    · left
      rw [ancestorWalk]
      simp [h0, ht]
    · by_cases hpC : p = C
      · subst hpC
        right
        refine ⟨1, n, by omega, ?_, ?_⟩
        · rw [ancestorWalk]
          simp [h0]
        · rw [hC1] at h
          simp only [hD] at h
          exact h
      · rw [hag p hpC] at h
        cases hc : m.getCategory p with
        | none => simp [hc] at h
        | some c =>
          simp only [hc] at h
          rcases ih _ h with hl | ⟨f1, f2, hle, h1, h2⟩
          · left
            rw [ancestorWalk]
            simp only [h0, ht, hc, if_false]
            exact hl
          · right
            refine ⟨f1 + 1, f2, by omega, ?_, h2⟩
            rw [ancestorWalk]
            have hpC2 : (p == C) = false := by simpa using hpC
            simp only [h0, hpC2, hc, if_false, Bool.false_eq_true]
            exact h1

/-- A walk that reaches folder `X`, followed by a walk from the parent of `X`
that reaches `C`, is a walk that reaches `C`. -/
theorem ancestorWalk_trans (m : LLInventoryModel) (X C : LLUUID)
    (x : LLViewerInventoryCategory) (hx : m.getCategory X = some x)
    (f1 : Nat) (h1 : m.ancestorWalk C f1 x.mParentUUID = true)
    (f2 : Nat) (q : LLUUID) (h2 : m.ancestorWalk X f2 q = true) :
    m.ancestorWalk C (f2 + f1) q = true := by
  induction f2 generalizing q with
  | zero => simp [ancestorWalk] at h2
  | succ n ih =>
    rw [ancestorWalk] at h2
    have e : n + 1 + f1 = (n + f1) + 1 := by omega
    rw [e, ancestorWalk]
    split_ifs at h2 with h0 ht
    · have hq : q = X := by simpa using ht
      by_cases hqC : q = C
      · subst hqC
        simp [h0]
      · have hqC2 : (q == C) = false := by simpa using hqC
        simp only [h0, hqC2, if_false, Bool.false_eq_true, hq ▸ hx]
        exact ancestorWalk_mono m C f1 (n + f1) _ (by omega) h1
    · by_cases hqC : q = C
      · subst hqC
        simp [h0]
      · have hqC2 : (q == C) = false := by simpa using hqC
        cases hc : m.getCategory q with
        | none => simp [hc] at h2
        | some c =>
          simp only [hc] at h2
          simp only [h0, hqC2, if_false, Bool.false_eq_true, hc]
          exact ih _ h2

/-- A walk that starts at folder `D` itself and reaches another folder `C`
shows `D` to be a descendant of `C`. -/
theorem isObjectDescendentOf_of_walk (m : LLInventoryModel) (C D : LLUUID) (hne : D ≠ C)
    (f : Nat) (hf : f ≤ m.mCategoryMap.length + 1)
    (h : m.ancestorWalk C f D = true) : m.isObjectDescendentOf D C = true := by
  cases f with
  | zero => simp [ancestorWalk] at h
  | succ n =>
    rw [ancestorWalk] at h
    have hne2 : (D == C) = false := by simpa using hne
    simp only [hne2, Bool.false_eq_true, if_false] at h
    split_ifs at h with h0
    cases hc : m.getCategory D with
    | none => simp [hc] at h
    | some d =>
      simp only [hc] at h
      simp only [isObjectDescendentOf, getObjectParent, hc]
      exact ancestorWalk_mono m C n _ _ (by omega) h

/-- A folder found in the model is counted by `any`. -/
theorem any_of_getCategory (m : LLInventoryModel) (id : LLUUID) (c : LLViewerInventoryCategory)
    (h : m.getCategory id = some c) :
    m.mCategoryMap.any (fun i => i.mUUID == c.mUUID) = true := by
  unfold getCategory at h
  rw [List.any_eq_true]
  exact ⟨c, List.mem_of_find?_eq_some h, by simp⟩

/-- Giving a folder of an acyclic inventory the new parent `D` keeps the
inventory acyclic, when `D` is neither the folder nor one of its descendants. -/
theorem reparent_keeps_acyclic (m : LLInventoryModel) (C : LLViewerInventoryCategory)
    (D : LLUUID) (hC : m.getCategory C.mUUID = some C) (hDC : D ≠ C.mUUID)
    (hdesc : m.isObjectDescendentOf D C.mUUID = false)
    (hacyc : ∀ X x, m.getCategory X = some x → m.isObjectDescendentOf X X = false)
    (X : LLUUID) (x : LLViewerInventoryCategory)
    (hx : (m.updateCategory { C with mParentUUID := D }).getCategory X = some x) :
    (m.updateCategory { C with mParentUUID := D }).isObjectDescendentOf X X = false := by
  have hself : (m.updateCategory { C with mParentUUID := D }).getCategory C.mUUID
      = some { C with mParentUUID := D } :=
    getCategory_updateCategory_self m { C with mParentUUID := D }
  have hag : ∀ id, id ≠ C.mUUID →
      (m.updateCategory { C with mParentUUID := D }).getCategory id = m.getCategory id :=
    fun id h => getCategory_updateCategory_other m { C with mParentUUID := D } id h
  have hlen : (m.updateCategory { C with mParentUUID := D }).mCategoryMap.length
      = m.mCategoryMap.length := by
    have hany := any_of_getCategory m _ _ hC
    simp only [updateCategory, hany, if_true, List.length_map]
  cases hres : (m.updateCategory { C with mParentUUID := D }).isObjectDescendentOf X X with
  | false => rfl
  | true =>
    exfalso
    simp only [isObjectDescendentOf, getObjectParent, hx, hlen] at hres
    have hreach : m.ancestorWalk C.mUUID (m.mCategoryMap.length + 1) D = true := by
      by_cases hXC : X = C.mUUID
      · rw [hXC] at hx hres
        rw [hself] at hx
        have hx2 : x = { C with mParentUUID := D } := (Option.some.inj hx).symm
        rw [hx2] at hres
        rw [← ancestorWalk_target_agree m _ C.mUUID hag]
        exact hres
      · have hxm : m.getCategory X = some x := by rw [← hag X hXC]; exact hx
        rcases ancestorWalk_split m _ C.mUUID D _ hself rfl hag X _ _ hres with
          hl | ⟨f1, f2, hle, h1, h2⟩
        · have := hacyc X x hxm
          simp only [isObjectDescendentOf, getObjectParent, hxm] at this
          rw [hl] at this
          exact absurd this (by simp)
        · rw [← ancestorWalk_target_agree m _ C.mUUID hag] at h1
          have h3 := ancestorWalk_trans _ X C.mUUID x hx f1 h1 f2 D h2
          rw [ancestorWalk_target_agree m _ C.mUUID hag] at h3
          exact ancestorWalk_mono m _ _ _ _ (by omega) h3
    have := isObjectDescendentOf_of_walk m C.mUUID D hDC _ (le_refl _) hreach
    rw [hdesc] at this
    exact absurd this (by simp)

end LLInventoryModel

namespace LLFolderBridge

/-- What an accepted drag of a folder of the agent's inventory amounts to: the
final `accept` expression holds, and the model afterwards is the old one or
the old one with the folder reparented under the destination. -/
theorem dragCategoryIntoFolder_accepted (b : LLInvFVBridge) (w : World)
    (C : LLViewerInventoryCategory) (drop : Bool) (hsrc : w.mSource = .SOURCE_AGENT)
    (hacc : (dragCategoryIntoFolder b w (some C) drop).1 = true) :
    dragCategoryAccept b w C = true
    ∧ ((dragCategoryIntoFolder b w (some C) drop).2.gInventory = w.gInventory
      ∨ (dragCategoryIntoFolder b w (some C) drop).2.gInventory
          = w.gInventory.updateCategory { C with mParentUUID := b.mUUID }) := by
  have key : ∀ r, dragCategoryIntoFolder b w (some C) drop = r → r.1 = true →
      dragCategoryAccept b w C = true
      ∧ (r.2.gInventory = w.gInventory
        ∨ r.2.gInventory = w.gInventory.updateCategory { C with mParentUUID := b.mUUID }) := by
    intro r hr h1
    simp only [dragCategoryIntoFolder, hsrc] at hr
    split_ifs at hr <;> subst hr <;>
      first
        | (simp at h1; done)
        | (rename_i hh; exact absurd hh (by decide))
        | exact ⟨h1, Or.inl rfl⟩
        | exact ⟨h1, Or.inl (deactivateActiveGestures_gInventory _ w)⟩
        | (refine ⟨h1, Or.inr ?_⟩
           have hp : (C.mParentUUID != b.mUUID) = true := by
             have h2 : dragCategoryAccept b w C = true := h1
             simp only [dragCategoryAccept, Bool.and_eq_true] at h2
             have h3 := h2.1.2
             simp only [bne_iff_ne, ne_eq] at h3 ⊢
             exact fun e => h3 e.symm
           simp only [LLInvFVBridge.changeCategoryParent, hp, if_true, World.emit_gInventory,
             deactivateActiveGestures_gInventory])
  exact key _ rfl hacc

end LLFolderBridge

/-! ## Saving the order of a list of items -/

/-- The item `saveItemsOrderStep` works on carries the id of the list entry. -/
theorem saveItemsOrder_pointee_uuid (w : World) (item : LLViewerInventoryItem) :
    ((w.gInventory.getItem item.mUUID).getD item).mUUID = item.mUUID := by
  cases h : w.gInventory.getItem item.mUUID with
  | none => rfl
  | some cur => exact LLInventoryModel.getItem_uuid _ _ _ h

/-- After `updateItem`, the lookup of the id of the item finds the item. -/
theorem LLInventoryModel.getItem_updateItem_of_uuid (m : LLInventoryModel)
    (x : LLViewerInventoryItem) (id : LLUUID) (h : x.mUUID = id) :
    (m.updateItem x).getItem id = some x := by
  subst h
  exact LLInventoryModel.getItem_updateItem_self m x

/-- The counter after one round. -/
theorem saveItemsOrderStep_fst (st : Int × World) (item : LLViewerInventoryItem) :
    (saveItemsOrderStep st item).1 = st.1 + 1 := rfl

/-- The model's copy of the entry after one round: it has the new sort field. -/
theorem saveItemsOrderStep_getItem_self (st : Int × World) (item : LLViewerInventoryItem) :
    ((saveItemsOrderStep st item).2.gInventory.getItem item.mUUID).map (fun i => i.mSortField)
      = some (st.1 + 1) := by
  have hu := saveItemsOrder_pointee_uuid st.2 item
  simp only [saveItemsOrderStep, World.emit_gInventory]
  have hx := LLInventoryModel.getItem_updateItem_of_uuid st.2.gInventory
    { (st.2.gInventory.getItem item.mUUID).getD item with
      mSortField := st.1 + 1, mIsComplete := true } item.mUUID hu
  rw [hx]
  rfl

/-- One round leaves the model's copy of every other item alone. -/
theorem saveItemsOrderStep_getItem_other (st : Int × World) (item : LLViewerInventoryItem)
    (id : LLUUID) (h : id ≠ item.mUUID) :
    (saveItemsOrderStep st item).2.gInventory.getItem id = st.2.gInventory.getItem id := by
  have hu := saveItemsOrder_pointee_uuid st.2 item
  simp only [saveItemsOrderStep, World.emit_gInventory]
  exact LLInventoryModel.getItem_updateItem_other st.2.gInventory _ id (by simpa [hu] using h)

/-- One round keeps the parent of every item of the model. -/
theorem saveItemsOrderStep_parent (st : Int × World) (item : LLViewerInventoryItem)
    (id : LLUUID) (it : LLViewerInventoryItem) (h : st.2.gInventory.getItem id = some it) :
    ((saveItemsOrderStep st item).2.gInventory.getItem id).map (fun i => i.mParentUUID)
      = some it.mParentUUID := by
  by_cases hid : id = item.mUUID
  · have hu := saveItemsOrder_pointee_uuid st.2 item
    simp only [saveItemsOrderStep, World.emit_gInventory]
    have hx := LLInventoryModel.getItem_updateItem_of_uuid st.2.gInventory
      { (st.2.gInventory.getItem item.mUUID).getD item with
        mSortField := st.1 + 1, mIsComplete := true } item.mUUID hu
    rw [hid, hx]
    rw [hid] at h
    simp [h]
  · rw [saveItemsOrderStep_getItem_other st item id hid, h]
    rfl

/-- The loop of `saveItemsOrder` keeps the parent of every item of the model. -/
theorem saveItemsOrder_foldl_parent (items : List LLViewerInventoryItem) (st : Int × World)
    (id : LLUUID) (it : LLViewerInventoryItem) (h : st.2.gInventory.getItem id = some it) :
    ((items.foldl saveItemsOrderStep st).2.gInventory.getItem id).map (fun i => i.mParentUUID)
      = some it.mParentUUID := by
  induction items generalizing st it with
  | nil => simp [h]
  | cons a t ih =>
    simp only [List.foldl_cons]
    have h1 := saveItemsOrderStep_parent st a id it h
    cases h2 : (saveItemsOrderStep st a).2.gInventory.getItem id with
    | none => simp [h2] at h1
    | some it2 =>
      rw [h2] at h1
      have e : it2.mParentUUID = it.mParentUUID := by simpa using h1
      rw [← e]
      exact ih _ it2 h2

/-- The loop of `saveItemsOrder` leaves alone the items that are not in the list. -/
theorem saveItemsOrder_foldl_getItem_other (items : List LLViewerInventoryItem)
    (st : Int × World) (id : LLUUID) (h : id ∉ items.map (fun i => i.mUUID)) :
    (items.foldl saveItemsOrderStep st).2.gInventory.getItem id = st.2.gInventory.getItem id := by
  induction items generalizing st with
  | nil => rfl
  | cons a t ih =>
    simp only [List.foldl_cons]
    simp only [List.map_cons, List.mem_cons, not_or] at h
    rw [ih _ h.2]
    exact saveItemsOrderStep_getItem_other st a id h.1

/-- After the loop of `saveItemsOrder` over a list without repeated ids, the
model's copy of the entry at position `i` has sort field `start + i + 1`. -/
theorem saveItemsOrder_foldl_sortField (items : List LLViewerInventoryItem) (st : Int × World)
    (hnd : (items.map (fun i => i.mUUID)).Nodup) (i : Nat) (hi : i < items.length) :
    ((items.foldl saveItemsOrderStep st).2.gInventory.getItem items[i].mUUID).map
        (fun it => it.mSortField) = some (st.1 + i + 1) := by
  induction items generalizing st i with
  | nil => simp at hi
  | cons a t ih =>
    simp only [List.foldl_cons]
    simp only [List.map_cons, List.nodup_cons] at hnd
    cases i with
    | zero =>
      simp only [List.getElem_cons_zero]
      rw [saveItemsOrder_foldl_getItem_other t _ a.mUUID hnd.1,
        saveItemsOrderStep_getItem_self]
      simp
    | succ j =>
      simp only [List.getElem_cons_succ]
      rw [ih (saveItemsOrderStep st a) hnd.2 j (by simpa using hi), saveItemsOrderStep_fst]
      congr 1
      push_cast
      ring

/-- The sort fields the loop of `saveItemsOrder` writes: the entries of the
list, in order, get the integers after the starting counter. -/
theorem saveItemsOrder_foldl_written (items : List LLViewerInventoryItem) (k : Nat) (w : World) :
    (items.foldl saveItemsOrderStep ((k : Int), w)).1 = ((k + items.length : Nat) : Int)
    ∧ (items.foldl saveItemsOrderStep ((k : Int), w)).2.log.filterMap Event.sortFieldWritten
      = w.log.filterMap Event.sortFieldWritten
        ++ (items.map (fun i => i.mUUID)).zip
            ((List.range' (k + 1) items.length).map (fun n => (n : Int))) := by
  induction items generalizing k w with
  | nil => simp
  | cons a t ih =>
    simp only [List.foldl_cons]
    have hstep : saveItemsOrderStep ((k : Int), w) a
        = (((k + 1 : Nat) : Int), (saveItemsOrderStep ((k : Int), w) a).2) := by
      simp [saveItemsOrderStep]
    rw [hstep]
    obtain ⟨h1, h2⟩ := ih (k + 1) (saveItemsOrderStep ((k : Int), w) a).2
    refine ⟨?_, ?_⟩
    · rw [h1]
      simp only [List.length_cons]
      congr 1
      omega
    · rw [h2]
      have hu := saveItemsOrder_pointee_uuid w a
      simp only [saveItemsOrderStep, World.emit_log, List.filterMap_append, List.filterMap_cons,
        List.filterMap_nil, Event.sortFieldWritten, hu, List.length_cons, List.range'_succ,
        List.map_cons, List.zip_cons_cons, List.append_assoc, List.singleton_append]
      simp

/-- `saveItemsOrder` keeps the parent of every item of the model. -/
theorem saveItemsOrder_parent (w : World) (items : List LLViewerInventoryItem)
    (id : LLUUID) (it : LLViewerInventoryItem) (h : w.gInventory.getItem id = some it) :
    ((saveItemsOrder w items).gInventory.getItem id).map (fun i => i.mParentUUID)
      = some it.mParentUUID := by
  simp only [saveItemsOrder, World.emit_gInventory]
  exact saveItemsOrder_foldl_parent items (0, w) id it h

namespace LLFolderBridge

/-- The reorder branch of `dragItemIntoFolder` (an agent-inventory drag of an
item of the Favorites folder onto the Favorites folder) keeps the parent of
every item of the model. -/
theorem dragItemFromAgent_reorder_parent (b : LLInvFVBridge) (w : World)
    (inv_item : LLViewerInventoryItem) (drop : Bool) (r : Bool × World)
    (hp : b.mUUID = inv_item.mParentUUID)
    (hfav : w.gInventory.findCategoryUUIDForType .FT_FAVORITE = b.mUUID)
    (hr : dragItemFromAgent b w inv_item drop = some r)
    (id : LLUUID) (it : LLViewerInventoryItem) (h : w.gInventory.getItem id = some it) :
    (r.2.gInventory.getItem id).map (fun i => i.mParentUUID) = some it.mParentUUID := by
  have hc : (b.mUUID == inv_item.mParentUUID
      && w.gInventory.findCategoryUUIDForType .FT_FAVORITE == b.mUUID) = true := by
    simp [hp, hfav]
  simp only [dragItemFromAgent, hc, if_true] at hr
  split_ifs at hr <;>
    first
      | (have e := Option.some.inj hr
         rw [← e]
         simp [h])
      | (split at hr
         · split at hr
           · have e := Option.some.inj hr
             rw [← e]
             exact saveItemsOrder_parent _ _ id it (by simpa using h)
           · exact absurd hr (by simp)
         · have e := Option.some.inj hr
           rw [← e]
           simp [h])

/-- For a drag that started in the agent's inventory `dragItemIntoFolder` is
its three guards followed by `dragItemFromAgent`. -/
theorem dragItemIntoFolder_agent (b : LLInvFVBridge) (w : World)
    (inv_item : LLViewerInventoryItem) (drop : Bool) (hsrc : w.mSource = .SOURCE_AGENT) :
    dragItemIntoFolder b w inv_item drop
      = if !b.hasModel then some (false, w)
        else if !LLInvFVBridge.isAgentInventory b w then some (false, w)
        else if !w.hasAvatar then some (false, w)
        else dragItemFromAgent b w inv_item drop := by
  unfold dragItemIntoFolder
  rw [hsrc]
  rfl

/-- The reorder branch of `dragItemIntoFolder` keeps the parent of every item
of the model. -/
theorem dragItemIntoFolder_reorder_parent (b : LLInvFVBridge) (w : World)
    (inv_item : LLViewerInventoryItem) (drop : Bool) (r : Bool × World)
    (hsrc : w.mSource = .SOURCE_AGENT) (hp : b.mUUID = inv_item.mParentUUID)
    (hfav : w.gInventory.findCategoryUUIDForType .FT_FAVORITE = b.mUUID)
    (hr : dragItemIntoFolder b w inv_item drop = some r)
    (id : LLUUID) (it : LLViewerInventoryItem) (h : w.gInventory.getItem id = some it) :
    (r.2.gInventory.getItem id).map (fun i => i.mParentUUID) = some it.mParentUUID := by
  rw [dragItemIntoFolder_agent b w inv_item drop hsrc] at hr
  split_ifs at hr
  · rw [← Option.some.inj hr]; simp [h]
  · rw [← Option.some.inj hr]; simp [h]
  · rw [← Option.some.inj hr]; simp [h]
  · exact dragItemFromAgent_reorder_parent b w inv_item drop r hp hfav hr id it h

end LLFolderBridge

/-! ## The slider: rounding and the thumb rectangle -/

theorem S32_of_F32_nonneg (x : F32) (h : 0 ≤ x) : S32_of_F32 x = ⌊x⌋ := by
  unfold S32_of_F32
  rw [if_pos h]

theorem LLSlider.updateThumbRect_bounds (s : LLSlider) (hw : 0 < s.thumb_width)
    (hW : s.thumb_width ≤ s.mRect.getWidth) (hmm : s.mMinValue < s.mMaxValue)
    (hlo : s.mMinValue ≤ s.mValue) (hhi : s.mValue ≤ s.mMaxValue) :
    0 ≤ s.updateThumbRect.mThumbRect.mLeft
    ∧ s.updateThumbRect.mThumbRect.mRight ≤ s.mRect.getWidth + s.thumb_width % 2 := by
  have hd : (0 : F32) < s.mMaxValue - s.mMinValue := by linarith
  have ht0 : 0 ≤ (s.mValue - s.mMinValue) / (s.mMaxValue - s.mMinValue) :=
    div_nonneg (by linarith) hd.le
  have ht1 : (s.mValue - s.mMinValue) / (s.mMaxValue - s.mMinValue) ≤ 1 := by
    rw [div_le_one hd]
    linarith
  have hhalf : Int.tdiv s.thumb_width 2 = s.thumb_width / 2 :=
    Int.tdiv_eq_ediv hw.le (by norm_num)
  have hspan : (0 : Int) ≤ s.mRect.getWidth - s.thumb_width / 2 - s.thumb_width / 2 := by
    omega
  have hspanq : (0 : F32)
      ≤ ((s.mRect.getWidth - s.thumb_width / 2 - s.thumb_width / 2 : Int) : F32) := by
    exact_mod_cast hspan
  have hprod0 : 0 ≤ (s.mValue - s.mMinValue) / (s.mMaxValue - s.mMinValue)
      * ((s.mRect.getWidth - s.thumb_width / 2 - s.thumb_width / 2 : Int) : F32) :=
    mul_nonneg ht0 hspanq
  have hprod1 : (s.mValue - s.mMinValue) / (s.mMaxValue - s.mMinValue)
      * ((s.mRect.getWidth - s.thumb_width / 2 - s.thumb_width / 2 : Int) : F32)
      ≤ ((s.mRect.getWidth - s.thumb_width / 2 - s.thumb_width / 2 : Int) : F32) := by
    have := mul_le_mul_of_nonneg_right ht1 hspanq
    linarith
  have hx0 : 0 ≤ ⌊(s.mValue - s.mMinValue) / (s.mMaxValue - s.mMinValue)
      * ((s.mRect.getWidth - s.thumb_width / 2 - s.thumb_width / 2 : Int) : F32)⌋ :=
    Int.floor_nonneg.mpr hprod0
  have hx1 : ⌊(s.mValue - s.mMinValue) / (s.mMaxValue - s.mMinValue)
      * ((s.mRect.getWidth - s.thumb_width / 2 - s.thumb_width / 2 : Int) : F32)⌋
      ≤ s.mRect.getWidth - s.thumb_width / 2 - s.thumb_width / 2 := by
    have h := Int.floor_le_floor hprod1
    rwa [Int.floor_intCast] at h
  simp only [LLSlider.updateThumbRect, hhalf]
  rw [S32_of_F32_nonneg _ hprod0]
  constructor <;> omega

theorem LLSlider.updateThumbRect_midpoint (s : LLSlider) (himg : s.mThumbImage = none)
    (hW : s.mRect.getWidth = 116) (hne : s.mMinValue ≠ s.mMaxValue)
    (hv : s.mValue = (s.mMinValue + s.mMaxValue) / 2) :
    s.left_edge = 8 ∧ s.right_edge = 108
    ∧ s.updateThumbRect.mThumbRect.mLeft = 50 ∧ s.updateThumbRect.mThumbRect.mRight = 66
    ∧ s.updateThumbRect.mThumbRect.mLeft + Int.tdiv s.thumb_width 2 = 58 := by
  have hw : s.thumb_width = 16 := by
    simp [LLSlider.thumb_width, himg, DEFAULT_THUMB_SIZE]
  have hhalf : Int.tdiv (16 : Int) 2 = 8 := by decide
  have hd : s.mMaxValue - s.mMinValue ≠ 0 := fun h => hne (by linarith)
  have ht : (s.mValue - s.mMinValue) / (s.mMaxValue - s.mMinValue) = 1 / 2 := by
    rw [hv]
    field_simp
    ring
  have hx : S32_of_F32 ((1 : F32) / 2 * ((116 - 8 - 8 : Int) : F32)) = 50 := by
    rw [S32_of_F32_nonneg _ (by norm_num), Int.floor_eq_iff]
    norm_num
  simp only [LLSlider.left_edge, LLSlider.right_edge, LLSlider.updateThumbRect, hw, hW, hhalf,
    ht, hx]
  decide

/-! ## The About record -/

namespace LLSDMap

theorem setEntry_any (l : List (String × LLSD)) (k : String) (v : LLSD) (k2 : String) :
    (setEntry l k v).any (fun e => e.1 == k2) = (k == k2 || l.any (fun e => e.1 == k2)) := by
  induction l with
  | nil => simp [setEntry]
  | cons a rest ih =>
    obtain ⟨ka, va⟩ := a
    simp only [setEntry]
    by_cases h : ka = k
    · subst h
      simp
    · have hb : (ka == k) = false := by simpa using h
      simp only [hb, Bool.false_eq_true, if_false, List.any_cons, ih]
      cases hx : (ka == k2) <;> simp

@[simp] theorem has_set (m : LLSDMap) (k : String) (v : LLSD) (k2 : String) :
    (m.set k v).has k2 = (k == k2 || m.has k2) :=
  setEntry_any m.entries k v k2

@[simp] theorem has_empty (k : String) : ({} : LLSDMap).has k = false := rfl

theorem setEntry_find_self (l : List (String × LLSD)) (k : String) (v : LLSD) :
    (setEntry l k v).find? (fun e => e.1 == k) = some (k, v) := by
  induction l with
  | nil => simp [setEntry]
  | cons a rest ih =>
    obtain ⟨ka, va⟩ := a
    simp only [setEntry]
    by_cases h : ka = k
    · subst h
      simp
    · have hb : (ka == k) = false := by simpa using h
      simp only [hb, Bool.false_eq_true, if_false, List.find?_cons, ih]

theorem setEntry_find_other (l : List (String × LLSD)) (k : String) (v : LLSD) (k2 : String)
    (hne : k ≠ k2) :
    (setEntry l k v).find? (fun e => e.1 == k2) = l.find? (fun e => e.1 == k2) := by
  induction l with
  | nil =>
    have hb : (k == k2) = false := by simpa using hne
    simp [setEntry, hb]
  | cons a rest ih =>
    obtain ⟨ka, va⟩ := a
    simp only [setEntry]
    by_cases h : ka = k
    · subst h
      have hb : (ka == k2) = false := by simpa using hne
      simp [List.find?_cons, hb]
    · have hb : (ka == k) = false := by simpa using h
      simp only [hb, Bool.false_eq_true, if_false, List.find?_cons, ih]

theorem get_set_self (m : LLSDMap) (k : String) (v : LLSD) : (m.set k v).get k = v := by
  simp only [get, set, setEntry_find_self]

theorem get_set_other (m : LLSDMap) (k : String) (v : LLSD) (k2 : String) (hne : k ≠ k2) :
    (m.set k v).get k2 = m.get k2 := by
  simp only [get, set, setEntry_find_other _ _ _ _ hne]

end LLSDMap

/-- The blocks of `getInfo` before the last one set none of the three packet
keys. -/
theorem getInfo_blocks_no_packets (env : AboutEnv) (k : String)
    (hk : k = "PACKETS_LOST" ∨ k = "PACKETS_IN" ∨ k = "PACKETS_PCT") :
    (getInfoLibraries env (getInfoSystem env (getInfoPosition env (getInfoCompiler env
      (getInfoVersion env {}))))).has k = false := by
  have h1 : (getInfoVersion env {}).has k = false := by
    rcases hk with h | h | h <;> subst h <;> simp [getInfoVersion]
  have h2 : ∀ info : LLSDMap, info.has k = false → (getInfoCompiler env info).has k = false := by
    intro info hi
    unfold getInfoCompiler
    rcases hk with h | h | h <;> subst h <;> cases env.compiler <;> simp [hi]
  have h3 : ∀ info : LLSDMap, info.has k = false → (getInfoPosition env info).has k = false := by
    intro info hi
    unfold getInfoPosition
    rcases hk with h | h | h <;> subst h <;> cases env.region <;> simp [hi]
  have h4 : ∀ info : LLSDMap, info.has k = false → (getInfoSystem env info).has k = false := by
    intro info hi
    unfold getInfoSystem
    rcases hk with h | h | h <;> subst h <;> cases env.windows <;>
      cases env.driverVersion <;> simp [hi]
  have h5 : ∀ info : LLSDMap, info.has k = false → (getInfoLibraries env info).has k = false := by
    intro info hi
    unfold getInfoLibraries
    rcases hk with h | h | h <;> subst h <;> cases env.voiceEnabled <;> simp [hi]
  exact h5 _ (h4 _ (h3 _ (h2 _ h1)))

theorem getInfoPackets_has (env : AboutEnv) (info : LLSDMap) (k : String)
    (hk : k = "PACKETS_LOST" ∨ k = "PACKETS_IN" ∨ k = "PACKETS_PCT")
    (hi : info.has k = false) :
    (getInfoPackets env info).has k = decide (0 < env.gPacketsIn) := by
  unfold getInfoPackets
  by_cases h : env.gPacketsIn > 0
  · rcases hk with e | e | e <;> subst e <;> simp [h]
  · simp [h, hi]

theorem getInfoPackets_get (env : AboutEnv) (info : LLSDMap) (h : 0 < env.gPacketsIn) :
    (getInfoPackets env info).get "PACKETS_LOST" = LLSD.real env.mPacketsLost
    ∧ (getInfoPackets env info).get "PACKETS_IN" = LLSD.real (env.gPacketsIn : F32)
    ∧ (getInfoPackets env info).get "PACKETS_PCT"
        = LLSD.real (100 * env.mPacketsLost / (env.gPacketsIn : F32)) := by
  unfold getInfoPackets
  simp only [gt_iff_lt, h, if_true]
  refine ⟨?_, ?_, ?_⟩
  · rw [LLSDMap.get_set_other _ _ _ _ (by decide), LLSDMap.get_set_other _ _ _ _ (by decide),
      LLSDMap.get_set_self]
  · rw [LLSDMap.get_set_other _ _ _ _ (by decide), LLSDMap.get_set_self]
  · rw [LLSDMap.get_set_self, LLSDMap.get_set_other _ _ _ _ (by decide), LLSDMap.get_set_self,
      LLSDMap.get_set_self]
    rfl

/-! ## Hiding context menu entries: one child -/

theorem hide_found_foldl (name : String) (entries : List String) (init : Bool) :
    entries.foldl (fun found entry => if entry == name then true else found) init
      = (init || decide (name ∈ entries)) := by
  induction entries generalizing init with
  | nil => simp
  | cons a rest ih =>
    simp only [List.foldl_cons, ih, List.mem_cons, Bool.decide_or]
    by_cases h : a = name
    · subst h
      simp
    · have hb : (a == name) = false := by simpa using h
      have hd : decide (name = a) = false := by simpa using fun e : name = a => h e.symm
      simp [hb, hd]

theorem LLMenuItemGL.setEnabled_false_twice (c : LLMenuItemGL) :
    (c.setEnabled false).setEnabled false = c.setEnabled false := by
  cases c <;> rfl

theorem hide_disable_foldl (name : String) (entries : List String) (c : LLMenuItemGL) :
    entries.foldl (fun c entry => if entry == name then c.setEnabled false else c) c
      = if name ∈ entries then c.setEnabled false else c := by
  induction entries generalizing c with
  | nil => simp
  | cons a rest ih =>
    simp only [List.foldl_cons, ih, List.mem_cons]
    by_cases h : a = name
    · subst h
      simp [LLMenuItemGL.setEnabled_false_twice]
    · have hb : (a == name) = false := by simpa using h
      have hd : ¬ name = a := fun e => h e.symm
      simp [hb, hd]

theorem hide_context_entry_eq (c : LLMenuItemGL) (entries_to_show disabled_entries : List String) :
    hide_context_entry c entries_to_show disabled_entries
      = if c.getName ∈ entries_to_show then
          (if c.getName ∈ disabled_entries then c.setEnabled false else c)
        else c.setVisible false := by
  unfold hide_context_entry
  simp only [hide_found_foldl, hide_disable_foldl, Bool.false_or]
  by_cases h : c.getName ∈ entries_to_show <;> simp [h]

theorem hide_context_entry_props (c : LLMenuItemGL)
    (entries_to_show disabled_entries : List String) :
    (hide_context_entry c entries_to_show disabled_entries).getName = c.getName
    ∧ (hide_context_entry c entries_to_show disabled_entries).getVisible
        = (c.getVisible && decide (c.getName ∈ entries_to_show))
    ∧ (hide_context_entry c entries_to_show disabled_entries).getEnabled
        = (c.getEnabled && !(decide (c.getName ∈ entries_to_show)
            && decide (c.getName ∈ disabled_entries)))
    ∧ (hide_context_entry c entries_to_show disabled_entries).getBranch = c.getBranch := by
  rw [hide_context_entry_eq]
  by_cases h : c.getName ∈ entries_to_show <;> by_cases h2 : c.getName ∈ disabled_entries <;>
    cases c <;>
    simp_all [LLMenuItemGL.getName, LLMenuItemGL.getVisible, LLMenuItemGL.getEnabled,
      LLMenuItemGL.setVisible, LLMenuItemGL.setEnabled, LLMenuItemGL.getBranch]

theorem hide_context_entries_child_props (c : LLMenuItemGL)
    (entries_to_show disabled_entries : List String) :
    (hide_context_entries_child c entries_to_show disabled_entries).getName = c.getName
    ∧ (hide_context_entries_child c entries_to_show disabled_entries).getVisible
        = (c.getVisible && decide (c.getName ∈ entries_to_show))
    ∧ (hide_context_entries_child c entries_to_show disabled_entries).getEnabled
        = (c.getEnabled && !(decide (c.getName ∈ entries_to_show)
            && decide (c.getName ∈ disabled_entries))) := by
  cases c with
  | item n v e =>
    rw [hide_context_entries_child]
    have h := hide_context_entry_props (.item n v e) entries_to_show disabled_entries
    exact ⟨h.1, h.2.1, h.2.2.1⟩
  | branch n v e m =>
    rw [hide_context_entries_child]
    split_ifs
    · have h := hide_context_entry_props
        (.branch n v e (hide_context_entries m entries_to_show disabled_entries))
        entries_to_show disabled_entries
      exact ⟨h.1, h.2.1, h.2.2.1⟩
    · have h := hide_context_entry_props (.branch n v e m) entries_to_show disabled_entries
      exact ⟨h.1, h.2.1, h.2.2.1⟩

theorem hide_context_entries_child_branch (n : String) (v e : Bool) (m : LLMenuGL)
    (entries_to_show disabled_entries : List String) :
    (hide_context_entries_child (.branch n v e m) entries_to_show disabled_entries).getBranch
      = some (if n = "More" then hide_context_entries m entries_to_show disabled_entries
              else m) := by
  rw [hide_context_entries_child]
  by_cases h : n = "More"
  · subst h
    simp only [beq_self_eq_true, if_true]
    rw [(hide_context_entry_props _ _ _).2.2.2]
    rfl
  · have hb : (n == "More") = false := by simpa using h
    simp only [hb, Bool.false_eq_true, if_false, h]
    rw [(hide_context_entry_props _ _ _).2.2.2]
    rfl

theorem hide_context_entries_getChildList (entries_to_show disabled_entries : List String) :
    ∀ menu : LLMenuGL,
      (hide_context_entries menu entries_to_show disabled_entries).getChildList
        = menu.getChildList.map
            (fun c => hide_context_entries_child c entries_to_show disabled_entries)
  | .nil => by
    rw [hide_context_entries]
    rfl
  | .cons c rest => by
    rw [hide_context_entries]
    simp only [LLMenuGL.getChildList, List.map_cons]
    rw [hide_context_entries_getChildList entries_to_show disabled_entries rest]

/-! ## Splicing the source item in before the destination item -/

theorem findIdx?_split {α : Type} (p : α → Bool) :
    ∀ l : List α, (∃ x ∈ l, p x = true) →
      ∃ A x B, l = A ++ x :: B ∧ (∀ a ∈ A, p a = false) ∧ p x = true
        ∧ l.findIdx? p = some A.length
  | [], h => by
    obtain ⟨x, hx, _⟩ := h
    exact absurd hx (List.not_mem_nil x)
  | a :: rest, h => by
    by_cases hp : p a = true
    · exact ⟨[], a, rest, rfl, fun _ hm => absurd hm (List.not_mem_nil _), hp,
        by simp [List.findIdx?_cons, hp]⟩
    · have hrest : ∃ x ∈ rest, p x = true := by
        obtain ⟨x, hx, hpx⟩ := h
        rcases List.mem_cons.mp hx with e | e
        · subst e
          exact absurd hpx hp
        · exact ⟨x, e, hpx⟩
      obtain ⟨A, x, B, hl, hA, hx, hf⟩ := findIdx?_split p rest hrest
      refine ⟨a :: A, x, B, by rw [hl]; rfl, ?_, hx, ?_⟩
      · intro b hb
        rcases List.mem_cons.mp hb with e | e
        · subst e
          simpa using hp
        · exact hA b e
      · rw [List.findIdx?_cons, if_neg hp, List.findIdx?_succ, hf]
        rfl

theorem eraseIdx_append_length {α : Type} (A : List α) (x : α) (B : List α) :
    (A ++ x :: B).eraseIdx A.length = A ++ B := by
  induction A with
  | nil => rfl
  | cons a A ih => simp [List.eraseIdx_cons_succ, ih]

theorem insertIdx_append_length {α : Type} (P : List α) (s : α) (Q : List α) :
    (P ++ Q).insertIdx P.length s = P ++ s :: Q := by
  induction P with
  | nil => simp [List.insertIdx_zero]
  | cons a P ih => simp [List.insertIdx_succ_cons, ih]

theorem updateItemsOrder_spliced (w : World) (items : List LLViewerInventoryItem)
    (s d : LLViewerInventoryItem)
    (hmodel : ∀ it ∈ items, w.gInventory.getItem it.mUUID = some it)
    (hs : s ∈ items) (hd : d ∈ items) (hne : s.mUUID ≠ d.mUUID) :
    ∃ A B P Q, items = A ++ s :: B ∧ A ++ B = P ++ d :: Q
      ∧ (∀ a ∈ A, a.mUUID ≠ s.mUUID) ∧ (∀ a ∈ P, a.mUUID ≠ d.mUUID)
      ∧ updateItemsOrder w items s.mUUID d.mUUID = some (P ++ s :: d :: Q) := by
  have huniq : ∀ x ∈ items, ∀ y ∈ items, x.mUUID = y.mUUID → x = y := by
    intro x hx y hy hxy
    have h1 := hmodel x hx
    rw [hxy, hmodel y hy] at h1
    exact (Option.some.inj h1).symm
  obtain ⟨A, x, B, hl, hA, hx, hf⟩ := findIdx?_split (fun i => i.mUUID == s.mUUID) items
    ⟨s, hs, by simp⟩
  have hxs : x = s := by
    apply huniq x (by rw [hl]; simp) s hs
    simpa using hx
  subst hxs
  have hdAB : d ∈ A ++ B := by
    rw [hl] at hd
    rcases List.mem_append.mp hd with h | h
    · exact List.mem_append_left _ h
    · rcases List.mem_cons.mp h with e | e
      · exact absurd (by rw [e]) hne
      · exact List.mem_append_right _ e
  obtain ⟨P, y, Q, hl2, hP, hy, hf2⟩ := findIdx?_split (fun i => i.mUUID == d.mUUID) (A ++ B)
    ⟨d, hdAB, by simp⟩
  have hyd : y = d := by
    have hyAB : y ∈ A ++ B := by rw [hl2]; simp
    have hyi : y ∈ items := by
      rw [hl]
      rcases List.mem_append.mp hyAB with h | h
      · exact List.mem_append_left _ h
      · exact List.mem_append_right _ (List.mem_cons_of_mem _ h)
    apply huniq y hyi d hd
    simpa using hy
  subst hyd
  refine ⟨A, B, P, Q, hl, hl2, ?_, ?_, ?_⟩
  · intro a ha
    simpa using hA a ha
  · intro a ha
    simpa using hP a ha
  · unfold updateItemsOrder
    rw [hmodel x hs, hmodel y hd]
    simp only [findItemByUUID, hf]
    rw [hl, eraseIdx_append_length, hf2, hl2]
    simp only []
    rw [insertIdx_append_length]

/-! ## Restoring to the world and taking off a wearable: lemmas -/

theorem LLItemBridge.restoreToWorld_of_missing_item (b : LLInvFVBridge) (w : World)
    (h : LLItemBridge.getItem b w = none) : LLItemBridge.restoreToWorld b w = none := by
  unfold LLItemBridge.restoreToWorld
  rw [h]

theorem sendsThenAccounts_append (m : LLInventoryModel) (t : LLUUID)
    (l1 l2 : List Event) (h : sendsThenAccounts m t l1 = true) :
    sendsThenAccounts m t (l1 ++ l2) = sendsThenAccounts m t l2 := by
  induction l1 using sendsThenAccounts.induct m t with
  | case1 => rfl
  | case2 id rest ih =>
    simp only [sendsThenAccounts] at h
    simp only [List.cons_append, sendsThenAccounts]
    exact ih h
  | case3 name blocks update rest ih =>
    simp only [sendsThenAccounts, Bool.and_eq_true] at h
    simp only [List.cons_append, sendsThenAccounts, h.1, Bool.true_and]
    exact ih h.2
  | case4 l h1 h2 h3 =>
    rw [sendsThenAccounts] at h
    · exact absurd h (by simp)
    all_goals assumption

theorem sendsThenAccounts_mem (m : LLInventoryModel) (t : LLUUID)
    (l : List Event) (h : sendsThenAccounts m t l = true) :
    ∀ e ∈ l, (∃ id, e = .previewHide id) ∨ (∃ name blocks, e = .sendReliableMessage name blocks)
      ∨ (∃ update, e = .accountForUpdate update) := by
  induction l using sendsThenAccounts.induct m t with
  | case1 => intro e he; exact absurd he (List.not_mem_nil e)
  | case2 id rest ih =>
    simp only [sendsThenAccounts] at h
    intro e he
    rcases List.mem_cons.mp he with e1 | e1
    · exact Or.inl ⟨id, e1⟩
    · exact ih h e e1
  | case3 name blocks update rest ih =>
    simp only [sendsThenAccounts, Bool.and_eq_true] at h
    intro e he
    rcases List.mem_cons.mp he with e1 | e1
    · exact Or.inr (Or.inl ⟨name, blocks, e1⟩)
    · rcases List.mem_cons.mp e1 with e2 | e2
      · exact Or.inr (Or.inr ⟨update, e2⟩)
      · exact ih h.2 e e2
  | case4 l h1 h2 h3 =>
    rw [sendsThenAccounts] at h
    · exact absurd h (by simp)
    all_goals assumption

theorem sendsThenAccounts_previewHide (m : LLInventoryModel) (t : LLUUID) (L : List Event)
    (id : LLUUID) (h : sendsThenAccounts m t L = true) :
    sendsThenAccounts m t (L ++ [Event.previewHide id]) = true := by
  rw [sendsThenAccounts_append m t L _ h]
  rfl

theorem sendsThenAccounts_flush (m : LLInventoryModel) (t : LLUUID) (L : List Event)
    (name : String) (blocks : List (LLUUID × LLUUID)) (h : sendsThenAccounts m t L = true) :
    sendsThenAccounts m t (L ++ [Event.sendReliableMessage name blocks,
      Event.accountForUpdate (accountFor m name t blocks)]) = true := by
  rw [sendsThenAccounts_append m t L _ h]
  simp [sendsThenAccounts]

theorem accountFor_append (m : LLInventoryModel) (name : String) (t : LLUUID)
    (blocks : List (LLUUID × LLUUID)) (id : LLUUID) :
    accountFor m name t (blocks ++ [(id, t)])
      = updateMapAdd (updateMapAdd (accountFor m name t blocks) (blockParent m name id) (-1))
          t 1 := by
  simp [accountFor, List.foldl_append]

namespace MoveBatch

theorem Inv.previewHide {w0 : World} {t : LLUUID} {name : String} {st : MoveBatch}
    {L : List Event} (h : Inv w0 t name st L) (id : LLUUID) :
    Inv w0 t name { st with w := st.w.emit (.previewHide id) } (L ++ [Event.previewHide id]) := by
  obtain ⟨h1, h2, h3, h4⟩ := h
  refine ⟨?_, sendsThenAccounts_previewHide _ _ _ _ h2, ?_, h4⟩
  · simp only [World.emit]
    rw [h1]
    simp
  · simpa [Event.blocksSent] using h3

theorem Inv.flush {w0 : World} {t : LLUUID} {name : String} {st : MoveBatch}
    {L : List Event} (h : Inv w0 t name st L) (hs : st.start_new_message = false)
    (name2 : String) :
    Inv w0 t name2 (st.flush name)
      (L ++ [Event.sendReliableMessage name st.blocks, Event.accountForUpdate st.update]) := by
  obtain ⟨h1, h2, h3, h4⟩ := h
  simp only [hs, Bool.false_eq_true, if_false] at h3 h4
  refine ⟨?_, ?_, ?_, ?_⟩
  · simp only [MoveBatch.flush, World.emit]
    rw [h1]
    simp
  · rw [h4]
    exact sendsThenAccounts_flush _ _ _ _ _ h2
  · simpa [MoveBatch.flush, Event.blocksSent] using h3
  · simp [MoveBatch.flush]

theorem Inv.rename {w0 : World} {t : LLUUID} {name : String} {st : MoveBatch}
    {L : List Event} (h : Inv w0 t name st L) (hs : st.start_new_message = true)
    (name2 : String) : Inv w0 t name2 st L := by
  obtain ⟨h1, h2, h3, h4⟩ := h
  refine ⟨h1, h2, h3, ?_⟩
  rw [h4]
  simp [hs]

theorem Inv.flushIfOpen {w0 : World} {t : LLUUID} {name : String} {st : MoveBatch}
    {L : List Event} (h : Inv w0 t name st L) (name2 : String) :
    ∃ L', Inv w0 t name2 (if !st.start_new_message then st.flush name else st) L'
      ∧ (if !st.start_new_message then st.flush name else st).start_new_message = true
      ∧ (if !st.start_new_message then st.flush name else st).move_ids = st.move_ids := by
  cases hs : st.start_new_message
  · exact ⟨_, by simpa using h.flush hs name2, by simp [MoveBatch.flush], by simp⟩
  · exact ⟨L, by simpa using h.rename hs name2, by simpa using hs, by simp⟩

theorem Inv.addMove_inv {w0 : World} {t : LLUUID} {name : String} {st : MoveBatch}
    {L : List Event} (h : Inv w0 t name st L) (id : LLUUID) :
    ∃ L', Inv w0 t name (st.addMove name id (blockParent w0.gInventory name id) t) L' := by
  obtain ⟨h1, h2, h3, h4⟩ := h
  have hlim : st.w.mBlockLimit = w0.mBlockLimit := by rw [h1]
  -- the state before the test of `isSendFullFast`
  have hmid : Inv w0 t name
      { st with move_ids := st.move_ids ++ [id],
                update := updateMapAdd (updateMapAdd st.update
                  (blockParent w0.gInventory name id) (-1)) t 1,
                start_new_message := false,
                blocks := (if st.start_new_message then [(id, t)] else st.blocks ++ [(id, t)]) }
      L := by
    refine ⟨h1, h2, ?_, ?_⟩
    · simp only [Bool.false_eq_true, if_false, List.map_append, List.map_cons, List.map_nil]
      rw [← h3]
      cases st.start_new_message <;> simp
    · simp only [Bool.false_eq_true, if_false]
      rw [h4]
      cases st.start_new_message
      · simp only [Bool.false_eq_true, if_false]
        exact (accountFor_append _ _ _ _ _).symm
      · simp [accountFor]
  unfold MoveBatch.addMove
  cases hs : st.start_new_message
  · simp only [hs, Bool.false_eq_true, if_false, hlim] at hmid ⊢
    split_ifs with hfull
    · exact ⟨_, hmid.flush rfl name⟩
    · exact ⟨_, hmid⟩
  · simp only [hs, if_true, hlim, List.nil_append] at hmid ⊢
    split_ifs with hfull
    · exact ⟨_, hmid.flush rfl name⟩
    · exact ⟨_, hmid⟩

theorem Inv.addMove {w0 : World} {t : LLUUID} {name : String} {st : MoveBatch}
    {L : List Event} (h : Inv w0 t name st L) (id : LLUUID) :
    ∃ L', Inv w0 t name (st.addMove name id (blockParent w0.gInventory name id) t) L'
      ∧ (st.addMove name id (blockParent w0.gInventory name id) t).move_ids
          = st.move_ids ++ [id] := by
  obtain ⟨L', hL⟩ := h.addMove_inv id
  exact ⟨L', hL, MoveBatch.addMove_move_ids _ _ _ _ _⟩

end MoveBatch

namespace LLInvFVBridge

theorem removeBatchItemMoved_getItem (w : World) (t : LLUUID) (bridge : Option LLInvFVBridge)
    (item : LLViewerInventoryItem) (h : removeBatchItemMoved w t bridge = some item) :
    w.gInventory.getItem item.mUUID = some item := by
  unfold removeBatchItemMoved at h
  cases bridge with
  | none => simp at h
  | some br =>
    simp only at h
    split_ifs at h with hr
    cases hi : w.gInventory.getItem br.mUUID with
    | none => simp [hi] at h
    | some x =>
      simp only [hi] at h
      split_ifs at h
      have hx : x = item := Option.some.inj h
      subst hx
      rw [LLInventoryModel.getItem_uuid _ _ _ hi]
      exact hi

theorem removeBatchCategoryMoved_getCategory (w : World) (t : LLUUID)
    (bridge : Option LLInvFVBridge) (cat : LLViewerInventoryCategory)
    (h : removeBatchCategoryMoved w t bridge = some cat) :
    w.gInventory.getCategory cat.mUUID = some cat := by
  unfold removeBatchCategoryMoved at h
  cases bridge with
  | none => simp at h
  | some br =>
    simp only at h
    split_ifs at h with hr
    cases hi : w.gInventory.getCategory br.mUUID with
    | none => simp [hi] at h
    | some x =>
      simp only [hi] at h
      split_ifs at h
      have hx : x = cat := Option.some.inj h
      subst hx
      rw [LLInventoryModel.getCategory_uuid _ _ _ hi]
      exact hi

theorem removeBatchItemStep_eq (w0 : World) (t : LLUUID) (st : MoveBatch)
    (bridge : Option LLInvFVBridge) (L : List Event)
    (h : st.w = { w0 with log := w0.log ++ L }) :
    removeBatchItemStep t st bridge
      = match removeBatchItemMoved w0 t bridge with
        | none => st
        | some item => removeBatchAddItem t st item := by
  cases bridge with
  | none => rfl
  | some br =>
    have hv : br.virtualIsItemRemovable st.w = br.virtualIsItemRemovable w0 := by
      rw [h]
      rfl
    have hg : st.w.gInventory = w0.gInventory := by rw [h]
    simp only [removeBatchItemStep, removeBatchItemMoved, hv, hg]
    cases br.virtualIsItemRemovable w0
    · rfl
    · simp only [Bool.not_true, Bool.false_eq_true, if_false, if_true]
      cases w0.gInventory.getItem br.mUUID with
      | none => rfl
      | some item =>
        simp only
        split_ifs <;> rfl

theorem removeBatchCategoryStep_eq (w0 : World) (t : LLUUID) (st : MoveBatch)
    (bridge : Option LLInvFVBridge) (L : List Event)
    (h : st.w = { w0 with log := w0.log ++ L }) :
    removeBatchCategoryStep t st bridge
      = match removeBatchCategoryMoved w0 t bridge with
        | none => st
        | some cat => removeBatchAddCategory t st cat := by
  cases bridge with
  | none => rfl
  | some br =>
    have hv : br.virtualIsItemRemovable st.w = br.virtualIsItemRemovable w0 := by
      rw [h]
      rfl
    have hg : st.w.gInventory = w0.gInventory := by rw [h]
    simp only [removeBatchCategoryStep, removeBatchCategoryMoved, hv, hg]
    cases br.virtualIsItemRemovable w0
    · rfl
    · simp only [Bool.not_true, Bool.false_eq_true, if_false, if_true]
      cases w0.gInventory.getCategory br.mUUID with
      | none => rfl
      | some cat =>
        simp only
        split_ifs <;> rfl

theorem removeBatchAddItem_inv (w0 : World) (t : LLUUID) (st : MoveBatch) (L : List Event)
    (item : LLViewerInventoryItem) (hitem : w0.gInventory.getItem item.mUUID = some item)
    (h : MoveBatch.Inv w0 t "MoveInventoryItem" st L) :
    ∃ L', MoveBatch.Inv w0 t "MoveInventoryItem" (removeBatchAddItem t st item) L'
      ∧ (removeBatchAddItem t st item).move_ids = st.move_ids ++ [item.mUUID] := by
  have hp : blockParent w0.gInventory "MoveInventoryItem" item.mUUID = item.mParentUUID := by
    simp [blockParent, hitem]
  have h2 := (h.previewHide item.mUUID).addMove item.mUUID
  rw [hp] at h2
  exact h2

theorem removeBatchAddCategory_inv (w0 : World) (t : LLUUID) (st : MoveBatch) (L : List Event)
    (cat : LLViewerInventoryCategory) (hcat : w0.gInventory.getCategory cat.mUUID = some cat)
    (h : MoveBatch.Inv w0 t "MoveInventoryFolder" st L) :
    ∃ L', MoveBatch.Inv w0 t "MoveInventoryFolder" (removeBatchAddCategory t st cat) L'
      ∧ (removeBatchAddCategory t st cat).move_ids = st.move_ids ++ [cat.mUUID] := by
  have hp : blockParent w0.gInventory "MoveInventoryFolder" cat.mUUID = cat.mParentUUID := by
    simp [blockParent, hcat]
  have h2 := h.addMove cat.mUUID
  rw [hp] at h2
  exact h2

theorem removeBatchItemLoop (w0 : World) (t : LLUUID) (batch : List (Option LLInvFVBridge)) :
    ∀ (st : MoveBatch) (L : List Event), MoveBatch.Inv w0 t "MoveInventoryItem" st L →
      ∃ L', MoveBatch.Inv w0 t "MoveInventoryItem" (batch.foldl (removeBatchItemStep t) st) L'
        ∧ (batch.foldl (removeBatchItemStep t) st).move_ids
            = st.move_ids ++ (batch.filterMap (removeBatchItemMoved w0 t)).map
                (fun item => item.mUUID) := by
  induction batch with
  | nil => intro st L h; exact ⟨L, h, by simp⟩
  | cons bridge rest ih =>
    intro st L h
    rw [List.foldl_cons, removeBatchItemStep_eq w0 t st bridge L h.1]
    cases hm : removeBatchItemMoved w0 t bridge with
    | none =>
      obtain ⟨L', h1, h2⟩ := ih st L h
      exact ⟨L', h1, by rw [h2, List.filterMap_cons, hm]⟩
    | some item =>
      obtain ⟨L1, h1, h2⟩ := removeBatchAddItem_inv w0 t st L item
        (removeBatchItemMoved_getItem w0 t bridge item hm) h
      obtain ⟨L', h3, h4⟩ := ih _ L1 h1
      exact ⟨L', h3, by rw [h4, h2, List.filterMap_cons, hm]; simp⟩

theorem removeBatchCategoryLoop (w0 : World) (t : LLUUID)
    (batch : List (Option LLInvFVBridge)) :
    ∀ (st : MoveBatch) (L : List Event), MoveBatch.Inv w0 t "MoveInventoryFolder" st L →
      ∃ L', MoveBatch.Inv w0 t "MoveInventoryFolder"
          (batch.foldl (removeBatchCategoryStep t) st) L'
        ∧ (batch.foldl (removeBatchCategoryStep t) st).move_ids
            = st.move_ids ++ (batch.filterMap (removeBatchCategoryMoved w0 t)).map
                (fun cat => cat.mUUID) := by
  induction batch with
  | nil => intro st L h; exact ⟨L, h, by simp⟩
  | cons bridge rest ih =>
    intro st L h
    rw [List.foldl_cons, removeBatchCategoryStep_eq w0 t st bridge L h.1]
    cases hm : removeBatchCategoryMoved w0 t bridge with
    | none =>
      obtain ⟨L', h1, h2⟩ := ih st L h
      exact ⟨L', h1, by rw [h2, List.filterMap_cons, hm]⟩
    | some cat =>
      obtain ⟨L1, h1, h2⟩ := removeBatchAddCategory_inv w0 t st L cat
        (removeBatchCategoryMoved_getCategory w0 t bridge cat hm) h
      obtain ⟨L', h3, h4⟩ := ih _ L1 h1
      exact ⟨L', h3, by rw [h4, h2, List.filterMap_cons, hm]; simp⟩

theorem moveObjects_log (t : LLUUID) (ids : List LLUUID) :
    ∀ w : World, (moveObjects t w ids).log = w.log ++ ids.map (fun id => Event.moveObject id t) := by
  unfold moveObjects
  induction ids with
  | nil => intro w; simp
  | cons id rest ih =>
    intro w
    rw [List.foldl_cons, ih]
    simp [World.emit]

/-- The calls of `removeBatchNoCheck`: previews hidden and messages sent and
accounted for, then the moves, then the notification. -/
theorem removeBatchNoCheck_calls (b : LLInvFVBridge) (w : World)
    (batch : List (Option LLInvFVBridge)) (hb : b.hasModel = true) :
    ∃ pre : List Event,
      (removeBatchNoCheck b w batch).log
        = w.log ++ pre
          ++ (removeBatchMovedIds w (w.gInventory.findCategoryUUIDForType .FT_TRASH) batch).map
              (fun id => Event.moveObject id (w.gInventory.findCategoryUUIDForType .FT_TRASH))
          ++ [Event.notifyObservers]
      ∧ sendsThenAccounts w.gInventory (w.gInventory.findCategoryUUIDForType .FT_TRASH) pre = true
      ∧ pre.flatMap Event.blocksSent
          = (removeBatchMovedIds w (w.gInventory.findCategoryUUIDForType .FT_TRASH) batch).map
              (fun id => (id, w.gInventory.findCategoryUUIDForType .FT_TRASH)) := by
  have h0 : MoveBatch.Inv w (w.gInventory.findCategoryUUIDForType .FT_TRASH) "MoveInventoryItem"
      { w := w } [] := by
    refine ⟨?_, rfl, rfl, rfl⟩
    simp
  obtain ⟨L1, h1, m1⟩ := removeBatchItemLoop w _ batch _ _ h0
  obtain ⟨L2, h2, s2, m2⟩ := h1.flushIfOpen "MoveInventoryFolder"
  obtain ⟨L3, h3, m3⟩ := removeBatchCategoryLoop w _ batch _ _ h2
  obtain ⟨L4, h4, s4, m4⟩ := h3.flushIfOpen "MoveInventoryFolder"
  have hids : (if !(batch.foldl (removeBatchCategoryStep
        (w.gInventory.findCategoryUUIDForType .FT_TRASH))
        (if !(batch.foldl (removeBatchItemStep (w.gInventory.findCategoryUUIDForType .FT_TRASH))
            { w := w }).start_new_message
          then (batch.foldl (removeBatchItemStep (w.gInventory.findCategoryUUIDForType .FT_TRASH))
            { w := w }).flush "MoveInventoryItem"
          else batch.foldl (removeBatchItemStep (w.gInventory.findCategoryUUIDForType .FT_TRASH))
            { w := w })).start_new_message
      then (batch.foldl (removeBatchCategoryStep
        (w.gInventory.findCategoryUUIDForType .FT_TRASH))
        (if !(batch.foldl (removeBatchItemStep (w.gInventory.findCategoryUUIDForType .FT_TRASH))
            { w := w }).start_new_message
          then (batch.foldl (removeBatchItemStep (w.gInventory.findCategoryUUIDForType .FT_TRASH))
            { w := w }).flush "MoveInventoryItem"
          else batch.foldl (removeBatchItemStep (w.gInventory.findCategoryUUIDForType .FT_TRASH))
            { w := w })).flush "MoveInventoryFolder"
      else batch.foldl (removeBatchCategoryStep
        (w.gInventory.findCategoryUUIDForType .FT_TRASH))
        (if !(batch.foldl (removeBatchItemStep (w.gInventory.findCategoryUUIDForType .FT_TRASH))
            { w := w }).start_new_message
          then (batch.foldl (removeBatchItemStep (w.gInventory.findCategoryUUIDForType .FT_TRASH))
            { w := w }).flush "MoveInventoryItem"
          else batch.foldl (removeBatchItemStep (w.gInventory.findCategoryUUIDForType .FT_TRASH))
            { w := w })).move_ids
      = removeBatchMovedIds w (w.gInventory.findCategoryUUIDForType .FT_TRASH) batch := by
    rw [m4, m3, m2, m1]
    simp [removeBatchMovedIds]
  refine ⟨L4, ?_, h4.2.1, ?_⟩
  · unfold removeBatchNoCheck
    simp only [hb, Bool.not_true, Bool.false_eq_true, if_false, World.emit_log, moveObjects_log]
    rw [hids, h4.1]
  · have h := h4.2.2.1
    rw [s4, hids] at h
    simpa using h

end LLInvFVBridge

theorem LLInvFVBridge.removeBatchItemMoved_iff (w : World) (t : LLUUID)
    (bridge : Option LLInvFVBridge) (item : LLViewerInventoryItem) :
    LLInvFVBridge.removeBatchItemMoved w t bridge = some item
      ↔ ∃ br, bridge = some br ∧ br.virtualIsItemRemovable w = true
          ∧ w.gInventory.getItem br.mUUID = some item ∧ item.mParentUUID ≠ t := by
  unfold LLInvFVBridge.removeBatchItemMoved
  cases bridge with
  | none => simp
  | some br =>
    simp only [Option.some.injEq, exists_eq_left']
    cases br.virtualIsItemRemovable w
    · simp
    · cases w.gInventory.getItem br.mUUID with
      | none => simp
      | some x =>
        simp only [if_true, Option.some.injEq, true_and]
        constructor
        · intro h
          split_ifs at h with hp
          have hx : x = item := Option.some.inj h
          subst hx
          exact ⟨rfl, by simpa using hp⟩
        · rintro ⟨hx, hp⟩
          subst hx
          have hb : (x.mParentUUID == t) = false := by simpa using hp
          simp [hb]

theorem LLInvFVBridge.removeBatchCategoryMoved_iff (w : World) (t : LLUUID)
    (bridge : Option LLInvFVBridge) (cat : LLViewerInventoryCategory) :
    LLInvFVBridge.removeBatchCategoryMoved w t bridge = some cat
      ↔ ∃ br, bridge = some br ∧ br.virtualIsItemRemovable w = true
          ∧ w.gInventory.getCategory br.mUUID = some cat ∧ cat.mParentUUID ≠ t := by
  unfold LLInvFVBridge.removeBatchCategoryMoved
  cases bridge with
  | none => simp
  | some br =>
    simp only [Option.some.injEq, exists_eq_left']
    cases br.virtualIsItemRemovable w
    · simp
    · cases w.gInventory.getCategory br.mUUID with
      | none => simp
      | some x =>
        simp only [if_true, Option.some.injEq, true_and]
        constructor
        · intro h
          split_ifs at h with hp
          have hx : x = cat := Option.some.inj h
          subst hx
          exact ⟨rfl, by simpa using hp⟩
        · rintro ⟨hx, hp⟩
          subst hx
          have hb : (x.mParentUUID == t) = false := by simpa using hp
          simp [hb]

theorem moveObject_blocksSent (ids : List LLUUID) (t : LLUUID) :
    (ids.map (fun id => Event.moveObject id t)).flatMap Event.blocksSent = [] := by
  induction ids with
  | nil => rfl
  | cons a rest _ => simp [Event.blocksSent]

theorem moveObject_objectMoved (ids : List LLUUID) (t : LLUUID) :
    (ids.map (fun id => Event.moveObject id t)).filterMap Event.objectMoved
      = ids.map (fun id => (id, t)) := by
  induction ids with
  | nil => rfl
  | cons a rest ih => simpa [Event.objectMoved] using ih

theorem sendsThenAccounts_objectMoved (m : LLInventoryModel) (t : LLUUID) (l : List Event)
    (h : sendsThenAccounts m t l = true) : l.filterMap Event.objectMoved = [] := by
  rw [List.filterMap_eq_nil_iff]
  intro e he
  rcases sendsThenAccounts_mem m t l h e he with ⟨id, h⟩ | ⟨name, blocks, h⟩ | ⟨update, h⟩ <;>
    subst h <;> rfl

/-! ## The claims -/

/-- C1: when the current parent P of an item (`changeItemParent`) or of a
folder (`changeCategoryParent`) differs from the new parent N, the operation
makes exactly these calls, in this order: one accounting update of -1 for P
and +1 for N, then the server update, then the model update, then the observer
notification; afterwards the model's copy of the object has parent N. -/
theorem C1_changeParent_accounts_then_reparents (w : World) (item : LLViewerInventoryItem)
    (cat : LLViewerInventoryCategory) (N : LLUUID) (restamp : Bool)
    (hi : item.mParentUUID ≠ N) (hc : cat.mParentUUID ≠ N) :
    ((LLInvFVBridge.changeItemParent w item N restamp).log
        = w.log ++ [Event.accountForUpdate [(item.mParentUUID, -1), (N, 1)],
                    Event.updateParentOnServer item.mUUID N restamp,
                    Event.updateItem item.mUUID, Event.notifyObservers]
      ∧ (LLInvFVBridge.changeItemParent w item N restamp).gInventory.getItem item.mUUID
        = some { item with mParentUUID := N })
    ∧ ((LLInvFVBridge.changeCategoryParent w cat N restamp).log
        = w.log ++ [Event.accountForUpdate [(cat.mParentUUID, -1), (N, 1)],
                    Event.updateParentOnServer cat.mUUID N restamp,
                    Event.updateCategory cat.mUUID, Event.notifyObservers]
      ∧ (LLInvFVBridge.changeCategoryParent w cat N restamp).gInventory.getCategory cat.mUUID
        = some { cat with mParentUUID := N }) := by
  have hi2 : (item.mParentUUID != N) = true := by simpa using hi
  have hc2 : (cat.mParentUUID != N) = true := by simpa using hc
  refine ⟨⟨?_, ?_⟩, ?_, ?_⟩
  · simp [LLInvFVBridge.changeItemParent, hi2, World.emit]
  · simp only [LLInvFVBridge.changeItemParent, hi2, World.emit, if_true]
    exact LLInventoryModel.getItem_updateItem_self w.gInventory { item with mParentUUID := N }
  · simp [LLInvFVBridge.changeCategoryParent, hc2, World.emit]
  · simp only [LLInvFVBridge.changeCategoryParent, hc2, World.emit, if_true]
    exact LLInventoryModel.getCategory_updateCategory_self w.gInventory { cat with mParentUUID := N }

/-- C1 at a concrete input: the gesture `10` and the folder `3` of the sample
world are moved to the trash `2`. -/
theorem C1_changeParent_witness :
    ((LLInvFVBridge.changeItemParent sampleWorld sampleGesture 2 true).log
        = sampleWorld.log ++ [Event.accountForUpdate [(sampleGesture.mParentUUID, -1), (2, 1)],
                    Event.updateParentOnServer sampleGesture.mUUID 2 true,
                    Event.updateItem sampleGesture.mUUID, Event.notifyObservers]
      ∧ (LLInvFVBridge.changeItemParent sampleWorld sampleGesture 2 true).gInventory.getItem
          sampleGesture.mUUID = some { sampleGesture with mParentUUID := 2 })
    ∧ ((LLInvFVBridge.changeCategoryParent sampleWorld sampleFolder 2 true).log
        = sampleWorld.log ++ [Event.accountForUpdate [(sampleFolder.mParentUUID, -1), (2, 1)],
                    Event.updateParentOnServer sampleFolder.mUUID 2 true,
                    Event.updateCategory sampleFolder.mUUID, Event.notifyObservers]
      ∧ (LLInvFVBridge.changeCategoryParent sampleWorld sampleFolder 2 true).gInventory.getCategory
          sampleFolder.mUUID = some { sampleFolder with mParentUUID := 2 }) :=
  C1_changeParent_accounts_then_reparents sampleWorld sampleGesture sampleFolder 2 true
    (by decide) (by decide)

/-- C2: `changeItemParent` with the item's current parent as the new parent
does nothing: the world, with its model and its log of calls (accounting,
server, model update, observers), is returned as it was. -/
theorem C2_changeItemParent_same_parent_noop (w : World) (item : LLViewerInventoryItem)
    (restamp : Bool) :
    LLInvFVBridge.changeItemParent w item item.mParentUUID restamp = w := by
  simp [LLInvFVBridge.changeItemParent]

/-- C4: `LLFolderBridge::isItemRemovable` is FALSE whenever a collected
descendant item is a worn clothing or body part item or an attached object
item, FALSE whenever a collected descendant folder has a protected preferred
type, and TRUE exactly when the model, the avatar and the folder exist, the
folder descends from the agent's root, its own preferred type is not
protected, and neither descendant condition holds. -/
theorem C4_folder_isItemRemovable_iff (b : LLInvFVBridge) (w : World) :
    ((∃ item ∈ (w.gInventory.collectDescendents b.mUUID false).2,
        ((item.getType = .AT_CLOTHING ∨ item.getType = .AT_BODYPART)
            ∧ w.isWearingItem item.mUUID = true)
          ∨ (item.getType = .AT_OBJECT ∧ w.isWearingAttachment item.mUUID = true)) →
      LLFolderBridge.isItemRemovable b w = false)
    ∧ ((∃ c ∈ (w.gInventory.collectDescendents b.mUUID false).1,
        LLFolderType.lookupIsProtectedType c.mPreferredType = true) →
      LLFolderBridge.isItemRemovable b w = false)
    ∧ (LLFolderBridge.isItemRemovable b w = true ↔
        b.hasModel = true ∧ w.hasAvatar = true
        ∧ (∃ category, w.gInventory.getCategory b.mUUID = some category
            ∧ LLFolderType.lookupIsProtectedType category.mPreferredType = false)
        ∧ w.gInventory.isObjectDescendentOf b.mUUID w.gInventory.getRootFolderID = true
        ∧ (∀ c ∈ (w.gInventory.collectDescendents b.mUUID false).1,
            LLFolderType.lookupIsProtectedType c.mPreferredType = false)
        ∧ (∀ item ∈ (w.gInventory.collectDescendents b.mUUID false).2,
            ¬ ((item.getType = .AT_CLOTHING ∨ item.getType = .AT_BODYPART)
                ∧ w.isWearingItem item.mUUID = true)
            ∧ ¬ (item.getType = .AT_OBJECT ∧ w.isWearingAttachment item.mUUID = true))) := by
  have hworn : ∀ item : LLViewerInventoryItem, isWornOrAttached w item = true ↔
      (((item.getType = .AT_CLOTHING ∨ item.getType = .AT_BODYPART)
            ∧ w.isWearingItem item.mUUID = true)
          ∨ (item.getType = .AT_OBJECT ∧ w.isWearingAttachment item.mUUID = true)) := by
    intro item
    unfold isWornOrAttached
    cases item.getType <;> simp
  have hiff : LLFolderBridge.isItemRemovable b w = true ↔
        b.hasModel = true ∧ w.hasAvatar = true
        ∧ (∃ category, w.gInventory.getCategory b.mUUID = some category
            ∧ LLFolderType.lookupIsProtectedType category.mPreferredType = false)
        ∧ w.gInventory.isObjectDescendentOf b.mUUID w.gInventory.getRootFolderID = true
        ∧ (∀ c ∈ (w.gInventory.collectDescendents b.mUUID false).1,
            LLFolderType.lookupIsProtectedType c.mPreferredType = false)
        ∧ (∀ item ∈ (w.gInventory.collectDescendents b.mUUID false).2,
            ¬ ((item.getType = .AT_CLOTHING ∨ item.getType = .AT_BODYPART)
                ∧ w.isWearingItem item.mUUID = true)
            ∧ ¬ (item.getType = .AT_OBJECT ∧ w.isWearingAttachment item.mUUID = true)) := by
    have hitems : (∀ item ∈ (w.gInventory.collectDescendents b.mUUID false).2,
            ¬ ((item.getType = .AT_CLOTHING ∨ item.getType = .AT_BODYPART)
                ∧ w.isWearingItem item.mUUID = true)
            ∧ ¬ (item.getType = .AT_OBJECT ∧ w.isWearingAttachment item.mUUID = true))
        ↔ (w.gInventory.collectDescendents b.mUUID false).2.any
            (fun item => isWornOrAttached w item) = false := by
      rw [List.any_eq_false]
      constructor
      · intro h item hi hw
        exact ((hworn item).mp hw).elim (h item hi).1 (h item hi).2
      · intro h item hi
        exact ⟨fun hc => h item hi ((hworn item).mpr (Or.inl hc)),
          fun hc => h item hi ((hworn item).mpr (Or.inr hc))⟩
    have hcats : (∀ c ∈ (w.gInventory.collectDescendents b.mUUID false).1,
            LLFolderType.lookupIsProtectedType c.mPreferredType = false)
        ↔ (w.gInventory.collectDescendents b.mUUID false).1.any
            (fun c => LLFolderType.lookupIsProtectedType c.mPreferredType) = false := by
      rw [List.any_eq_false]
      constructor
      · intro h c hc; simpa using h c hc
      · intro h c hc; simpa using h c hc
    rw [hitems, hcats]
    unfold LLFolderBridge.isItemRemovable
    cases hm : b.hasModel <;> cases ha : w.hasAvatar <;>
      cases hd : w.gInventory.isObjectDescendentOf b.mUUID w.gInventory.getRootFolderID <;>
      cases hc : w.gInventory.getCategory b.mUUID <;> simp
  refine ⟨?_, ?_, hiff⟩
  · rintro ⟨item, hi, hw⟩
    cases hr : LLFolderBridge.isItemRemovable b w with
    | false => rfl
    | true =>
      have h := (hiff.mp hr).2.2.2.2.2 item hi
      exact hw.elim (fun hc => absurd hc h.1) (fun hc => absurd hc h.2)
  · rintro ⟨c, hc, hp⟩
    cases hr : LLFolderBridge.isItemRemovable b w with
    | false => rfl
    | true =>
      have h := (hiff.mp hr).2.2.2.2.1 c hc
      rw [hp] at h
      exact absurd h (by simp)

/-- C5 fails on the cut-and-paste path: in the sample world the gesture `10`
is active and sits in folder `3`; after it was cut, `pasteFromClipboard` on
the trash folder `2` moves it into the trash, yet makes no
`deactivateGesture` call and leaves the gesture active. -/
theorem C5_cut_paste_into_trash_keeps_gesture_active :
    (cutGestureWorld.gInventory.getItem 10).map (fun i => (i.getType, i.mParentUUID))
      = some (.AT_GESTURE, 3)
    ∧ cutGestureWorld.isGestureActive 10 = true
    ∧ cutGestureWorld.gInventory.findCategoryUUIDForType .FT_TRASH = sampleTrashBridge.mUUID
    ∧ ((LLFolderBridge.pasteFromClipboard sampleTrashBridge cutGestureWorld).gInventory.getItem
        10).map (fun i => i.mParentUUID) = some 2
    ∧ (LLFolderBridge.pasteFromClipboard sampleTrashBridge cutGestureWorld).isGestureActive 10
        = true
    ∧ Event.deactivateGesture 10
        ∉ (LLFolderBridge.pasteFromClipboard sampleTrashBridge cutGestureWorld).log := by
  decide

/-- C6: `LLItemBridge::removeItem` returns TRUE exactly when the bridge is
removable, the model and the item exist and the item is not a descendant of
the trash; in that case it is `changeItemParent` to the trash with restamp
TRUE (after the preview was hidden) and the model's copy of the item then has
the trash as parent.  In every other case it returns FALSE and leaves the
model, hence the item's parent, as it was. -/
theorem C6_item_removeItem_result (b : LLInvFVBridge) (w : World) :
    ((LLItemBridge.removeItem b w).1 = true ↔
        b.virtualIsItemRemovable w = true ∧ b.hasModel = true
        ∧ (∃ item, w.gInventory.getItem b.mUUID = some item)
        ∧ w.gInventory.isObjectDescendentOf b.mUUID
            (w.gInventory.findCategoryUUIDForType .FT_TRASH) = false)
    ∧ (∀ item, (LLItemBridge.removeItem b w).1 = true →
        w.gInventory.getItem b.mUUID = some item →
        (LLItemBridge.removeItem b w).2
            = LLInvFVBridge.changeItemParent (w.emit (.previewHide b.mUUID)) item
                (w.gInventory.findCategoryUUIDForType .FT_TRASH) true
          ∧ (LLItemBridge.removeItem b w).2.gInventory.getItem b.mUUID
            = some { item with
                mParentUUID := w.gInventory.findCategoryUUIDForType .FT_TRASH })
    ∧ ((LLItemBridge.removeItem b w).1 = false →
        (LLItemBridge.removeItem b w).2.gInventory = w.gInventory) := by
  refine ⟨?_, ?_, ?_⟩
  · unfold LLItemBridge.removeItem LLItemBridge.getItem
    cases hr : b.virtualIsItemRemovable w <;> cases hm : b.hasModel <;>
      cases hi : w.gInventory.getItem b.mUUID <;>
      cases hd : w.gInventory.isObjectDescendentOf b.mUUID
        (w.gInventory.findCategoryUUIDForType .FT_TRASH) <;> simp [hi, hd]
  · intro item hres hitem
    have hu := LLInventoryModel.getItem_uuid _ _ _ hitem
    have key : (LLItemBridge.removeItem b w).2
        = LLInvFVBridge.changeItemParent (w.emit (.previewHide b.mUUID)) item
            (w.gInventory.findCategoryUUIDForType .FT_TRASH) true := by
      revert hres
      unfold LLItemBridge.removeItem LLItemBridge.getItem
      cases hr : b.virtualIsItemRemovable w <;> cases hm : b.hasModel <;>
        cases hd : w.gInventory.isObjectDescendentOf b.mUUID
          (w.gInventory.findCategoryUUIDForType .FT_TRASH) <;> simp [hitem, hd]
    refine ⟨key, ?_⟩
    rw [key]
    unfold LLInvFVBridge.changeItemParent
    split_ifs with hp
    · simp only [World.emit_gInventory]
      rw [← hu]
      exact LLInventoryModel.getItem_updateItem_self w.gInventory
        { item with mParentUUID := w.gInventory.findCategoryUUIDForType .FT_TRASH }
    · have hp2 : item.mParentUUID = w.gInventory.findCategoryUUIDForType .FT_TRASH := by
        simpa using hp
      simp only [World.emit_gInventory, hitem, ← hp2]
  · unfold LLItemBridge.removeItem LLItemBridge.getItem
    cases hr : b.virtualIsItemRemovable w <;> cases hm : b.hasModel <;>
      cases hi : w.gInventory.getItem b.mUUID <;>
      cases hd : w.gInventory.isObjectDescendentOf b.mUUID
        (w.gInventory.findCategoryUUIDForType .FT_TRASH) <;> simp [hi, hd]

/-- C7: `LLInvFVBridge::isClipboardPasteable` returns TRUE exactly when the
clipboard is not empty, the bridge has a model and stands for the agent's root
folder or a descendant of it, no clipboard entry is a folder, and every entry
that is an item may be copied by the agent; so it is FALSE as soon as one of
these fails. -/
theorem C7_isClipboardPasteable_iff (b : LLInvFVBridge) (w : World) :
    LLInvFVBridge.isClipboardPasteable b w = true ↔
      w.mClipboard ≠ []
      ∧ (b.hasModel = true
          ∧ (w.gInventory.getRootFolderID = b.mUUID
              ∨ w.gInventory.isObjectDescendentOf b.mUUID w.gInventory.getRootFolderID = true))
      ∧ ∀ id ∈ w.mClipboard, w.gInventory.getCategory id = none
          ∧ ∀ item, w.gInventory.getItem id = some item →
              item.mPermissions.allowCopyBy w.agentID = true := by
  rw [← LLInvFVBridge.clipboardPasteableLoop_iff]
  unfold LLInvFVBridge.isClipboardPasteable LLInvFVBridge.isAgentInventory
  cases hm : b.hasModel <;> cases hc : w.mClipboard <;>
    cases hd : w.gInventory.isObjectDescendentOf b.mUUID w.gInventory.getRootFolderID <;>
    by_cases hr : w.gInventory.getRootFolderID = b.mUUID <;> simp [hr, hd]

/-- C8: when the destination D is a folder of the model and the clipboard
holds D itself or a folder that is an ancestor of D,
`LLFolderBridge::isClipboardPasteableAsLink` on D returns FALSE. -/
theorem C8_no_recursive_paste_as_link (b : LLInvFVBridge) (w : World)
    (d : LLViewerInventoryCategory) (hD : w.gInventory.getCategory b.mUUID = some d)
    (hclip : ∃ id ∈ w.mClipboard, id = b.mUUID
      ∨ ∃ c, w.gInventory.getCategory id = some c
          ∧ w.gInventory.isObjectDescendentOf b.mUUID id = true) :
    LLFolderBridge.isClipboardPasteableAsLink b w = false := by
  unfold LLFolderBridge.isClipboardPasteableAsLink
  split_ifs with h1 h2
  · rfl
  · rfl
  · have hm : b.hasModel = true := by simpa using h2
    have hd2 := LLInventoryModel.getCategory_uuid _ _ _ hD
    simp only [LLFolderBridge.getCategory, hm, if_true, hD]
    apply LLFolderBridge.pasteAsLinkLoop_recursive
    obtain ⟨id, hid, hcase⟩ := hclip
    rcases hcase with e | ⟨c, hc, hdesc⟩
    · exact ⟨id, hid, d, by rw [e]; exact hD, Or.inl rfl⟩
    · have hc2 := LLInventoryModel.getCategory_uuid _ _ _ hc
      exact ⟨id, hid, c, hc, Or.inr (by rw [hd2, hc2]; exact hdesc)⟩

/-- C4 at concrete inputs: the empty plain folder `5` of the sample world is
removable, and folder `3`, which holds the "Textures" system folder, is not. -/
theorem C4_folder_isItemRemovable_witness :
    LLFolderBridge.isItemRemovable sampleEmptyFolderBridge sampleWorld = true
    ∧ LLFolderBridge.isItemRemovable sampleFolderBridge sampleWorld = false :=
  ⟨(C4_folder_isItemRemovable_iff sampleEmptyFolderBridge sampleWorld).2.2.mpr
      ⟨by decide, by decide,
        ⟨{ mUUID := 5, mParentUUID := 1, mPreferredType := .FT_NONE, mOwnerID := 100 },
          by decide, by decide⟩,
        by decide, by decide, by decide⟩,
    (C4_folder_isItemRemovable_iff sampleFolderBridge sampleWorld).2.1
      ⟨sampleTextures, by decide, by decide⟩⟩

/-- C6 at a concrete input: removing the gesture `10` of the sample world
succeeds and leaves it in the trash `2`. -/
theorem C6_item_removeItem_witness :
    (LLItemBridge.removeItem sampleGestureBridge sampleWorld).2
        = LLInvFVBridge.changeItemParent (sampleWorld.emit (.previewHide 10)) sampleGesture
            (sampleWorld.gInventory.findCategoryUUIDForType .FT_TRASH) true
    ∧ (LLItemBridge.removeItem sampleGestureBridge sampleWorld).2.gInventory.getItem 10
        = some { sampleGesture with
            mParentUUID := sampleWorld.gInventory.findCategoryUUIDForType .FT_TRASH } :=
  (C6_item_removeItem_result sampleGestureBridge sampleWorld).2.1 sampleGesture
    (by decide) (by decide)

/-- C8 at a concrete input: with the protected "Textures" folder `4` on the
clipboard, pasting as link into its subfolder `6` is refused, although the
base check of `LLInvFVBridge` accepts the clipboard. -/
theorem C8_no_recursive_paste_as_link_witness :
    LLInvFVBridge.isClipboardPasteableAsLink sampleInnerFolderBridge texturesCopiedWorld = true
    ∧ LLFolderBridge.isClipboardPasteableAsLink sampleInnerFolderBridge texturesCopiedWorld
        = false :=
  ⟨by decide,
    C8_no_recursive_paste_as_link sampleInnerFolderBridge texturesCopiedWorld
      { mUUID := 6, mParentUUID := 4, mPreferredType := .FT_NONE, mOwnerID := 100 }
      (by decide) ⟨4, by decide, Or.inr ⟨sampleTextures, by decide, by decide⟩⟩⟩

/-- C9: with the clipboard in cut mode and every clipboard entry that is an
item already a child of folder F, `LLFolderBridge::pasteFromClipboard` into F
returns the world as it was: each such item still has parent F, the log of
calls (so no accounting update) is the same, and F has the same child items. -/
theorem C9_cut_paste_into_same_folder_noop (b : LLInvFVBridge) (w : World)
    (hcut : w.mCutMode = true)
    (h : ∀ id ∈ w.mClipboard, ∀ item, w.gInventory.getItem id = some item →
      item.mParentUUID = b.mUUID) :
    LLFolderBridge.pasteFromClipboard b w = w
    ∧ (∀ id ∈ w.mClipboard, ∀ item,
        (LLFolderBridge.pasteFromClipboard b w).gInventory.getItem id = some item →
        item.mParentUUID = b.mUUID)
    ∧ (LLFolderBridge.pasteFromClipboard b w).log = w.log
    ∧ (LLFolderBridge.pasteFromClipboard b w).gInventory.mItemMap.filter
          (fun i => i.mParentUUID == b.mUUID)
        = w.gInventory.mItemMap.filter (fun i => i.mParentUUID == b.mUUID) := by
  have key : LLFolderBridge.pasteFromClipboard b w = w := by
    unfold LLFolderBridge.pasteFromClipboard
    split_ifs
    · exact LLFolderBridge.pasteLoop_same_parent b.mUUID w w.mClipboard hcut h
    · rfl
  rw [key]
  exact ⟨rfl, h, rfl, rfl⟩

/-- C9 at a concrete input: the gesture `10` is cut and pasted back into its
own folder `3`, where the paste is allowed. -/
theorem C9_cut_paste_witness :
    LLFolderBridge.isClipboardPasteable sampleFolderBridge cutGestureWorld = true
    ∧ LLFolderBridge.pasteFromClipboard sampleFolderBridge cutGestureWorld = cutGestureWorld :=
  ⟨by decide,
    (C9_cut_paste_into_same_folder_noop sampleFolderBridge cutGestureWorld (by decide)
      (by decide)).1⟩

/-- C10: for an existing item and a present avatar, `LLItemBridge::isItemCopyable`
is FALSE when the item is worn as an attachment, FALSE when it is a link, and
TRUE otherwise; replacing the item's permission set by any other leaves the
result as it was. -/
theorem C10_isItemCopyable_ignores_permissions (b : LLInvFVBridge) (w : World)
    (item : LLViewerInventoryItem) (hitem : LLItemBridge.getItem b w = some item)
    (hav : w.hasAvatar = true) :
    (w.isWearingAttachment b.mUUID = true → LLItemBridge.isItemCopyable b w = false)
    ∧ (item.getIsLinkType = true → LLItemBridge.isItemCopyable b w = false)
    ∧ (w.isWearingAttachment b.mUUID = false → item.getIsLinkType = false →
        LLItemBridge.isItemCopyable b w = true)
    ∧ ∀ p : LLPermissions,
        LLItemBridge.isItemCopyable b
            { w with gInventory := w.gInventory.updateItem { item with mPermissions := p } }
          = LLItemBridge.isItemCopyable b w := by
  have hm : b.hasModel = true := by
    cases hmm : b.hasModel with
    | true => rfl
    | false => simp [LLItemBridge.getItem, hmm] at hitem
  have hi : w.gInventory.getItem b.mUUID = some item := by
    simpa [LLItemBridge.getItem, hm] using hitem
  have hu := LLInventoryModel.getItem_uuid _ _ _ hi
  refine ⟨?_, ?_, ?_, ?_⟩
  · intro hw
    simp [LLItemBridge.isItemCopyable, hitem, hav, hw]
  · intro hl
    simp [LLItemBridge.isItemCopyable, hitem, hav, hl]
  · intro hw hl
    simp [LLItemBridge.isItemCopyable, hitem, hav, hw, hl]
  · intro p
    have hi2 : (w.gInventory.updateItem { item with mPermissions := p }).getItem b.mUUID
        = some { item with mPermissions := p } := by
      rw [← hu]
      exact LLInventoryModel.getItem_updateItem_self w.gInventory { item with mPermissions := p }
    simp only [LLItemBridge.isItemCopyable, LLItemBridge.getItem, hm, if_true, hi, hi2]
    rfl

/-- C10 at a concrete input: the gesture `10` of the sample world, not worn
and not a link, is copyable with its own permissions and with none at all. -/
theorem C10_isItemCopyable_witness :
    LLItemBridge.isItemCopyable sampleGestureBridge sampleWorld = true
    ∧ LLItemBridge.isItemCopyable sampleGestureBridge
          { sampleWorld with
            gInventory := sampleWorld.gInventory.updateItem
              { sampleGesture with mPermissions := {} } }
        = LLItemBridge.isItemCopyable sampleGestureBridge sampleWorld :=
  ⟨(C10_isItemCopyable_ignores_permissions sampleGestureBridge sampleWorld sampleGesture
      (by decide) (by decide)).2.2.1 (by decide) (by decide),
    (C10_isItemCopyable_ignores_permissions sampleGestureBridge sampleWorld sampleGesture
      (by decide) (by decide)).2.2.2 {}⟩

/-- C11: for every inventory type, `createBridge` with asset type AT_OBJECT
returns a non-NULL object bridge whose `mInvType` is that inventory type, the
only trace of a mismatch being one warning line; and for every asset type the
class of the bridge returned is the same whatever the inventory type. -/
theorem C11_createBridge_kind_ignores_inv_type (actual : LLAssetType.EType)
    (inv_type : LLInventoryType.EType) (hm : Bool) (uuid : LLUUID) (flags : Nat) :
    (LLInvFVBridge.createBridge .AT_OBJECT actual inv_type hm uuid flags).1
        = some { mUUID := uuid, kind := .object, hasModel := hm, mInvType := inv_type }
    ∧ (LLInvFVBridge.createBridge .AT_OBJECT actual inv_type hm uuid flags).2
        = (if inv_type = .IT_OBJECT ∨ inv_type = .IT_ATTACHMENT then []
           else [CreateLog.llwarns .AT_OBJECT inv_type uuid])
    ∧ ∀ (asset : LLAssetType.EType) (inv1 inv2 : LLInventoryType.EType),
        (LLInvFVBridge.createBridge asset actual inv1 hm uuid flags).1.map (fun b => b.kind)
          = (LLInvFVBridge.createBridge asset actual inv2 hm uuid flags).1.map (fun b => b.kind) := by
  refine ⟨rfl, ?_, ?_⟩
  · cases inv_type <;> simp [LLInvFVBridge.createBridge]
  · intro asset inv1 inv2
    cases asset <;> simp only [LLInvFVBridge.createBridge] <;> (try split_ifs) <;> rfl

/-- C13, as the claim states it, fails for scripts: `createBridge` returns a
script bridge for asset type AT_SCRIPT, and `createAction` returns NULL for it. -/
theorem C13_createAction_has_no_script_action :
    (LLInvFVBridge.createBridge .AT_SCRIPT .AT_SCRIPT .IT_LSL true 10 0).1.map
        (fun b => b.kind) = some BridgeKind.script
    ∧ LLInvFVBridgeAction.createAction .AT_SCRIPT 10 true = none := by
  decide

/-- C13, amended: for every asset type, `createAction` returns the action that
corresponds to the bridge `createBridge` returns for it (texture, sound,
landmark, calling card, LSL text, object, notecard, animation, gesture,
clothing, body part), with the item's id and the model passed in; it returns
NULL for the script asset type and for every asset type whose bridge is a
folder or link bridge or NULL. -/
theorem C13_createAction_mirrors_createBridge (asset actual : LLAssetType.EType)
    (inv_type : LLInventoryType.EType) (hm : Bool) (uuid : LLUUID) (flags : Nat)
    (modelPresent : Bool) :
    LLInvFVBridgeAction.createAction asset uuid modelPresent
      = ((LLInvFVBridge.createBridge asset actual inv_type hm uuid flags).1.bind
          (fun b => actionOfBridge b.kind)).map
          (fun k => { mUUID := uuid, kind := k, hasModel := modelPresent }) := by
  cases asset <;>
    simp only [LLInvFVBridgeAction.createAction, LLInvFVBridge.createBridge] <;>
    (try split_ifs) <;> rfl

/-- C14 fails on the identifiers: for the notecard `12` lying in the trash,
`LLInvFVBridge::buildContextMenu`, which the notecard bridge inherits, hands
`hide_context_entries` the entries "PurgeItem" and "RestoreItem", written
without the blank, while `LLTextureBridge::buildContextMenu` on the same
object hands it "Purge Item" and "Restore Item". -/
theorem C14_base_menu_uses_other_identifiers :
    LLInvFVBridge.isInTrash trashedNotecardBridge trashedNotecardWorld = true
    ∧ LLInvFVBridge.buildContextMenuEntries trashedNotecardBridge trashedNotecardWorld
        FIRST_SELECTED_ITEM = (["PurgeItem", "RestoreItem"], [])
    ∧ LLTextureBridge.buildContextMenuEntries trashedNotecardBridge trashedNotecardWorld
        FIRST_SELECTED_ITEM = (["Purge Item", "Restore Item"], [])
    ∧ (LLInvFVBridge.buildContextMenuEntries trashedNotecardBridge trashedNotecardWorld
        FIRST_SELECTED_ITEM).1 ≠ ["Purge Item", "Restore Item"] := by
  decide

/-- C15: when `dragCategoryIntoFolder` with an agent-inventory source accepts
folder C on destination D, then D is not C, D is not the current parent of C,
and D is not a descendant of C; and when C is the model's copy of the folder
and no folder of the model is a descendant of itself, no folder is a
descendant of itself after the call either, whether or not it reparented C. -/
theorem C15_accepted_category_drop_keeps_tree_acyclic (b : LLInvFVBridge) (w : World)
    (C : LLViewerInventoryCategory) (drop : Bool) (hsrc : w.mSource = .SOURCE_AGENT)
    (hacc : (LLFolderBridge.dragCategoryIntoFolder b w (some C) drop).1 = true) :
    (b.mUUID ≠ C.mUUID ∧ b.mUUID ≠ C.mParentUUID
      ∧ w.gInventory.isObjectDescendentOf b.mUUID C.mUUID = false)
    ∧ (w.gInventory.getCategory C.mUUID = some C →
        (∀ X x, w.gInventory.getCategory X = some x →
          w.gInventory.isObjectDescendentOf X X = false) →
        ∀ X x,
          (LLFolderBridge.dragCategoryIntoFolder b w (some C) drop).2.gInventory.getCategory X
            = some x →
          (LLFolderBridge.dragCategoryIntoFolder b w (some C) drop).2.gInventory.isObjectDescendentOf
            X X = false) := by
  obtain ⟨ha, hw⟩ := LLFolderBridge.dragCategoryIntoFolder_accepted b w C drop hsrc hacc
  have hcond : b.mUUID ≠ C.mUUID ∧ b.mUUID ≠ C.mParentUUID
      ∧ w.gInventory.isObjectDescendentOf b.mUUID C.mUUID = false := by
    simp only [LLFolderBridge.dragCategoryAccept, Bool.and_eq_true, bne_iff_ne, ne_eq,
      Bool.not_eq_true'] at ha
    exact ⟨ha.1.1.2, ha.1.2, ha.2⟩
  refine ⟨hcond, ?_⟩
  intro hC hacyc X x hx
  rcases hw with e | e
  · rw [e] at hx ⊢
    exact hacyc X x hx
  · rw [e] at hx ⊢
    exact LLInventoryModel.reparent_keeps_acyclic w.gInventory C b.mUUID hC hcond.1 hcond.2.2
      hacyc X x hx

/-- C15 at a concrete input: in the sample world the empty folder `5` is
dropped on folder `3`; the drop is accepted, the folder is reparented, and no
folder is a descendant of itself afterwards. -/
theorem C15_accepted_category_drop_witness :
    (LLFolderBridge.dragCategoryIntoFolder sampleFolderBridge sampleWorld
        (some sampleEmptyFolder) true).2.gInventory.getCategory 5
      = some { sampleEmptyFolder with mParentUUID := 3 }
    ∧ ∀ X x,
        (LLFolderBridge.dragCategoryIntoFolder sampleFolderBridge sampleWorld
          (some sampleEmptyFolder) true).2.gInventory.getCategory X = some x →
        (LLFolderBridge.dragCategoryIntoFolder sampleFolderBridge sampleWorld
          (some sampleEmptyFolder) true).2.gInventory.isObjectDescendentOf X X = false :=
  ⟨by decide,
    (C15_accepted_category_drop_keeps_tree_acyclic sampleFolderBridge sampleWorld
      sampleEmptyFolder true (by decide) (by decide)).2 (by decide)
      (by
        intro X x hx
        have hu := LLInventoryModel.getCategory_uuid _ _ _ hx
        have hmem : x ∈ sampleWorld.gInventory.mCategoryMap := List.mem_of_find?_eq_some hx
        have hall : ∀ c ∈ sampleWorld.gInventory.mCategoryMap,
            sampleWorld.gInventory.isObjectDescendentOf c.mUUID c.mUUID = false := by decide
        rw [← hu]
        exact hall x hmem)⟩

/-- C16: `saveItemsOrder` writes, entry by entry in list order, the sort
fields 1, 2, ..., N; on a list without repeated ids the model's copy of the
i-th entry (1-based) ends up with sort field i; it keeps the parent of every
item of the model.  The reorder branch of `dragItemIntoFolder` (an
agent-inventory drag with source and destination both the Favorites folder)
keeps the parent of every item of the model as well. -/
theorem C16_saveItemsOrder_writes_1_to_N (w : World) (items : List LLViewerInventoryItem) :
    ((saveItemsOrder w items).log.filterMap Event.sortFieldWritten
        = w.log.filterMap Event.sortFieldWritten
          ++ (items.map (fun i => i.mUUID)).zip
              ((List.range' 1 items.length).map (fun n => (n : Int))))
    ∧ ((items.map (fun i => i.mUUID)).Nodup → ∀ (i : Nat) (hi : i < items.length),
        ((saveItemsOrder w items).gInventory.getItem items[i].mUUID).map
          (fun it => it.mSortField) = some ((i : Int) + 1))
    ∧ (∀ id it, w.gInventory.getItem id = some it →
        ((saveItemsOrder w items).gInventory.getItem id).map (fun i => i.mParentUUID)
          = some it.mParentUUID)
    ∧ (∀ (b : LLInvFVBridge) (inv_item : LLViewerInventoryItem) (drop : Bool)
        (r : Bool × World), w.mSource = .SOURCE_AGENT → b.mUUID = inv_item.mParentUUID →
        w.gInventory.findCategoryUUIDForType .FT_FAVORITE = b.mUUID →
        LLFolderBridge.dragItemIntoFolder b w inv_item drop = some r →
        ∀ id it, w.gInventory.getItem id = some it →
          (r.2.gInventory.getItem id).map (fun i => i.mParentUUID) = some it.mParentUUID) := by
  refine ⟨?_, ?_, ?_, ?_⟩
  · have h := (saveItemsOrder_foldl_written items 0 w).2
    simp only [Nat.cast_zero, Nat.zero_add] at h
    simp only [saveItemsOrder, World.emit_log, List.filterMap_append, h]
    simp [Event.sortFieldWritten]
  · intro hnd i hi
    have h := saveItemsOrder_foldl_sortField items (0, w) hnd i hi
    simp only [saveItemsOrder, World.emit_gInventory]
    rw [h]
    simp
  · intro id it h
    exact saveItemsOrder_parent w items id it h
  · intro b inv_item drop r hsrc hp hfav hr id it h
    exact LLFolderBridge.dragItemIntoFolder_reorder_parent b w inv_item drop r hsrc hp hfav hr
      id it h

/-- C16 at a concrete input: in the Favorites folder `8` holding the landmarks
`20`, `21`, `22`, landmark `22` is dropped on landmark `20`; the call returns,
the new order `22`, `20`, `21` is saved with the sort fields 1, 2, 3, and
landmark `22` has still the Favorites folder as parent. -/
theorem C16_saveItemsOrder_witness :
    ((LLFolderBridge.dragItemIntoFolder favoritesBridge favoritesWorld favoriteLandmark
        true).map (fun r => r.2.log.filterMap Event.sortFieldWritten))
      = some [(22, 1), (20, 2), (21, 3)]
    ∧ ∀ r, LLFolderBridge.dragItemIntoFolder favoritesBridge favoritesWorld favoriteLandmark
        true = some r →
        (r.2.gInventory.getItem 22).map (fun i => i.mParentUUID) = some 8 :=
  ⟨by decide, fun r hr =>
    (C16_saveItemsOrder_writes_1_to_N favoritesWorld []).2.2.2 favoritesBridge favoriteLandmark
      true r (by decide) (by decide) (by decide) hr 22 favoriteLandmark (by decide)⟩

/-- C20, as the claim states it, fails: with a thumb image 3 wide in a control
10 wide, min 0 < max 1 and the value at the maximum, `updateThumbRect` sets
`mLeft` to 8 and `mRight` to 11, one past the width of the control. -/
theorem C20_odd_thumb_overhangs :
    0 < oddThumbSlider.thumb_width
    ∧ oddThumbSlider.thumb_width ≤ oddThumbSlider.mRect.getWidth
    ∧ oddThumbSlider.mMinValue < oddThumbSlider.mMaxValue
    ∧ oddThumbSlider.mMinValue ≤ oddThumbSlider.mValue
    ∧ oddThumbSlider.mValue ≤ oddThumbSlider.mMaxValue
    ∧ oddThumbSlider.updateThumbRect.mThumbRect.mLeft = 8
    ∧ oddThumbSlider.updateThumbRect.mThumbRect.mRight = 11
    ∧ ¬ oddThumbSlider.updateThumbRect.mThumbRect.mRight ≤ oddThumbSlider.mRect.getWidth := by
  have hl : oddThumbSlider.updateThumbRect.mThumbRect.mLeft = 8 := by
    simp [LLSlider.updateThumbRect, oddThumbSlider, LLSlider.thumb_width, LLRect.getWidth,
      S32_of_F32]
    decide
  have hr : oddThumbSlider.updateThumbRect.mThumbRect.mRight = 11 := by
    simp [LLSlider.updateThumbRect, oddThumbSlider, LLSlider.thumb_width, LLRect.getWidth,
      S32_of_F32]
    decide
  rw [hl, hr]
  norm_num [oddThumbSlider, LLSlider.thumb_width, LLRect.getWidth]

/-- C20, amended: for thumb width w > 0, control width W >= w, min < max and
a stored value in [min, max], `updateThumbRect` computes a thumb rectangle with
0 <= mLeft and mRight <= W + (w mod 2): the thumb stays inside the control
when w is even, and reaches at most one unit past its right edge when w is
odd. -/
theorem C20_thumb_overhangs_at_most_one (s : LLSlider) (hw : 0 < s.thumb_width)
    (hW : s.thumb_width ≤ s.mRect.getWidth) (hmm : s.mMinValue < s.mMaxValue)
    (hlo : s.mMinValue ≤ s.mValue) (hhi : s.mValue ≤ s.mMaxValue) :
    0 ≤ s.updateThumbRect.mThumbRect.mLeft
    ∧ s.updateThumbRect.mThumbRect.mRight ≤ s.mRect.getWidth + s.thumb_width % 2
    ∧ (s.thumb_width % 2 = 0 → s.updateThumbRect.mThumbRect.mRight ≤ s.mRect.getWidth) := by
  obtain ⟨h1, h2⟩ := LLSlider.updateThumbRect_bounds s hw hW hmm hlo hhi
  refine ⟨h1, h2, fun h => ?_⟩
  rw [h] at h2
  simpa using h2

/-- C20 at a concrete input: on the slider 116 wide with the default thumb of
width 16, the thumb rectangle lies within [0, 116]. -/
theorem C20_thumb_witness :
    0 ≤ sampleSlider.updateThumbRect.mThumbRect.mLeft
    ∧ sampleSlider.updateThumbRect.mThumbRect.mRight ≤ 116 :=
  ⟨(C20_thumb_overhangs_at_most_one sampleSlider (by decide) (by decide)
      (by norm_num [sampleSlider]) (by norm_num [sampleSlider])
      (by norm_num [sampleSlider])).1,
    (C20_thumb_overhangs_at_most_one sampleSlider (by decide) (by decide)
      (by norm_num [sampleSlider]) (by norm_num [sampleSlider])
      (by norm_num [sampleSlider])).2.2 (by decide)⟩

/-- C21: with no thumb image, control width 116 and the value at the midpoint
of [min, max] (min different from max), `updateThumbRect` has left_edge = 8
and right_edge = 108 and sets mLeft = 50 and mRight = 66, so that the centre
of the thumb is at x = 58; and for every slider the left side of the thumb is
left_edge + trunc(t * (right_edge - left_edge)) less half the thumb width, with
t = (value - min) / (max - min), and the right side is one thumb width further. -/
theorem C21_thumb_centre (s : LLSlider) :
    (s.mThumbImage = none → s.mRect.getWidth = 116 → s.mMinValue ≠ s.mMaxValue →
      s.mValue = (s.mMinValue + s.mMaxValue) / 2 →
      s.thumb_width = 16 ∧ s.left_edge = 8 ∧ s.right_edge = 108
      ∧ s.updateThumbRect.mThumbRect.mLeft = 50 ∧ s.updateThumbRect.mThumbRect.mRight = 66
      ∧ s.updateThumbRect.mThumbRect.mLeft + Int.tdiv s.thumb_width 2 = 58)
    ∧ s.thumb_t = (s.mValue - s.mMinValue) / (s.mMaxValue - s.mMinValue)
    ∧ s.updateThumbRect.mThumbRect.mLeft + Int.tdiv s.thumb_width 2
        = s.left_edge + S32_of_F32 (s.thumb_t * ((s.right_edge - s.left_edge : Int) : F32))
    ∧ s.updateThumbRect.mThumbRect.mRight
        = s.updateThumbRect.mThumbRect.mLeft + s.thumb_width := by
  refine ⟨fun himg hW hne hv => ?_, rfl, ?_, rfl⟩
  · obtain ⟨h1, h2, h3, h4, h5⟩ := LLSlider.updateThumbRect_midpoint s himg hW hne hv
    refine ⟨?_, h1, h2, h3, h4, h5⟩
    simp [LLSlider.thumb_width, himg, DEFAULT_THUMB_SIZE]
  · simp only [LLSlider.updateThumbRect, LLSlider.left_edge, LLSlider.right_edge,
      LLSlider.thumb_t]
    ring

/-- C21 at a concrete input: the slider from 0 to 10, 116 wide, with no thumb
image and the value 5 gets the thumb rectangle from 50 to 66. -/
theorem C21_thumb_centre_witness :
    midSlider.updateThumbRect.mThumbRect.mLeft = 50
    ∧ midSlider.updateThumbRect.mThumbRect.mRight = 66 :=
  ⟨((C21_thumb_centre midSlider).1 rfl (by decide) (by norm_num [midSlider, sampleSlider])
      (by norm_num [midSlider, sampleSlider])).2.2.2.1,
    ((C21_thumb_centre midSlider).1 rfl (by decide) (by norm_num [midSlider, sampleSlider])
      (by norm_num [midSlider, sampleSlider])).2.2.2.2.1⟩

/-- C22: the record `getInfo` builds has the key PACKETS_LOST exactly when
`gPacketsIn > 0`, and so for PACKETS_IN and for PACKETS_PCT; and when
`gPacketsIn > 0` the value of PACKETS_PCT is 100 times the value of
PACKETS_LOST divided by the value of PACKETS_IN, these being the lost count
and `gPacketsIn`. -/
theorem C22_getInfo_packets (env : AboutEnv) :
    ((getInfo env).has "PACKETS_LOST" = true ↔ 0 < env.gPacketsIn)
    ∧ ((getInfo env).has "PACKETS_IN" = true ↔ 0 < env.gPacketsIn)
    ∧ ((getInfo env).has "PACKETS_PCT" = true ↔ 0 < env.gPacketsIn)
    ∧ (0 < env.gPacketsIn →
        (getInfo env).get "PACKETS_LOST" = LLSD.real env.mPacketsLost
        ∧ (getInfo env).get "PACKETS_IN" = LLSD.real (env.gPacketsIn : F32)
        ∧ (getInfo env).get "PACKETS_PCT"
            = LLSD.real (100 * ((getInfo env).get "PACKETS_LOST").asReal
                / ((getInfo env).get "PACKETS_IN").asReal)) := by
  have hhas : ∀ k : String, k = "PACKETS_LOST" ∨ k = "PACKETS_IN" ∨ k = "PACKETS_PCT" →
      ((getInfo env).has k = true ↔ 0 < env.gPacketsIn) := by
    intro k hk
    have h := getInfoPackets_has env _ k hk (getInfo_blocks_no_packets env k hk)
    simp only [getInfo]
    rw [h]
    exact decide_eq_true_iff
  refine ⟨hhas _ (Or.inl rfl), hhas _ (Or.inr (Or.inl rfl)), hhas _ (Or.inr (Or.inr rfl)), ?_⟩
  intro hpos
  obtain ⟨h1, h2, h3⟩ := getInfoPackets_get env
    (getInfoLibraries env (getInfoSystem env (getInfoPosition env (getInfoCompiler env
      (getInfoVersion env {}))))) hpos
  simp only [getInfo]
  rw [h1, h2, h3]
  exact ⟨rfl, rfl, rfl⟩

/-- C22 at a concrete input: with 200 packets received and 3 lost the record
holds PACKETS_PCT, and its value is 100 * 3 / 200. -/
theorem C22_getInfo_packets_witness :
    (getInfo sampleAboutEnv).has "PACKETS_PCT" = true
    ∧ (getInfo sampleAboutEnv).get "PACKETS_LOST" = LLSD.real 3
    ∧ (getInfo sampleAboutEnv).get "PACKETS_IN" = LLSD.real 200
    ∧ (getInfo sampleAboutEnv).get "PACKETS_PCT"
        = LLSD.real (100 * ((getInfo sampleAboutEnv).get "PACKETS_LOST").asReal
            / ((getInfo sampleAboutEnv).get "PACKETS_IN").asReal) :=
  ⟨(C22_getInfo_packets sampleAboutEnv).2.2.1.mpr (by decide),
    ((C22_getInfo_packets sampleAboutEnv).2.2.2 (by decide)).1,
    ((C22_getInfo_packets sampleAboutEnv).2.2.2 (by decide)).2.1,
    ((C22_getInfo_packets sampleAboutEnv).2.2.2 (by decide)).2.2⟩

/-- C23: `setCommand` takes the override when it is given, whatever the
setting and the environment variable are; without an override it takes the
predefined setting when that is set; without both it takes the value of the
environment variable; when the three are absent it returns false and leaves
the editor as it was, so that the stored command of a new editor stays empty.
When a command is found the call returns true and stores its tokens. -/
theorem C23_setCommand_precedence (ed : LLExternalEditor) (env : EditorEnv)
    (env_var override : String) :
    (override ≠ "" →
      LLExternalEditor.findCommand env env_var override = override
      ∧ ed.setCommand env env_var override
          = (true, { mExecutable := (LLExternalEditor.tokenize override).headD "",
                     mArgs := (LLExternalEditor.tokenize override).tail }))
    ∧ (override = "" → env.mSetting ≠ "" →
      LLExternalEditor.findCommand env env_var override = env.mSetting
      ∧ ed.setCommand env env_var override
          = (true, { mExecutable := (LLExternalEditor.tokenize env.mSetting).headD "",
                     mArgs := (LLExternalEditor.tokenize env.mSetting).tail }))
    ∧ (override = "" → env.mSetting = "" → ∀ value, env.getenv env_var = some value →
      LLExternalEditor.findCommand env env_var override = value
      ∧ (value ≠ "" → ed.setCommand env env_var override
          = (true, { mExecutable := (LLExternalEditor.tokenize value).headD "",
                     mArgs := (LLExternalEditor.tokenize value).tail })))
    ∧ (override = "" → env.mSetting = "" → env.getenv env_var = none →
      LLExternalEditor.findCommand env env_var override = ""
      ∧ ed.setCommand env env_var override = (false, ed)
      ∧ (({} : LLExternalEditor).setCommand env env_var override).2 = {}) := by
  refine ⟨fun ho => ?_, fun ho hs => ?_, fun ho hs value hv => ?_, fun ho hs hv => ?_⟩
  · have hf : LLExternalEditor.findCommand env env_var override = override := by
      simp [LLExternalEditor.findCommand, ho]
    exact ⟨hf, by simp [LLExternalEditor.setCommand, hf, ho]⟩
  · have hf : LLExternalEditor.findCommand env env_var override = env.mSetting := by
      simp [LLExternalEditor.findCommand, ho, hs]
    exact ⟨hf, by simp [LLExternalEditor.setCommand, hf, hs]⟩
  · have hf : LLExternalEditor.findCommand env env_var override = value := by
      simp [LLExternalEditor.findCommand, ho, hs, hv]
    exact ⟨hf, fun hne => by simp [LLExternalEditor.setCommand, hf, hne]⟩
  · have hf : LLExternalEditor.findCommand env env_var override = "" := by
      simp [LLExternalEditor.findCommand, ho, hs, hv]
    exact ⟨hf, by simp [LLExternalEditor.setCommand, hf],
      by simp [LLExternalEditor.setCommand, hf]⟩

/-- C23 at a concrete input: with the override "emacs %s", the setting
"gedit %s" and the variable EDITOR = "vi %s" all present the override is taken;
without the override the setting is taken; and with nothing present the call
fails and the stored command stays empty. -/
theorem C23_setCommand_precedence_witness :
    LLExternalEditor.findCommand sampleEditorEnv "EDITOR" "emacs %s" = "emacs %s"
    ∧ LLExternalEditor.findCommand sampleEditorEnv "EDITOR" "" = "gedit %s"
    ∧ ({} : LLExternalEditor).setCommand {} "EDITOR" "" = (false, {}) :=
  ⟨((C23_setCommand_precedence {} sampleEditorEnv "EDITOR" "emacs %s").1 (by decide)).1,
    ((C23_setCommand_precedence {} sampleEditorEnv "EDITOR" "").2.1 rfl (by decide)).1,
    ((C23_setCommand_precedence {} {} "EDITOR" "").2.2.2 rfl rfl rfl).2.1⟩

/-- C30: `hide_context_entries` keeps the children of the menu in place and
with their names; a child whose name is not in `entries_to_show` is invisible
afterwards; a child whose enabled flag differs afterwards has its name in both
lists; a child visible afterwards was visible before and a child enabled
afterwards was enabled before.  A branch child named "More" whose name is not
in `entries_to_show` is invisible afterwards, whatever its submenu holds, and
its submenu is the result of the same call on it. -/
theorem C30_hide_context_entries (menu : LLMenuGL)
    (entries_to_show disabled_entries : List String) :
    (hide_context_entries menu entries_to_show disabled_entries).getChildList.length
      = menu.getChildList.length
    ∧ (∀ (i : Nat) (c c' : LLMenuItemGL), menu.getChildList[i]? = some c →
        (hide_context_entries menu entries_to_show disabled_entries).getChildList[i]? = some c' →
        c'.getName = c.getName
        ∧ (c.getName ∉ entries_to_show → c'.getVisible = false)
        ∧ (c'.getEnabled ≠ c.getEnabled →
            c.getName ∈ entries_to_show ∧ c.getName ∈ disabled_entries)
        ∧ (c'.getVisible = true → c.getVisible = true)
        ∧ (c'.getEnabled = true → c.getEnabled = true))
    ∧ (∀ (i : Nat) (v e : Bool) (m : LLMenuGL) (c' : LLMenuItemGL),
        menu.getChildList[i]? = some (.branch "More" v e m) →
        (hide_context_entries menu entries_to_show disabled_entries).getChildList[i]? = some c' →
        "More" ∉ entries_to_show →
        c'.getVisible = false
        ∧ c'.getBranch = some (hide_context_entries m entries_to_show disabled_entries)) := by
  have hlist := hide_context_entries_getChildList entries_to_show disabled_entries menu
  have hchild : ∀ (i : Nat) (c c' : LLMenuItemGL), menu.getChildList[i]? = some c →
      (hide_context_entries menu entries_to_show disabled_entries).getChildList[i]? = some c' →
      c' = hide_context_entries_child c entries_to_show disabled_entries := by
    intro i c c' hc hc'
    rw [hlist, List.getElem?_map, hc] at hc'
    simpa using hc'.symm
  refine ⟨by rw [hlist, List.length_map], ?_, ?_⟩
  · intro i c c' hc hc'
    rw [hchild i c c' hc hc']
    obtain ⟨hn, hv, he⟩ := hide_context_entries_child_props c entries_to_show disabled_entries
    refine ⟨hn, ?_, ?_, ?_, ?_⟩
    · intro h
      rw [hv]
      simp [h]
    · intro h
      rw [he] at h
      by_cases h1 : c.getName ∈ entries_to_show
      · by_cases h2 : c.getName ∈ disabled_entries
        · exact ⟨h1, h2⟩
        · exact absurd (by simp [h2]) h
      · exact absurd (by simp [h1]) h
    · intro h
      rw [hv] at h
      simp only [Bool.and_eq_true] at h
      exact h.1
    · intro h
      rw [he] at h
      simp only [Bool.and_eq_true] at h
      exact h.1
  · intro i v e m c' hc hc' hmore
    rw [hchild i _ c' hc hc']
    refine ⟨?_, ?_⟩
    · rw [(hide_context_entries_child_props _ entries_to_show disabled_entries).2.1]
      simp [LLMenuItemGL.getName, hmore]
    · rw [hide_context_entries_child_branch]
      simp

/-- C30 at a concrete input: on the sample menu with "Open", "Delete", "Copy"
and "Properties" to show and "Delete" and "Paste" disabled, "Open" stays as it
was, "Delete" is disabled, "Properties" stays invisible and disabled, and the
branch "More" is made invisible although "Copy" inside it is listed. -/
theorem C30_hide_context_entries_witness :
    (hide_context_entries sampleMenu ["Open", "Delete", "Copy", "Properties"]
        ["Delete", "Paste"]).getChildList.map
        (fun c => (c.getName, c.getVisible, c.getEnabled))
      = [("Open", true, true), ("Delete", true, false), ("Properties", false, false),
          ("More", false, true)]
    ∧ ∀ c', (hide_context_entries sampleMenu ["Open", "Delete", "Copy", "Properties"]
        ["Delete", "Paste"]).getChildList[3]? = some c' → c'.getVisible = false :=
  ⟨by decide, fun c' h =>
    ((C30_hide_context_entries sampleMenu ["Open", "Delete", "Copy", "Properties"]
      ["Delete", "Paste"]).2.2 3 true true _ c' rfl h (by decide)).1⟩

/-- C26: when the list holds items of the model, the source item and the
destination item among them and different from each other, `updateItemsOrder`
returns a list that is a permutation of the input, has the source item
immediately before the destination item, and holds the other items in the order
of the input. -/
theorem C26_updateItemsOrder_permutation (w : World) (items : List LLViewerInventoryItem)
    (s d : LLViewerInventoryItem)
    (hmodel : ∀ it ∈ items, w.gInventory.getItem it.mUUID = some it)
    (hs : s ∈ items) (hd : d ∈ items) (hne : s.mUUID ≠ d.mUUID) :
    ∃ r, updateItemsOrder w items s.mUUID d.mUUID = some r
      ∧ r.Perm items
      ∧ (∃ pre post, r = pre ++ s :: d :: post)
      ∧ r.filter (fun i => i.mUUID != s.mUUID) = items.filter (fun i => i.mUUID != s.mUUID) := by
  obtain ⟨A, B, P, Q, hl, hl2, _, _, hr⟩ := updateItemsOrder_spliced w items s d hmodel hs hd hne
  refine ⟨P ++ s :: d :: Q, hr, ?_, ⟨P, Q, rfl⟩, ?_⟩
  · rw [hl]
    have h1 : (P ++ s :: d :: Q).Perm (s :: (P ++ d :: Q)) := List.perm_middle
    have h2 : (A ++ s :: B).Perm (s :: (A ++ B)) := List.perm_middle
    rw [← hl2] at h1
    exact h1.trans h2.symm
  · have h1 : (P ++ s :: d :: Q).filter (fun i => i.mUUID != s.mUUID)
        = (P ++ d :: Q).filter (fun i => i.mUUID != s.mUUID) := by
      simp [List.filter_append, List.filter_cons]
    have h2 : (A ++ s :: B).filter (fun i => i.mUUID != s.mUUID)
        = (A ++ B).filter (fun i => i.mUUID != s.mUUID) := by
      simp [List.filter_append, List.filter_cons]
    rw [h1, hl, h2, hl2]

/-- C26 at a concrete input: in the Favorites folder with the landmarks `20`,
`21`, `22` in this order, moving `22` before `20` gives `22`, `20`, `21`. -/
theorem C26_updateItemsOrder_witness :
    (updateItemsOrder favoritesWorld favoriteLandmarks 22 20).map
        (fun r => r.map (fun i => i.mUUID)) = some [22, 20, 21]
    ∧ ∃ r, updateItemsOrder favoritesWorld favoriteLandmarks 22 20 = some r
        ∧ r.Perm favoriteLandmarks :=
  ⟨by decide,
    (C26_updateItemsOrder_permutation favoritesWorld favoriteLandmarks
      favoriteLandmark { mUUID := 20, mParentUUID := 8, mType := .AT_LANDMARK }
      (by decide) (by decide) (by decide) (by decide)).imp (fun _ h => ⟨h.1, h.2.1⟩)⟩

/-- C27 fails on the code: for a bridge whose item the model does not hold,
`getItem` returns NULL, `restoreToWorld` skips the block that sends the
message, and then dereferences the NULL item for its permissions. -/
theorem C27_restoreToWorld_dereferences_missing_item :
    LLItemBridge.getItem missingItemBridge sampleWorld = none
    ∧ LLItemBridge.restoreToWorld missingItemBridge sampleWorld = none := by
  decide

/-- C24, as the claim states it, fails: the notecard `13` lies in the folder
`7` inside the trash, so that `isInTrash` holds for it, and `removeBatchNoCheck`
still gives it a move block and a `moveObject` call, because its parent is
not the trash folder itself. -/
theorem C24_entry_deeper_in_trash_is_moved :
    LLInvFVBridge.isInTrash nestedTrashBridge nestedTrashWorld = true
    ∧ nestedTrashBridge.virtualIsItemRemovable nestedTrashWorld = true
    ∧ (LLInvFVBridge.removeBatchNoCheck nestedTrashBridge nestedTrashWorld
        [some nestedTrashBridge]).log
      = [Event.previewHide 13, Event.sendReliableMessage "MoveInventoryItem" [(13, 2)],
          Event.accountForUpdate [(2, 1), (7, -1)], Event.moveObject 13 2,
          Event.notifyObservers] := by
  decide

/-- C24, amended: `removeBatchNoCheck` moves to the trash exactly the batch
entries that are removable and stand for an item, or for a folder, of the model
whose parent is not the trash folder: the blocks of the messages it sends and
its `moveObject` calls are one per such entry, the items in batch order first
and the folders in batch order after them, each with the trash folder as
destination.  Every other entry adds nothing and does not stop the entries
after it. -/
theorem C24_removeBatchNoCheck_moves (b : LLInvFVBridge) (w : World)
    (batch : List (Option LLInvFVBridge)) (hb : b.hasModel = true) :
    (∀ bridge item,
      LLInvFVBridge.removeBatchItemMoved w (w.gInventory.findCategoryUUIDForType .FT_TRASH)
          bridge = some item
        ↔ ∃ br, bridge = some br ∧ br.virtualIsItemRemovable w = true
            ∧ w.gInventory.getItem br.mUUID = some item
            ∧ item.mParentUUID ≠ w.gInventory.findCategoryUUIDForType .FT_TRASH)
    ∧ (∀ bridge cat,
      LLInvFVBridge.removeBatchCategoryMoved w (w.gInventory.findCategoryUUIDForType .FT_TRASH)
          bridge = some cat
        ↔ ∃ br, bridge = some br ∧ br.virtualIsItemRemovable w = true
            ∧ w.gInventory.getCategory br.mUUID = some cat
            ∧ cat.mParentUUID ≠ w.gInventory.findCategoryUUIDForType .FT_TRASH)
    ∧ (LLInvFVBridge.removeBatchNoCheck b w batch).log.flatMap Event.blocksSent
        = w.log.flatMap Event.blocksSent
          ++ ((batch.filterMap (LLInvFVBridge.removeBatchItemMoved w
                (w.gInventory.findCategoryUUIDForType .FT_TRASH))).map (fun item => item.mUUID)
              ++ (batch.filterMap (LLInvFVBridge.removeBatchCategoryMoved w
                (w.gInventory.findCategoryUUIDForType .FT_TRASH))).map
                  (fun cat => cat.mUUID)).map
              (fun id => (id, w.gInventory.findCategoryUUIDForType .FT_TRASH))
    ∧ (LLInvFVBridge.removeBatchNoCheck b w batch).log.filterMap Event.objectMoved
        = w.log.filterMap Event.objectMoved
          ++ ((batch.filterMap (LLInvFVBridge.removeBatchItemMoved w
                (w.gInventory.findCategoryUUIDForType .FT_TRASH))).map (fun item => item.mUUID)
              ++ (batch.filterMap (LLInvFVBridge.removeBatchCategoryMoved w
                (w.gInventory.findCategoryUUIDForType .FT_TRASH))).map
                  (fun cat => cat.mUUID)).map
              (fun id => (id, w.gInventory.findCategoryUUIDForType .FT_TRASH)) := by
  obtain ⟨pre, hlog, hpre, hblocks⟩ := LLInvFVBridge.removeBatchNoCheck_calls b w batch hb
  refine ⟨?_, ?_, ?_, ?_⟩
  · intro bridge item
    exact LLInvFVBridge.removeBatchItemMoved_iff w _ bridge item
  · intro bridge cat
    exact LLInvFVBridge.removeBatchCategoryMoved_iff w _ bridge cat
  · rw [hlog]
    simp only [List.flatMap_append, hblocks, moveObject_blocksSent, List.append_nil,
      List.flatMap_cons, List.flatMap_nil, Event.blocksSent]
    rfl
  · rw [hlog]
    simp only [List.filterMap_append, sendsThenAccounts_objectMoved _ _ _ hpre,
      moveObject_objectMoved, List.append_nil, List.filterMap_cons, List.filterMap_nil,
      Event.objectMoved]
    rfl

/-- C24 at a concrete input: the batch of the gesture `10`, the folder `7`
that lies directly in the trash, and the empty folder `5`: the gesture and the
folder `5` are moved, the folder `7` is skipped. -/
theorem C24_removeBatchNoCheck_moves_witness :
    (LLInvFVBridge.removeBatchNoCheck sampleGestureBridge sampleWorld
        [some sampleGestureBridge, some sampleLandmarksBridge,
          some sampleEmptyFolderBridge]).log.filterMap Event.objectMoved
      = [(10, 2), (5, 2)] :=
  (C24_removeBatchNoCheck_moves sampleGestureBridge sampleWorld
    [some sampleGestureBridge, some sampleLandmarksBridge, some sampleEmptyFolderBridge]
    rfl).2.2.2.trans (by decide)

/-- C25, as the claim states it, fails: when the gesture `10` is removed, the
message is sent first and the accounting update for it is applied after it. -/
theorem C25_message_sent_before_accounting :
    (LLInvFVBridge.removeBatchNoCheck sampleGestureBridge sampleWorld
        [some sampleGestureBridge]).log
      = [Event.previewHide 10, Event.sendReliableMessage "MoveInventoryItem" [(10, 2)],
          Event.accountForUpdate [(2, 1), (3, -1)], Event.moveObject 10 2,
          Event.notifyObservers] := by
  decide

/-- C25, amended: with the inventory model present, the calls of
`removeBatchNoCheck` are, in this order: calls that hide previews and, for
each batch of move blocks, the network message directly followed by the
accounting update for the blocks of that message (parent one down, trash one
up for each); then every `moveObject` call; then `notifyObservers`, which is
called exactly once.  Without an inventory model the function makes no call. -/
theorem C25_removeBatchNoCheck_order (b : LLInvFVBridge) (w : World)
    (batch : List (Option LLInvFVBridge)) :
    (b.hasModel = false → LLInvFVBridge.removeBatchNoCheck b w batch = w)
    ∧ (b.hasModel = true →
      ∃ pre moves : List Event,
        (LLInvFVBridge.removeBatchNoCheck b w batch).log
          = w.log ++ pre ++ moves ++ [Event.notifyObservers]
        ∧ sendsThenAccounts w.gInventory (w.gInventory.findCategoryUUIDForType .FT_TRASH) pre
            = true
        ∧ (∀ e ∈ pre, (∃ id, e = Event.previewHide id)
            ∨ (∃ name blocks, e = Event.sendReliableMessage name blocks)
            ∨ (∃ update, e = Event.accountForUpdate update))
        ∧ (∀ e ∈ moves, ∃ id,
            e = Event.moveObject id (w.gInventory.findCategoryUUIDForType .FT_TRASH))
        ∧ (pre ++ moves ++ [Event.notifyObservers]).count Event.notifyObservers = 1) := by
  refine ⟨fun hb => ?_, fun hb => ?_⟩
  · unfold LLInvFVBridge.removeBatchNoCheck
    simp [hb]
  · obtain ⟨pre, hlog, hpre, _⟩ := LLInvFVBridge.removeBatchNoCheck_calls b w batch hb
    have hmem := sendsThenAccounts_mem _ _ _ hpre
    refine ⟨pre, _, hlog, hpre, hmem, ?_, ?_⟩
    · intro e he
      obtain ⟨id, _, hid⟩ := List.mem_map.mp he
      exact ⟨id, hid.symm⟩
    · have h1 : pre.count Event.notifyObservers = 0 := by
        rw [List.count_eq_zero]
        intro hin
        rcases hmem _ hin with ⟨id, h⟩ | ⟨name, blocks, h⟩ | ⟨update, h⟩ <;> cases h
      have h2 : ((LLInvFVBridge.removeBatchMovedIds w
          (w.gInventory.findCategoryUUIDForType .FT_TRASH) batch).map
          (fun id => Event.moveObject id
            (w.gInventory.findCategoryUUIDForType .FT_TRASH))).count Event.notifyObservers
            = 0 := by
        rw [List.count_eq_zero]
        intro hin
        obtain ⟨id, _, hid⟩ := List.mem_map.mp hin
        cases hid
      rw [List.count_append, List.count_append, h1, h2]
      rfl

/-- C25 at a concrete input: when the gesture `10` and the empty folder `5`
are removed, the calls end with the two `moveObject` calls and one
`notifyObservers`. -/
theorem C25_removeBatchNoCheck_order_witness :
    (LLInvFVBridge.removeBatchNoCheck sampleGestureBridge sampleWorld
        [some sampleGestureBridge, some sampleEmptyFolderBridge]).log
      = [Event.previewHide 10, Event.sendReliableMessage "MoveInventoryItem" [(10, 2)],
          Event.accountForUpdate [(2, 1), (3, -1)],
          Event.sendReliableMessage "MoveInventoryFolder" [(5, 2)],
          Event.accountForUpdate [(1, -1), (2, 1)], Event.moveObject 10 2,
          Event.moveObject 5 2, Event.notifyObservers]
    ∧ ∃ pre moves : List Event,
        (LLInvFVBridge.removeBatchNoCheck sampleGestureBridge sampleWorld
          [some sampleGestureBridge, some sampleEmptyFolderBridge]).log
          = sampleWorld.log ++ pre ++ moves ++ [Event.notifyObservers]
        ∧ (pre ++ moves ++ [Event.notifyObservers]).count Event.notifyObservers = 1 :=
  ⟨by decide,
    ((C25_removeBatchNoCheck_order sampleGestureBridge sampleWorld
      [some sampleGestureBridge, some sampleEmptyFolderBridge]).2 rfl).imp
      (fun _ h => h.imp (fun _ h2 => ⟨h2.1, h2.2.2.2.2⟩))⟩

end Kokua
